import Mathlib

/-!
# Verification of `lib/src/wasm.c` (tree-sitter WebAssembly language loader)

A shallow embedding of the dylink-section parser, the import/export resolution of
`ts_wasm_store__instantiate`, the store bookkeeping of `ts_wasm_store_load_language` /
`ts_wasm_store_add_language`, and `copy_strings`, followed by theorems about them.

Conventions of the embedding:
* a pointer into a buffer is the `Nat` index of the byte it points to; the module bytes given
  to the parser are a `List Byte` and `end` is the index one past the last byte; the guest
  linear memory is a `Memory` (a size and a byte for every index below it);
* machine integers are `Nat` with the wrap-around written out (`% 2 ^ 64`, `% 2 ^ 32`);
* a run that has no defined result (a read outside a buffer, `abort()`, a loop that does not
  end) is an `Except.error` with a `Stuck` reason; `Except.ok` carries what the C function
  returns together with the state it leaves.
-/

namespace TreeSitterWasm

/-- One octet (`uint8_t`). -/
abbrev Byte := Fin 256

/-- Why a run has no returned value. -/
inductive Stuck where
  /-- a read outside the buffer that was handed to the function -/
  | outOfBounds
  /-- the loop bound of the embedding was exhausted (the C loop would still be running) -/
  | outOfFuel
  /-- the process was ended by `abort()` or a failed `assert` -/
  | aborted
  deriving DecidableEq, Repr

deriving instance DecidableEq for Except

/-- Structure `WasmDylinkMemoryInfo` (wasm.c:113-118), four `uint32_t` fields. -/
structure WasmDylinkMemoryInfo where
  memory_size : Nat
  memory_align : Nat
  table_size : Nat
  table_align : Nat
  deriving DecidableEq, Repr

/-- Constant `UINT64_MAX`. -/
def UINT64_MAX : Nat := 2 ^ 64 - 1

/-- Function `read_u8` (wasm.c:137-139): `return *(*p)++;`. No comparison with `end` is made;
a read at an index outside the buffer has no defined value. Returns the byte and the new `p`. -/
def read_u8 (bytes : List Byte) (p : Nat) : Except Stuck (Nat × Nat) :=
  match bytes[p]? with
  | none => .error .outOfBounds
  | some b => .ok (b.val, p + 1)

/-- The C expression `(uint64_t)x << shift`. For `shift < 64` this is `x * 2 ^ shift` reduced
modulo `2 ^ 64`. C leaves a shift count of 64 or more undefined; the embedding takes the count
modulo 64, as the shift instructions of x86-64 and AArch64 do. -/
def shl64 (x shift : Nat) : Nat := (x * 2 ^ (shift % 64)) % 2 ^ 64

/-- The `do ... while` loop of `read_uleb128` (wasm.c:144-148). `value` is a `uint64_t`,
`shift` an `unsigned` (32 bits). One unit of `fuel` is one loop iteration. Returns the value and
the new `p`. -/
def read_uleb128_loop (bytes : List Byte) (end_ : Nat) :
    Nat → Nat → Nat → Nat → Except Stuck (Nat × Nat)
  | 0, _, _, _ => .error .outOfFuel
  | fuel + 1, p, value, shift =>
    if p = end_ then .ok (UINT64_MAX, p)
    else
      match bytes[p]? with
      | none => .error .outOfBounds
      | some b =>
        let value := (value + shl64 (b.val % 128) shift) % 2 ^ 64
        let shift := (shift + 7) % 2 ^ 32
        if 128 ≤ b.val then read_uleb128_loop bytes end_ fuel (p + 1) value shift
        else .ok (value, p + 1)

/-- Function `read_uleb128` (wasm.c:141-150). Every iteration that does not return moves `p`
one byte forward and every iteration reads inside the buffer, so `bytes.length + 1 - p`
iterations are enough for any run that stays inside the buffer. -/
def read_uleb128 (bytes : List Byte) (p end_ : Nat) : Except Stuck (Nat × Nat) :=
  read_uleb128_loop bytes end_ (bytes.length + 1 - p) p 0 0

/-- The C expression `memcmp(p, pat, n) == 0` with `n = pat.length`; all `n` bytes at `p` have to
lie inside the buffer. -/
def memcmp_eq (bytes : List Byte) (p : Nat) (pat : List Byte) : Except Stuck Bool :=
  if p + pat.length ≤ bytes.length then .ok ((bytes.drop p).take pat.length == pat)
  else .error .outOfBounds

/-- Array `WASM_MAGIC_NUMBER` (wasm.c:157): `{0, 'a', 's', 'm'}`. -/
def WASM_MAGIC_NUMBER : List Byte := [0, 0x61, 0x73, 0x6d]

/-- Array `WASM_VERSION` (wasm.c:158). -/
def WASM_VERSION : List Byte := [1, 0, 0, 0]

/-- Constant `WASM_CUSTOM_SECTION` (wasm.c:159). -/
def WASM_CUSTOM_SECTION : Nat := 0

/-- Constant `WASM_DYLINK_MEM_INFO` (wasm.c:160). -/
def WASM_DYLINK_MEM_INFO : Nat := 1

/-- The string literal `"dylink.0"` (wasm.c:182). -/
def DYLINK_NAME : List Byte := [0x64, 0x79, 0x6c, 0x69, 0x6e, 0x6b, 0x2e, 0x30]

/-- The four reads of the memory-info subsection (wasm.c:190-194); each result is stored in a
`uint32_t` field, then `return true`. -/
def read_memory_info (bytes : List Byte) (p subsection_end : Nat) :
    Except Stuck WasmDylinkMemoryInfo :=
  match read_uleb128 bytes p subsection_end with
  | .error e => .error e
  | .ok (v1, p1) =>
    match read_uleb128 bytes p1 subsection_end with
    | .error e => .error e
    | .ok (v2, p2) =>
      match read_uleb128 bytes p2 subsection_end with
      | .error e => .error e
      | .ok (v3, p3) =>
        match read_uleb128 bytes p3 subsection_end with
        | .error e => .error e
        | .ok (v4, _) =>
          .ok { memory_size := v1 % 2 ^ 32, memory_align := v2 % 2 ^ 32,
                table_size := v3 % 2 ^ 32, table_align := v4 % 2 ^ 32 }

/-- The inner loop `while (p < section_end)` over the subsections of a `dylink.0` section
(wasm.c:184-197). The result `none` means the loop ended without a `return` (control goes on
to `p = section_end`), `some r` means the function returned `r` (`none` for `false`,
`some info` for `true` with `*info` filled in). -/
def parse_subsections (bytes : List Byte) (section_end : Nat) :
    Nat → Nat → Except Stuck (Option (Option WasmDylinkMemoryInfo))
  | 0, _ => .error .outOfFuel
  | fuel + 1, p =>
    if p < section_end then
      match read_u8 bytes p with
      | .error e => .error e
      | .ok (subsection_type, p1) =>
        match read_uleb128 bytes p1 section_end with
        | .error e => .error e
        | .ok (v, p2) =>
          let subsection_size := v % 2 ^ 32
          let subsection_end := p2 + subsection_size
          if subsection_end > section_end then .ok (some none)
          else if subsection_type = WASM_DYLINK_MEM_INFO then
            match read_memory_info bytes p2 subsection_end with
            | .error e => .error e
            | .ok info => .ok (some (some info))
          else parse_subsections bytes section_end fuel subsection_end
    else .ok none

/-- The body of a custom section (wasm.c:178-198), entered with `p` just after the section
length. Result as for `parse_subsections`. -/
def parse_custom_section (bytes : List Byte) (section_end p : Nat) :
    Except Stuck (Option (Option WasmDylinkMemoryInfo)) :=
  match read_uleb128 bytes p section_end with
  | .error e => .error e
  | .ok (v, p1) =>
    let name_length := v % 2 ^ 32
    let name_end := p1 + name_length
    if name_end > section_end then .ok (some none)
    else if name_length = 8 then
      match memcmp_eq bytes p1 DYLINK_NAME with
      | .error e => .error e
      | .ok true => parse_subsections bytes section_end (bytes.length + 1) name_end
      | .ok false => .ok none
    else .ok none

/-- The outer loop `while (p < end)` over the sections (wasm.c:171-202), `end = bytes + length`.
The result is the return value of the function: `none` for `false`, `some info` for `true`. -/
def parse_sections (bytes : List Byte) : Nat → Nat → Except Stuck (Option WasmDylinkMemoryInfo)
  | 0, _ => .error .outOfFuel
  | fuel + 1, p =>
    if p < bytes.length then
      match read_u8 bytes p with
      | .error e => .error e
      | .ok (section_id, p1) =>
        match read_uleb128 bytes p1 bytes.length with
        | .error e => .error e
        | .ok (v, p2) =>
          let section_length := v % 2 ^ 32
          let section_end := p2 + section_length
          if section_end > bytes.length then .ok none
          else if section_id = WASM_CUSTOM_SECTION then
            match parse_custom_section bytes section_end p2 with
            | .error e => .error e
            | .ok (some r) => .ok r
            | .ok none => parse_sections bytes fuel section_end
          else parse_sections bytes fuel section_end
    else .ok none

/-- Function `parse_wasm_dylink_memory_info` (wasm.c:152-203). The buffer is the list `bytes`
and `length = bytes.length`. `none` is `return false`; `some info` is `return true` with the
four fields of `*info` written. -/
def parse_wasm_dylink_memory_info (bytes : List Byte) :
    Except Stuck (Option WasmDylinkMemoryInfo) :=
  if bytes.length < 8 then .ok none
  else
    match memcmp_eq bytes 0 WASM_MAGIC_NUMBER with
    | .error e => .error e
    | .ok false => .ok none
    | .ok true =>
      match memcmp_eq bytes 4 WASM_VERSION with
      | .error e => .error e
      | .ok false => .ok none
      | .ok true => parse_sections bytes (bytes.length + 1) 8

/-! ### Vocabulary of the binary format, used to state what the parser is given -/

/-- The byte list is one complete ULEB128 value: every byte but the last has the
continuation bit (bit 7) set and the last one has it clear. No limit on the length. -/
def uleb_complete : List Byte → Bool
  | [] => false
  | b :: rest => if b.val < 128 then rest.isEmpty else uleb_complete rest

/-- The number a ULEB128 byte list stands for: the 7-bit groups, least significant first. -/
def uleb_value : List Byte → Nat
  | [] => 0
  | b :: rest => b.val % 128 + 128 * uleb_value rest

/-- What the loop of `read_uleb128` accumulates over a byte list, starting from `value` and
`shift`, in the arithmetic of the C code. -/
def uleb_acc : List Byte → Nat → Nat → Nat
  | [], value, _ => value
  | b :: rest, value, shift =>
    uleb_acc rest ((value + shl64 (b.val % 128) shift) % 2 ^ 64) ((shift + 7) % 2 ^ 32)

/-- A well-formed section that is not the `dylink.0` section: an id byte, the payload length
as a ULEB128 below `2 ^ 32`, and the payload; when the id is 0 (custom section) the payload
starts with a name (length as ULEB128, then the bytes) that is not `dylink.0`. -/
inductive SkippedSection : List Byte → Prop
  | non_custom (id : Byte) (len_enc payload : List Byte) :
      id.val ≠ 0 → uleb_complete len_enc = true → uleb_value len_enc = payload.length →
      payload.length < 2 ^ 32 → SkippedSection (id :: (len_enc ++ payload))
  | custom (len_enc name_enc name rest : List Byte) :
      uleb_complete len_enc = true →
      uleb_value len_enc = (name_enc ++ (name ++ rest)).length →
      (name_enc ++ (name ++ rest)).length < 2 ^ 32 →
      uleb_complete name_enc = true → uleb_value name_enc = name.length →
      name ≠ DYLINK_NAME → SkippedSection (0 :: (len_enc ++ (name_enc ++ (name ++ rest))))

/-- Any number of skipped sections, one after the other. -/
inductive SkippedSections : List Byte → Prop
  | nil : SkippedSections []
  | cons (s rest : List Byte) : SkippedSection s → SkippedSections rest →
      SkippedSections (s ++ rest)

/-- A well-formed subsection of `dylink.0` whose type is not 1 (memory info): a type byte, the
payload size as a ULEB128 below `2 ^ 32`, and the payload. -/
inductive SkippedSubsection : List Byte → Prop
  | mk (ty : Byte) (size_enc payload : List Byte) :
      ty.val ≠ 1 → uleb_complete size_enc = true → uleb_value size_enc = payload.length →
      payload.length < 2 ^ 32 → SkippedSubsection (ty :: (size_enc ++ payload))

/-- Any number of skipped subsections, one after the other. -/
inductive SkippedSubsections : List Byte → Prop
  | nil : SkippedSubsections []
  | cons (s rest : List Byte) : SkippedSubsection s → SkippedSubsections rest →
      SkippedSubsections (s ++ rest)


/-- A C string literal or `char *` argument as the list of its bytes, without the final NUL. -/
def cstr (s : String) : List Byte := s.toList.map (fun c => Fin.ofNat c.toNat)

/-- Guest linear memory, the array `wasmtime_memory_data` points to: `size` bytes, the byte at
index `i < size` is `data i`. -/
structure Memory where
  size : Nat
  data : Nat → Byte

/-- A function reference; `none` is the null reference. -/
abbrev Funcref := Option Nat

/-- Structure `wasmtime_extern_t`: the kind tag with its payload. A global is an immutable `i32`
global and is identified with the value it holds; table 0 and memory 0 are the store's. -/
inductive wasmtime_extern_t where
  | func (f : Funcref)
  | global (value : Nat)
  | table (t : Nat)
  | memory (m : Nat)
  deriving DecidableEq, Repr

/-- The part of the engine state that guest code can change: memory and function table. -/
structure Guest where
  memory : Memory
  table : List Funcref

/-- Result of `wasmtime_func_call`: an engine error (the `assert(!error)` that follows ends the
process; a result that is not an `i32` where one is expected fails an `assert` likewise and is
counted here), a trap, or the returned `i32`. -/
inductive CallOutcome where
  | error
  | trap
  | returns (value : Nat)

/-- Structure `wasmtime_instance_t`: the exports in declared order (`wasmtime_instance_export_nth`)
and what calling one of them as a function without arguments does (the C code passes
`export.of.func` whatever the kind of the export is). -/
structure wasmtime_instance_t where
  exports : List wasmtime_extern_t
  call : wasmtime_extern_t → Guest → CallOutcome × Guest

/-- Result of `wasmtime_instance_new`. -/
inductive InstanceOutcome where
  | error
  | trap
  | created (inst : wasmtime_instance_t)

/-- Structure `wasmtime_module_t`: import names and export names in declared order
(`wasmtime_module_imports`, `wasmtime_module_exports`) and instantiation. -/
structure wasmtime_module_t where
  imports : List (List Byte)
  exports : List (List Byte)
  instance_new : List wasmtime_extern_t → Guest → InstanceOutcome × Guest

/-- The engine: `wasmtime_module_new` compiles bytes to a module or reports an error (`none`). -/
structure TSWasmEngine where
  module_new : List Byte → Option wasmtime_module_t

/-! ### Data of `wasm.c` -/

/-- Structure `LanguageWasmModule` (wasm.c:15-21). The two name buffers are the backing
buffers filled by `copy_strings`. -/
structure LanguageWasmModule where
  module : wasmtime_module_t
  language_id : Nat
  name : List Byte
  symbol_name_buffer : List Byte
  field_name_buffer : List Byte

/-- Structure `LanguageWasmInstance` (wasm.c:23-34); the `int32_t` fields hold the 32-bit
pattern read from guest memory. -/
structure LanguageWasmInstance where
  language_id : Nat
  instance_ : wasmtime_instance_t
  external_states_address : Nat
  lex_main_fn_index : Nat
  lex_keyword_fn_index : Nat
  scanner_create_fn_index : Nat
  scanner_destroy_fn_index : Nat
  scanner_serialize_fn_index : Nat
  scanner_deserialize_fn_index : Nat
  scanner_scan_fn_index : Nat

/-- The two fields of `TSLexer` (declared in `api.h`, outside `wasm.c`) that `wasm.c` copies to
and from guest memory. -/
structure TSLexer where
  lookahead : Nat
  result_symbol : Nat

/-- Structure `TSWasmStore` (wasm.c:36-60). `function_table` and `memory` stand for the
contents of the engine objects the handles refer to; `current_instance` is the index of the
element of `language_instances` the pointer refers to. The thirteen `*_fn_index` fields are
never read or written after the zero initialisation and are left out. -/
structure TSWasmStore where
  engine : TSWasmEngine
  function_table : List Funcref
  memory : Memory
  current_lexer : Option TSLexer
  current_instance : Option Nat
  language_instances : List LanguageWasmInstance
  current_memory_offset : Nat
  current_function_table_offset : Nat

/-- Constant `LEXER_ADDRESS` (wasm.c:121). -/
def LEXER_ADDRESS : Nat := 32

/-- The value of `sizeof(LexerInWasmMemory)` (wasm.c:103-111) under the usual C layout:
`int32_t` at 0, `TSSymbol` (`uint16_t`) at 4, two bytes of padding, five `int32_t` at 8..27. -/
def sizeof_LexerInWasmMemory : Nat := 28

/-- Constant `LEXER_END_ADDRESS` (wasm.c:122). -/
def LEXER_END_ADDRESS : Nat := LEXER_ADDRESS + sizeof_LexerInWasmMemory

/-- Enumerators of `enum FunctionIx` (wasm.c:124-135). -/
def PROC_EXIT_IX : Nat := 0
/-- Enumerator of `enum FunctionIx`. -/
def LEXER_ADVANCE_IX : Nat := 1
/-- Enumerator of `enum FunctionIx`. -/
def LEXER_MARK_END_IX : Nat := 2
/-- Enumerator of `enum FunctionIx`. -/
def LEXER_GET_COLUMN_IX : Nat := 3
/-- Enumerator of `enum FunctionIx`. -/
def LEXER_IS_AT_INCLUDED_RANGE_START_IX : Nat := 4
/-- Enumerator of `enum FunctionIx`. -/
def LEXER_EOF_IX : Nat := 5
/-- Enumerator of `enum FunctionIx`. -/
def ISWSPACE_IX : Nat := 6
/-- Enumerator of `enum FunctionIx`. -/
def ISWDIGIT_IX : Nat := 7
/-- Enumerator of `enum FunctionIx`. -/
def ISWALPHA_IX : Nat := 8
/-- Enumerator of `enum FunctionIx`. -/
def ISWALNUM_IX : Nat := 9

/-- The number of entries of `definitions` in `ts_wasm_store_new` (wasm.c:388-400). -/
def definitions_len : Nat := 10

/-! ### `name_eq` and `ts_wasm_store__instantiate` -/

/-- The C expression `strncmp(s1, s2, n) == 0`, where `s1` is a NUL-terminated string given
without its terminator and `s2` is a buffer of at least `n` bytes. The comparison goes on while
the bytes are equal; it ends with "equal" after `n` bytes or at a NUL found in both. -/
def strncmp_eq : List Byte → List Byte → Nat → Bool
  | _, _, 0 => true
  | [], d :: _, _ + 1 => d == 0
  | [], [], _ + 1 => false
  | _ :: _, [], _ + 1 => false
  | c :: cs, d :: ds, n + 1 => c == d && strncmp_eq cs ds n

/-- Function `name_eq` (wasm.c:344-346): `strncmp(string, name->data, name->size) == 0`. The
`wasm_name_t` is the list of its `size` bytes. -/
def name_eq (name : List Byte) (string : List Byte) : Bool :=
  strncmp_eq string name name.length

/-- Function `get_builtin_func_extern` (wasm.c:348-357): the function reference in slot `index`
of the table; `assert(exists)` fails when the table has no such slot. -/
def get_builtin_func_extern (table : List Funcref) (index : Nat) :
    Except Stuck wasmtime_extern_t :=
  match table[index]? with
  | none => .error .aborted
  | some f => .ok (.func f)

/-- The global `memory_base_global` (wasm.c:493-498), made from
`WASM_I32_VAL(self->current_memory_offset)`. -/
def memory_base_global (self : TSWasmStore) : wasmtime_extern_t :=
  .global self.current_memory_offset

/-- The global `table_base_global` (wasm.c:492-500), made from
`WASM_I32_VAL(self->current_function_table_offset)`. -/
def table_base_global (self : TSWasmStore) : wasmtime_extern_t :=
  .global self.current_function_table_offset

/-- One iteration of the import loop (wasm.c:508-550) for the import named `import_name`:
`some e` is the value stored in `imports[i]`, `none` is `return false`. -/
def resolve_import (self : TSWasmStore) (import_name : List Byte) :
    Except Stuck (Option wasmtime_extern_t) :=
  match import_name with
  | [] => .ok none
  | c :: _ =>
    if c = 0x5f then
      if name_eq import_name (cstr "__memory_base") then .ok (some (memory_base_global self))
      else if name_eq import_name (cstr "__table_base") then .ok (some (table_base_global self))
      else if name_eq import_name (cstr "__indirect_function_table") then .ok (some (.table 0))
      else .ok none
    else if c = 0x6d then
      if name_eq import_name (cstr "memory") then .ok (some (.memory 0))
      else .ok none
    else if c = 0x69 then
      if name_eq import_name (cstr "iswspace") then
        ( get_builtin_func_extern self.function_table ISWSPACE_IX).map some
      else if name_eq import_name (cstr "iswdigit") then
        ( get_builtin_func_extern self.function_table ISWDIGIT_IX).map some
      else if name_eq import_name (cstr "iswalpha") then
        ( get_builtin_func_extern self.function_table ISWALPHA_IX).map some
      else if name_eq import_name (cstr "iswalnum") then
        ( get_builtin_func_extern self.function_table ISWALNUM_IX).map some
      else .ok none
    else .ok none

/-- The import loop (wasm.c:507-551) over the declared imports in order: `some imports` is
the filled array, `none` is `return false`. -/
def build_imports (self : TSWasmStore) : List (List Byte) →
    Except Stuck (Option (List wasmtime_extern_t))
  | [] => .ok (some [])
  | import_name :: rest =>
    match resolve_import self import_name with
    | .error e => .error e
    | .ok none => .ok none
    | .ok (some e) =>
      match build_imports self rest with
      | .error e2 => .error e2
      | .ok none => .ok none
      | .ok (some es) => .ok (some (e :: es))

/-- The name built in `language_function_name` (wasm.c:483-488). -/
def language_function_name (language_name : List Byte) : List Byte :=
  cstr "tree_sitter_" ++ language_name

/-- The export loop (wasm.c:568-595), from index `i` on, over the export names of the module.
`language_extern` is the current content of the local variable of that name. A trap or error
in the relocation function ends the process. -/
def process_exports (inst : wasmtime_instance_t) (function_name : List Byte) :
    List (List Byte) → Nat → wasmtime_extern_t → Guest →
    Except Stuck (wasmtime_extern_t × Guest)
  | [], _, language_extern, g => .ok ( language_extern, g)
  | name :: names, i, language_extern, g =>
    match inst.exports[i]? with
    | none => .error .aborted
    | some export_ =>
      if name_eq name (cstr "__wasm_apply_data_relocs") then
        match inst.call export_ g with
        | (.returns _, g1) => process_exports inst function_name names (i + 1) language_extern g1
        | (_, _) => .error .aborted
      else if name_eq name function_name then
        process_exports inst function_name names (i + 1) export_ g
      else process_exports inst function_name names (i + 1) language_extern g

/-- The test `language_extern.kind != WASMTIME_EXTERN_FUNC` (wasm.c:598), negated. -/
def is_func : wasmtime_extern_t → Bool
  | .func _ => true
  | _ => false

/-- The store with the guest state `g` written back. -/
def with_guest (self : TSWasmStore) (g : Guest) : TSWasmStore :=
  { self with memory := g.memory, function_table := g.table }

/-- Function `ts_wasm_store__instantiate` (wasm.c:471-619). `uninit` is the indeterminate
initial content of the local variable `language_extern`, which is declared without an
initialiser. The result is the store afterwards together with `none` for `return false` or
`some (instance, language_address)` for `return true`. -/
def ts_wasm_store__instantiate (self : TSWasmStore) (module : wasmtime_module_t)
    (language_name : List Byte) (uninit : wasmtime_extern_t) :
    Except Stuck (Option (wasmtime_instance_t × Nat) × TSWasmStore) :=
  match build_imports self module.imports with
  | .error e => .error e
  | .ok none => .ok (none, self)
  | .ok (some imports) =>
    match module.instance_new imports ⟨self.memory, self.function_table⟩ with
    | (.error, _) => .error .aborted
    | (.trap, g) => .ok (none, with_guest self g)
    | (.created inst, g) =>
      match process_exports inst (language_function_name language_name) module.exports 0
          uninit g with
      | .error e => .error e
      | .ok ( language_extern, g1) =>
        if is_func language_extern then
          match inst.call language_extern g1 with
          | (.error, _) => .error .aborted
          | (.trap, g2) => .ok (none, with_guest self g2)
          | (.returns language_address, g2) =>
            .ok (some (inst, language_address), with_guest self g2)
        else .ok (none, with_guest self g1)

/-! ### Reading guest memory and `copy_strings` -/

/-- The host index of `data[a]` for an `int32_t` value with bit pattern `a`: a negative value
(bit 31 set) points before the start of the memory. -/
def int32_index (a : Nat) : Except Stuck Nat :=
  if a < 2 ^ 31 then .ok a else .error .outOfBounds

/-- The 32-bit integer stored in the four bytes at `addr` (little-endian, as in WebAssembly
memory and on the hosts the code runs on). -/
def load_u32 (m : Memory) (addr : Nat) : Nat :=
  (m.data addr).val + 256 * (m.data (addr + 1)).val + 65536 * (m.data (addr + 2)).val
    + 16777216 * (m.data (addr + 3)).val

/-- The 16-bit integer stored in the two bytes at `addr` (little-endian). -/
def load_u16 (m : Memory) (addr : Nat) : Nat :=
  (m.data addr).val + 256 * (m.data (addr + 1)).val

/-- The C statement `memcpy(&x, &data[addr], 4)` into a 32-bit integer: the four bytes at
`addr`, which have to lie inside the memory. -/
def read_u32 (m : Memory) (addr : Nat) : Except Stuck Nat :=
  if addr + 4 ≤ m.size then .ok (load_u32 m addr) else .error .outOfBounds

/-- The C statement `memcpy(&x, &data[addr], 2)` into a 16-bit integer. -/
def read_u16 (m : Memory) (addr : Nat) : Except Stuck Nat :=
  if addr + 2 ≤ m.size then .ok (load_u16 m addr) else .error .outOfBounds

/-- The loop of `strlen` on the memory from `addr` on, having looked at `i` bytes. -/
def strlen_loop (m : Memory) (addr : Nat) : Nat → Nat → Except Stuck Nat
  | 0, _ => .error .outOfFuel
  | fuel + 1, i =>
    if addr + i < m.size then
      if m.data (addr + i) = 0 then .ok i else strlen_loop m addr fuel (i + 1)
    else .error .outOfBounds

/-- The C call `strlen((const char *)&data[addr])`: the number of bytes before the first zero
byte at or after `addr`; running off the end of the memory has no defined result. -/
def strlen (m : Memory) (addr : Nat) : Except Stuck Nat :=
  strlen_loop m addr (m.size + 1 - addr) 0

/-- The bytes `data[addr] .. data[addr + n - 1]`. -/
def memory_bytes (m : Memory) (addr n : Nat) : List Byte :=
  (List.range n).map (fun j => m.data (addr + j))

/-- The value of `(const char *)-1` as an integer on a 64-bit host. -/
def UINTPTR_MAX : Nat := 2 ^ 64 - 1

/-- Modelled from the spec: `array_extend(string_data, count, contents)` of `array.h`, which is
not part of the sources at hand ("append bytes+terminator to the backing buffer"); the buffer is
the list of its `size` bytes. -/
def array_extend (string_data : List Byte) (contents : List Byte) : List Byte :=
  string_data ++ contents

/-- The first loop of `copy_strings` (wasm.c:322-333), for the `n` entries from index `i` on.
Returns the entries of `result` as integers (an offset into the backing buffer, or the marker
`(const char *)-1`) and the backing buffer. -/
def copy_strings_offsets (m : Memory) (array_address : Nat) :
    Nat → Nat → List Byte → Except Stuck (List Nat × List Byte)
  | 0, _, string_data => .ok ([], string_data)
  | n + 1, i, string_data =>
    match int32_index array_address with
    | .error e => .error e
    | .ok base =>
      match read_u32 m (base + i * 4) with
      | .error e => .error e
      | .ok address =>
        if address = 0 then
          match copy_strings_offsets m array_address n (i + 1) string_data with
          | .error e => .error e
          | .ok (rest, sd) => .ok (UINTPTR_MAX :: rest, sd)
        else
          match int32_index address with
          | .error e => .error e
          | .ok string =>
            match strlen m string with
            | .error e => .error e
            | .ok l =>
              let len := l % 2 ^ 32
              let count := (len + 1) % 2 ^ 32
              match copy_strings_offsets m array_address n (i + 1)
                  (array_extend string_data (memory_bytes m string count)) with
              | .error e => .error e
              | .ok (rest, sd) => .ok (string_data.length :: rest, sd)

/-- The second loop of `copy_strings` (wasm.c:334-340) on one entry: `none` is `NULL`,
`some off` is the pointer `string_data->contents + off`. -/
def copy_strings_pointer (entry : Nat) : Option Nat :=
  if entry = UINTPTR_MAX then none else some entry

/-- Function `copy_strings` (wasm.c:315-342). Returns the array `result` and the backing buffer
`*string_data` afterwards. The counter `i` is an `unsigned`, so for `count` of `2 ^ 32` or more
the loop condition `i < count` never becomes false. -/
def copy_strings (m : Memory) (array_address count : Nat) (string_data : List Byte) :
    Except Stuck (List (Option Nat) × List Byte) :=
  if 2 ^ 32 ≤ count then .error .outOfFuel
  else
    match copy_strings_offsets m array_address count 0 string_data with
    | .error e => .error e
    | .ok (entries, sd) => .ok (entries.map copy_strings_pointer, sd)

/-- The guest memory used to illustrate `copy_strings`: 64 bytes; an array of five guest
addresses at 8 (`44, 0, 48, 0, 50`), the strings `"hi"` at 44, `"x"` at 48 and `"abc"` at 50. -/
def copy_strings_example_memory : Memory where
  size := 64
  data := fun i =>
    ([0, 0, 0, 0, 0, 0, 0, 0,
      44, 0, 0, 0, 0, 0, 0, 0, 48, 0, 0, 0, 0, 0, 0, 0, 50, 0, 0, 0,
      0, 0, 0, 0, 0, 0, 0, 0, 0, 0, 0, 0, 0, 0, 0, 0,
      0x68, 0x69, 0, 0xFF, 0x78, 0, 0x61, 0x62, 0x63, 0] : List Byte).getD i 0

/-! ### Copy-out of the language block and the loader -/

/-- Structure `LanguageInWasmMemory` (wasm.c:64-101); every field holds the bit pattern read
from guest memory. -/
structure LanguageInWasmMemory where
  version : Nat
  symbol_count : Nat
  alias_count : Nat
  token_count : Nat
  external_token_count : Nat
  state_count : Nat
  large_state_count : Nat
  production_id_count : Nat
  field_count : Nat
  max_alias_sequence_length : Nat
  parse_table : Nat
  small_parse_table : Nat
  small_parse_table_map : Nat
  parse_actions : Nat
  symbol_names : Nat
  field_names : Nat
  field_map_slices : Nat
  field_map_entries : Nat
  symbol_metadata : Nat
  public_symbol_map : Nat
  alias_map : Nat
  alias_sequences : Nat
  lex_modes : Nat
  lex_fn : Nat
  keyword_lex_fn : Nat
  keyword_capture_token : Nat
  external_scanner_states : Nat
  external_scanner_symbol_map : Nat
  external_scanner_create : Nat
  external_scanner_destroy : Nat
  external_scanner_scan : Nat
  external_scanner_serialize : Nat
  external_scanner_deserialize : Nat
  primary_state_ids : Nat
  deriving DecidableEq, Repr

/-- The value of `sizeof(LanguageInWasmMemory)` under the usual C layout (every `uint16_t`
member is followed by two bytes of padding). -/
def sizeof_LanguageInWasmMemory : Nat := 136

/-- The C statement `memcpy(&wasm_language, &memory[language_address], sizeof(LanguageInWasmMemory))`
(wasm.c:657 and 837), with the members at their offsets under the usual C layout. -/
def read_language (m : Memory) (language_address : Nat) :
    Except Stuck LanguageInWasmMemory :=
  match int32_index language_address with
  | .error e => .error e
  | .ok a =>
    if a + sizeof_LanguageInWasmMemory ≤ m.size then
      .ok {
        version := load_u32 m a
        symbol_count := load_u32 m (a + 4)
        alias_count := load_u32 m (a + 8)
        token_count := load_u32 m (a + 12)
        external_token_count := load_u32 m (a + 16)
        state_count := load_u32 m (a + 20)
        large_state_count := load_u32 m (a + 24)
        production_id_count := load_u32 m (a + 28)
        field_count := load_u32 m (a + 32)
        max_alias_sequence_length := load_u16 m (a + 36)
        parse_table := load_u32 m (a + 40)
        small_parse_table := load_u32 m (a + 44)
        small_parse_table_map := load_u32 m (a + 48)
        parse_actions := load_u32 m (a + 52)
        symbol_names := load_u32 m (a + 56)
        field_names := load_u32 m (a + 60)
        field_map_slices := load_u32 m (a + 64)
        field_map_entries := load_u32 m (a + 68)
        symbol_metadata := load_u32 m (a + 72)
        public_symbol_map := load_u32 m (a + 76)
        alias_map := load_u32 m (a + 80)
        alias_sequences := load_u32 m (a + 84)
        lex_modes := load_u32 m (a + 88)
        lex_fn := load_u32 m (a + 92)
        keyword_lex_fn := load_u32 m (a + 96)
        keyword_capture_token := load_u16 m (a + 100)
        external_scanner_states := load_u32 m (a + 104)
        external_scanner_symbol_map := load_u32 m (a + 108)
        external_scanner_create := load_u32 m (a + 112)
        external_scanner_destroy := load_u32 m (a + 116)
        external_scanner_scan := load_u32 m (a + 120)
        external_scanner_serialize := load_u32 m (a + 124)
        external_scanner_deserialize := load_u32 m (a + 128)
        primary_state_ids := load_u32 m (a + 132) }
    else .error .outOfBounds

/-- Sizes of the parser table records, which are declared in `parser.h`, outside the sources at
hand; they are inputs of the embedding. -/
structure ParserSizes where
  parse_action_entry : Nat
  symbol_metadata : Nat
  lex_mode : Nat
  field_map_slice : Nat
  field_map_entry : Nat

/-- The value of `sizeof(TSSymbol)`; `TSSymbol` is `uint16_t`. -/
def sizeof_TSSymbol : Nat := 2

/-- Function `copy` (wasm.c:309-313) applied to `&memory[address]`, `address` being an
`int32_t` bit pattern: the `size` bytes read from guest memory. Nothing is read when `size` is
zero. -/
def copy (m : Memory) (address size : Nat) : Except Stuck (List Byte) :=
  if size = 0 then .ok []
  else
    match int32_index address with
    | .error e => .error e
    | .ok a => if a + size ≤ m.size then .ok (memory_bytes m a size) else .error .outOfBounds

/-- The 16-bit integer in the two bytes at `offset` of a host buffer (zero past its end). -/
def buffer_u16 (buffer : List Byte) (offset : Nat) : Nat :=
  (buffer.getD offset 0).val + 256 * (buffer.getD (offset + 1) 0).val

/-- The 32-bit integer in the four bytes at `offset` of a host buffer (zero past its end). -/
def buffer_u32 (buffer : List Byte) (offset : Nat) : Nat :=
  buffer_u16 buffer offset + 65536 * buffer_u16 buffer (offset + 2)

/-- The loop that measures the alias map (wasm.c:723-732). `alias_map_size` is the running
value of the variable of that name; the result is its value at the `break`. -/
def alias_map_scan (m : Memory) (alias_map : Nat) : Nat → Nat → Except Stuck Nat
  | 0, _ => .error .outOfFuel
  | fuel + 1, alias_map_size =>
    match read_u16 m (alias_map + alias_map_size) with
    | .error e => .error e
    | .ok symbol =>
      if symbol = 0 then .ok (alias_map_size + sizeof_TSSymbol)
      else
        match read_u16 m (alias_map + (alias_map_size + sizeof_TSSymbol)) with
        | .error e => .error e
        | .ok value_count =>
          alias_map_scan m alias_map fuel
            (alias_map_size + sizeof_TSSymbol + value_count * sizeof_TSSymbol)

/-- The native descriptor `TSLanguage` (declared in `parser.h`), with the members that
`ts_wasm_store_load_language` sets. Copied tables are the lists of their bytes (empty when the
member is left `NULL`), string arrays are lists of pointers into their backing buffer,
`lex_fn_is_sentinel` says that `lex_fn` is `ts_wasm_store__sentinel_lex_fn`, and
`keyword_lex_fn` is the `LanguageWasmModule` the member points to. -/
structure TSLanguage where
  version : Nat
  symbol_count : Nat
  alias_count : Nat
  token_count : Nat
  external_token_count : Nat
  state_count : Nat
  large_state_count : Nat
  production_id_count : Nat
  field_count : Nat
  max_alias_sequence_length : Nat
  keyword_capture_token : Nat
  parse_table : List Byte
  parse_actions : List Byte
  symbol_names : List (Option Nat)
  symbol_metadata : List Byte
  public_symbol_map : List Byte
  lex_modes : List Byte
  field_map_slices : List Byte
  field_map_entries : List Byte
  field_names : List (Option Nat)
  alias_map : List Byte
  alias_sequences : List Byte
  small_parse_table_map : List Byte
  small_parse_table : List Byte
  external_scanner_symbol_map : List Byte
  external_scanner_states : Nat
  lex_fn_is_sentinel : Bool
  keyword_lex_fn : Option LanguageWasmModule

/-- The tables that depend on `field_count` (wasm.c:703-719): `field_map_slices`,
`field_map_entries`, `field_names` and the backing buffer of the field names. -/
def copy_field_tables (sizes : ParserSizes) (m : Memory) (w : LanguageInWasmMemory) :
    Except Stuck (List Byte × List Byte × List (Option Nat) × List Byte) :=
  if 0 < w.field_count ∧ 0 < w.production_id_count then
    match copy m w.field_map_slices (w.production_id_count * sizes.field_map_slice) with
    | .error e => .error e
    | .ok slices =>
      let last := (w.production_id_count - 1) * sizes.field_map_slice
      match copy m w.field_map_entries
          ((buffer_u16 slices last + buffer_u16 slices (last + 2)) * sizes.field_map_entry) with
      | .error e => .error e
      | .ok entries =>
        match copy_strings m w.field_names ((w.field_count + 1) % 2 ^ 32) [] with
        | .error e => .error e
        | .ok (names, buffer) => .ok (slices, entries, names, buffer)
  else .ok ([], [], [], [])

/-- The tables that depend on `alias_count` (wasm.c:721-741): `alias_map` and
`alias_sequences`. -/
def copy_alias_tables (m : Memory) (w : LanguageInWasmMemory) :
    Except Stuck (List Byte × List Byte) :=
  if 0 < w.alias_count ∧ 0 < w.production_id_count then
    match int32_index w.alias_map with
    | .error e => .error e
    | .ok alias_map =>
      match alias_map_scan m alias_map (m.size + 1) 0 with
      | .error e => .error e
      | .ok alias_map_size =>
        match copy m w.alias_map (alias_map_size * sizeof_TSSymbol) with
        | .error e => .error e
        | .ok map =>
          match copy m w.alias_sequences
              ((w.production_id_count * w.max_alias_sequence_length) % 2 ^ 32
                * sizeof_TSSymbol) with
          | .error e => .error e
          | .ok sequences => .ok (map, sequences)
  else .ok ([], [])

/-- The small parse table (wasm.c:743-754): `small_parse_table_map` and `small_parse_table`. -/
def copy_small_parse_table (m : Memory) (w : LanguageInWasmMemory) :
    Except Stuck (List Byte × List Byte) :=
  if w.large_state_count < w.state_count then
    let small_state_count := w.state_count - w.large_state_count
    match copy m w.small_parse_table_map (small_state_count * 4) with
    | .error e => .error e
    | .ok map =>
      let index := buffer_u32 map ((small_state_count - 1) * 4)
      match copy m w.small_parse_table ((index + 64) % 2 ^ 32 * 2) with
      | .error e => .error e
      | .ok table => .ok (map, table)
  else .ok ([], [])

/-- The external scanner members (wasm.c:756-762): `symbol_map` and `states`, the latter being
`(void *)(uintptr_t)` of an `int32_t` (sign-extended to 64 bits). -/
def copy_external_scanner (m : Memory) (w : LanguageInWasmMemory) :
    Except Stuck (List Byte × Nat) :=
  if 0 < w.external_token_count then
    match copy m w.external_scanner_symbol_map (w.external_token_count * sizeof_TSSymbol) with
    | .error e => .error e
    | .ok map =>
      .ok (map, if w.external_scanner_states < 2 ^ 31 then w.external_scanner_states
                else w.external_scanner_states + (2 ^ 64 - 2 ^ 32))
  else .ok ([], 0)

/-- The construction of the native descriptor from guest memory (wasm.c:652-782), for the
`LanguageWasmModule` with the given id. Only guest memory is read; the store is not touched
between the call of `ts_wasm_store__instantiate` and the `array_push`. -/
def copy_language (sizes : ParserSizes) (m : Memory) (w : LanguageInWasmMemory)
    (module : wasmtime_module_t) (language_name : List Byte) (language_id : Nat) :
    Except Stuck TSLanguage :=
  match copy m w.parse_table ((w.large_state_count * w.symbol_count) % 2 ^ 32 * 2) with
  | .error e => .error e
  | .ok parse_table =>
  match copy m w.parse_actions (5655 * sizes.parse_action_entry) with
  | .error e => .error e
  | .ok parse_actions =>
  match copy_strings m w.symbol_names ((w.symbol_count + w.alias_count) % 2 ^ 32) [] with
  | .error e => .error e
  | .ok (symbol_names, symbol_name_buffer) =>
  match copy m w.symbol_metadata (w.symbol_count * sizes.symbol_metadata) with
  | .error e => .error e
  | .ok symbol_metadata =>
  match copy m w.public_symbol_map (w.symbol_count * sizeof_TSSymbol) with
  | .error e => .error e
  | .ok public_symbol_map =>
  match copy m w.lex_modes (w.state_count * sizes.lex_mode) with
  | .error e => .error e
  | .ok lex_modes =>
  match copy_field_tables sizes m w with
  | .error e => .error e
  | .ok (field_map_slices, field_map_entries, field_names, field_name_buffer) =>
  match copy_alias_tables m w with
  | .error e => .error e
  | .ok (alias_map, alias_sequences) =>
  match copy_small_parse_table m w with
  | .error e => .error e
  | .ok (small_parse_table_map, small_parse_table) =>
  match copy_external_scanner m w with
  | .error e => .error e
  | .ok (external_scanner_symbol_map, external_scanner_states) =>
    .ok {
      version := w.version
      symbol_count := w.symbol_count
      alias_count := w.alias_count
      token_count := w.token_count
      external_token_count := w.external_token_count
      state_count := w.state_count
      large_state_count := w.large_state_count
      production_id_count := w.production_id_count
      field_count := w.field_count
      max_alias_sequence_length := w.max_alias_sequence_length
      keyword_capture_token := w.keyword_capture_token
      parse_table := parse_table
      parse_actions := parse_actions
      symbol_names := symbol_names
      symbol_metadata := symbol_metadata
      public_symbol_map := public_symbol_map
      lex_modes := lex_modes
      field_map_slices := field_map_slices
      field_map_entries := field_map_entries
      field_names := field_names
      alias_map := alias_map
      alias_sequences := alias_sequences
      small_parse_table_map := small_parse_table_map
      small_parse_table := small_parse_table
      external_scanner_symbol_map := external_scanner_symbol_map
      external_scanner_states := external_scanner_states
      lex_fn_is_sentinel := true
      keyword_lex_fn := some {
        module := module
        language_id := language_id
        name := language_name
        symbol_name_buffer := symbol_name_buffer
        field_name_buffer := field_name_buffer } }

/-- The `LanguageWasmInstance` literal of wasm.c:786-797 and 838-849. -/
def new_language_instance (language_id : Nat) (inst : wasmtime_instance_t)
    (w : LanguageInWasmMemory) : LanguageWasmInstance where
  language_id := language_id
  instance_ := inst
  external_states_address := w.external_scanner_states
  lex_main_fn_index := w.lex_fn
  lex_keyword_fn_index := w.keyword_lex_fn
  scanner_create_fn_index := w.external_scanner_create
  scanner_destroy_fn_index := w.external_scanner_destroy
  scanner_serialize_fn_index := w.external_scanner_serialize
  scanner_deserialize_fn_index := w.external_scanner_deserialize
  scanner_scan_fn_index := w.external_scanner_scan

/-- Modelled from the spec: `atomic_inc(&NEXT_LANGUAGE_ID)` of `atomic.h`, which is not part of
the sources at hand ("a new globally-unique `language_id` via an atomic monotonic counter"):
the 32-bit counter is incremented and its new value returned. -/
def atomic_inc (counter : Nat) : Nat := (counter + 1) % 2 ^ 32

/-- Function `ts_wasm_store_load_language` (wasm.c:625-800). `next_language_id` is the value of
the global `NEXT_LANGUAGE_ID` before the call; `uninit` is as in `ts_wasm_store__instantiate`.
Returns the descriptor (`none` for `NULL`), the store afterwards and `NEXT_LANGUAGE_ID`
afterwards. The `array_push` of `array.h` appends at the end. -/
def ts_wasm_store_load_language (sizes : ParserSizes) (self : TSWasmStore)
    (next_language_id : Nat) (language_name : List Byte) (wasm : List Byte)
    (uninit : wasmtime_extern_t) :
    Except Stuck (Option TSLanguage × TSWasmStore × Nat) :=
  match self.engine.module_new wasm with
  | none => .ok (none, self, next_language_id)
  | some module =>
    match ts_wasm_store__instantiate self module language_name uninit with
    | .error e => .error e
    | .ok (none, self1) => .ok (none, self1, next_language_id)
    | .ok (some (inst, language_address), self1) =>
      match read_language self1.memory language_address with
      | .error e => .error e
      | .ok wasm_language =>
        let language_id := atomic_inc next_language_id
        match copy_language sizes self1.memory wasm_language module language_name
            language_id with
        | .error e => .error e
        | .ok language =>
          .ok (some language,
            { self1 with
              language_instances := self1.language_instances ++
                [new_language_instance language_id inst wasm_language] },
            language_id)

/-- The `array_insert(self, index, element)` of `array.h`: the element is put at position
`index`, which must not exceed the size (an `assert` in `array.h`). -/
def array_insert (l : List LanguageWasmInstance) (index : Nat) (x : LanguageWasmInstance) :
    Except Stuck (List LanguageWasmInstance) :=
  if index ≤ l.length then .ok (l.take index ++ x :: l.drop index) else .error .aborted

/-- Function `ts_wasm_store_add_language` (wasm.c:802-853). The macro
`array_search_sorted_by` of `array.h` is not part of the sources at hand and is the input
`search`: from the instance list and the wanted `language_id` it gives `*index` and `exists`.
Returns the `bool` result, `*index` and the store afterwards. -/
def ts_wasm_store_add_language (search : List LanguageWasmInstance → Nat → Nat × Bool)
    (self : TSWasmStore) (language : TSLanguage) (uninit : wasmtime_extern_t) :
    Except Stuck (Bool × Nat × TSWasmStore) :=
  match language.keyword_lex_fn with
  | none => .error .outOfBounds
  | some language_module =>
    match search self.language_instances language_module.language_id with
    | (index, true) => .ok (true, index, self)
    | (index, false) =>
      match ts_wasm_store__instantiate self language_module.module language_module.name
          uninit with
      | .error e => .error e
      | .ok (none, self1) => .ok (false, index, self1)
      | .ok (some (inst, language_address), self1) =>
        match read_language self1.memory language_address with
        | .error e => .error e
        | .ok wasm_language =>
          match array_insert self1.language_instances index
              (new_language_instance language_module.language_id inst wasm_language) with
          | .error e => .error e
          | .ok instances => .ok (true, index, { self1 with language_instances := instances })

/-- The bytes of the `LexerInWasmMemory` value written at `LEXER_ADDRESS` by
`ts_wasm_store_new` (wasm.c:376-385), padding bytes taken as zero. -/
def initial_lexer_bytes : List Byte :=
  [0, 0, 0, 0,  0, 0,  0, 0,
   1, 0, 0, 0,  2, 0, 0, 0,  3, 0, 0, 0,  4, 0, 0, 0,  5, 0, 0, 0]

/-- The guest memory after `ts_wasm_store_new` has written the lexer structure: the minimum of
`LEXER_END_ADDRESS` pages of 64 KiB, zero except for the structure at `LEXER_ADDRESS`. -/
def initial_memory : Memory where
  size := LEXER_END_ADDRESS * 65536
  data := fun i => if LEXER_ADDRESS ≤ i then initial_lexer_bytes.getD (i - LEXER_ADDRESS) 0 else 0

/-- The function table after `ts_wasm_store_new` has installed the callbacks (wasm.c:403-422):
created with `definitions_len` null entries, grown by `definitions_len` more, slots
`0 .. definitions_len - 1` then set to the host callbacks (callback `i` has handle `i`). -/
def initial_function_table : List Funcref :=
  (List.range definitions_len).map some ++ List.replicate definitions_len none

/-- Function `ts_wasm_store_new` (wasm.c:359-462). `stdlib` is the array `STDLIB_WASM` of
`wasm-stdlib.h`, which is not part of the sources at hand. The process is aborted when the
standard library has no dylink memory info or cannot be compiled or instantiated. The standard
library is instantiated with one single import, the `proc_exit` callback; the store's memory
and function table are not among its imports, so its instantiation cannot change them and
they are stored as they were built. -/
def ts_wasm_store_new (engine : TSWasmEngine) (stdlib : List Byte) : Except Stuck TSWasmStore :=
  match parse_wasm_dylink_memory_info stdlib with
  | .error e => .error e
  | .ok none => .error .aborted
  | .ok (some _) =>
    match engine.module_new stdlib with
    | none => .error .aborted
    | some stdlib_module =>
      match get_builtin_func_extern initial_function_table PROC_EXIT_IX with
      | .error e => .error e
      | .ok import_ =>
        match stdlib_module.instance_new [import_] ⟨initial_memory, initial_function_table⟩ with
        | (.error, _) => .error .aborted
        | (_, _) =>
          .ok {
            engine := engine
            function_table := initial_function_table
            memory := initial_memory
            current_lexer := none
            current_instance := none
            language_instances := []
            current_memory_offset := LEXER_END_ADDRESS
            current_function_table_offset := definitions_len }

/-- Spec-side notion (no function of this name exists in `wasm.c`): `x` rounded up to the next
multiple of `a`. -/
def align_up (x a : Nat) : Nat := (x + a - 1) / a * a

/-! ### Concrete engine objects used in examples -/

/-- A module of 24 bytes with the dylink memory info
`{memory_size = 1024, memory_align = 16, table_size = 8, table_align = 1}`. -/
def example_wasm : List Byte :=
  WASM_MAGIC_NUMBER ++ WASM_VERSION ++ [0, 16, 8] ++ DYLINK_NAME ++ [1, 5, 0x80, 0x08, 16, 8, 1]

/-- An instance with two exported functions: function 100 returns 0, function 101 returns the
guest address 1024; neither changes the guest state. -/
def example_instance : wasmtime_instance_t where
  exports := [.func (some 100), .func (some 101)]
  call := fun e g =>
    match e with
    | .func (some 100) => (.returns 0, g)
    | .func (some 101) => (.returns 1024, g)
    | _ => (.trap, g)

/-- A language module `x`: it imports both base globals, the memory, the table and `iswalpha`,
and exports `__wasm_apply_data_relocs` and `tree_sitter_x`. -/
def example_module : wasmtime_module_t where
  imports := [cstr "__memory_base", cstr "__table_base", cstr "memory",
    cstr "__indirect_function_table", cstr "iswalpha"]
  exports := [cstr "__wasm_apply_data_relocs", cstr "tree_sitter_x"]
  instance_new := fun _ g => (.created example_instance, g)

/-- A module without imports whose exports are named `tree_sitter_x` and `t`, in that order. -/
def example_module_two_exports : wasmtime_module_t where
  imports := []
  exports := [cstr "tree_sitter_x", cstr "t"]
  instance_new := fun _ g => (.created example_instance, g)

/-- An engine that compiles `example_wasm` to `example_module` and rejects all other input. -/
def example_engine : TSWasmEngine where
  module_new := fun bytes => if bytes = example_wasm then some example_module else none

/-- The store that `ts_wasm_store_new example_engine example_wasm` returns. -/
def example_store : TSWasmStore where
  engine := example_engine
  function_table := initial_function_table
  memory := initial_memory
  current_lexer := none
  current_instance := none
  language_instances := []
  current_memory_offset := LEXER_END_ADDRESS
  current_function_table_offset := definitions_len

/-- Record sizes of `parser.h` on the usual hosts. -/
def example_sizes : ParserSizes where
  parse_action_entry := 8
  symbol_metadata := 3
  lex_mode := 4
  field_map_slice := 4
  field_map_entry := 4

/-- The stores that can arise: the result of `ts_wasm_store_new`, and the store left by
`ts_wasm_store_load_language` or `ts_wasm_store_add_language` (whatever they return) on a store
that can arise. -/
inductive StoreReachable : TSWasmStore → Prop
  | new (engine : TSWasmEngine) (stdlib : List Byte) (s : TSWasmStore) :
      ts_wasm_store_new engine stdlib = .ok s → StoreReachable s
  | load (sizes : ParserSizes) (s : TSWasmStore) (next_language_id : Nat)
      (language_name wasm : List Byte) (uninit : wasmtime_extern_t)
      (r : Option TSLanguage) (s1 : TSWasmStore) (n1 : Nat) :
      StoreReachable s →
      ts_wasm_store_load_language sizes s next_language_id language_name wasm uninit
        = .ok (r, s1, n1) →
      StoreReachable s1
  | add (search : List LanguageWasmInstance → Nat → Nat × Bool) (s : TSWasmStore)
      (language : TSLanguage) (uninit : wasmtime_extern_t)
      (r : Bool) (index : Nat) (s1 : TSWasmStore) :
      StoreReachable s →
      ts_wasm_store_add_language search s language uninit = .ok (r, index, s1) →
      StoreReachable s1

/-! ### Calls into the guest: `ts_wasm_store__call` and the shims -/

/-- The C statement `memcpy(&data[addr], &x, 4)` for a 32-bit integer `x` with bit pattern `v`
(little-endian). -/
def write_u32 (m : Memory) (addr v : Nat) : Memory where
  size := m.size
  data := fun i =>
    if addr ≤ i ∧ i < addr + 4 then ⟨v / 256 ^ (i - addr) % 256, Nat.mod_lt _ (by decide)⟩
    else m.data i

/-- Result of `wasmtime_func_call_unchecked`: a trap, or a return with the array
`args_and_results` as the callee leaves it (member `.i32` of each entry). -/
inductive RawCallOutcome where
  | trap
  | returns (args_and_results : List Nat)

/-- What running a guest function of the table does. The inputs are the function, the array
`args_and_results` (member `.i32` of each entry), the guest state, and the host lexer that
`current_lexer` points to, on which the host callbacks act when the guest calls them
(`callback__lexer_advance` and the others, wasm.c:215-283); the result is the outcome, the guest
state and the host lexer afterwards. It is an input of the embedding. -/
abbrev GuestCall :=
  Nat → List Nat → Guest → Option TSLexer → RawCallOutcome × Guest × Option TSLexer

/-- Function `ts_wasm_store__call` (wasm.c:870-885). A missing table slot fails
`assert(succeeded)`, a trap ends in `abort()`; calling a null reference is taken to end the
process as well. Returns the array `args_and_results` after the call and the store. -/
def ts_wasm_store__call (guest_call : GuestCall) (self : TSWasmStore) (function_index : Nat)
    (args_and_results : List Nat) : Except Stuck (List Nat × TSWasmStore) :=
  match self.function_table[function_index]? with
  | none => .error .aborted
  | some none => .error .aborted
  | some (some func) =>
    match guest_call func args_and_results ⟨self.memory, self.function_table⟩
        self.current_lexer with
    | (.trap, _, _) => .error .aborted
    | (.returns results, g, lexer) =>
      .ok (results, { with_guest self g with current_lexer := lexer })

/-- The C statement `memcpy(&memory_data[LEXER_ADDRESS], &self->current_lexer->lookahead,
sizeof(lookahead))` (wasm.c:890-894 and 946-950). -/
def write_lookahead (self : TSWasmStore) : Except Stuck TSWasmStore :=
  match self.current_lexer with
  | none => .error .outOfBounds
  | some lexer =>
    if LEXER_ADDRESS + 4 ≤ self.memory.size then
      .ok { self with memory := write_u32 self.memory LEXER_ADDRESS lexer.lookahead }
    else .error .outOfBounds

/-- The C statement `memcpy(&self->current_lexer->lookahead, &memory_data[LEXER_ADDRESS],
sizeof(lookahead) + sizeof(result_symbol))` (wasm.c:903-907 and 962-966): six bytes, which
fill `lookahead` and the member after it, `result_symbol`. The pointer `memory_data` was
fetched before the call; the memory is taken not to have moved during the call. -/
def read_back_lexer (self : TSWasmStore) : Except Stuck TSWasmStore :=
  match self.current_lexer with
  | none => .error .outOfBounds
  | some lexer =>
    if LEXER_ADDRESS + 6 ≤ self.memory.size then
      .ok { self with
        current_lexer := some { lexer with
          lookahead := load_u32 self.memory LEXER_ADDRESS
          result_symbol := load_u16 self.memory (LEXER_ADDRESS + 4) } }
    else .error .outOfBounds

/-- The conversion of `args[0].i32` to `bool`. -/
def raw_i32_to_bool (args_and_results : List Nat) : Bool :=
  decide (args_and_results.getD 0 0 % 2 ^ 32 ≠ 0)

/-- Function `ts_wasm_store__call_lex_function` (wasm.c:887-909). -/
def ts_wasm_store__call_lex_function (guest_call : GuestCall) (self : TSWasmStore)
    (function_index state : Nat) : Except Stuck (Bool × TSWasmStore) :=
  match write_lookahead self with
  | .error e => .error e
  | .ok self1 =>
    match ts_wasm_store__call guest_call self1 function_index [LEXER_ADDRESS, state] with
    | .error e => .error e
    | .ok (args, self2) =>
      match read_back_lexer self2 with
      | .error e => .error e
      | .ok self3 => .ok (raw_i32_to_bool args, self3)

/-- The element of `language_instances` that `current_instance` points to. -/
def current_instance_value (self : TSWasmStore) : Except Stuck LanguageWasmInstance :=
  match self.current_instance with
  | none => .error .outOfBounds
  | some index =>
    match self.language_instances[index]? with
    | none => .error .outOfBounds
    | some inst => .ok inst

/-- Function `ts_wasm_store_call_lex_main` (wasm.c:911-917). -/
def ts_wasm_store_call_lex_main (guest_call : GuestCall) (self : TSWasmStore) (state : Nat) :
    Except Stuck (Bool × TSWasmStore) :=
  match current_instance_value self with
  | .error e => .error e
  | .ok inst => ts_wasm_store__call_lex_function guest_call self inst.lex_main_fn_index state

/-- Function `ts_wasm_store_call_lex_keyword` (wasm.c:919-925). -/
def ts_wasm_store_call_lex_keyword (guest_call : GuestCall) (self : TSWasmStore) (state : Nat) :
    Except Stuck (Bool × TSWasmStore) :=
  match current_instance_value self with
  | .error e => .error e
  | .ok inst => ts_wasm_store__call_lex_function guest_call self inst.lex_keyword_fn_index state

/-- Function `ts_wasm_store_call_scanner_scan` (wasm.c:938-968). `valid_tokens_address` is a
`uint32_t`: the sum of the `int32_t` address and `valid_tokens_ix * sizeof(bool)` kept to 32
bits. -/
def ts_wasm_store_call_scanner_scan (guest_call : GuestCall) (self : TSWasmStore)
    (scanner_address valid_tokens_ix : Nat) : Except Stuck (Bool × TSWasmStore) :=
  match write_lookahead self with
  | .error e => .error e
  | .ok self1 =>
    match current_instance_value self1 with
    | .error e => .error e
    | .ok inst =>
      let valid_tokens_address := (inst.external_states_address + valid_tokens_ix * 1) % 2 ^ 32
      match ts_wasm_store__call guest_call self1 inst.scanner_scan_fn_index
          [scanner_address, LEXER_ADDRESS, valid_tokens_address] with
      | .error e => .error e
      | .ok (args, self2) =>
        match read_back_lexer self2 with
        | .error e => .error e
        | .ok self3 => .ok (raw_i32_to_bool args, self3)

/-! ### Binding a lexer: `ts_wasm_store_start` and `ts_wasm_store_stop` -/

/-- Function `ts_language_is_wasm` (wasm.c:988-990). -/
def ts_language_is_wasm (self : TSLanguage) : Bool := self.lex_fn_is_sentinel

/-- Function `ts_wasm_store_start` (wasm.c:855-863); `language = none` is the null pointer.
`search` and `uninit` are as in `ts_wasm_store_add_language`. -/
def ts_wasm_store_start (search : List LanguageWasmInstance → Nat → Nat × Bool)
    (self : TSWasmStore) (lexer : TSLexer) (language : Option TSLanguage)
    (uninit : wasmtime_extern_t) : Except Stuck (Bool × TSWasmStore) :=
  match language with
  | none => .ok (false, self)
  | some language =>
    if ts_language_is_wasm language then
      match ts_wasm_store_add_language search self language uninit with
      | .error e => .error e
      | .ok (false, _, self1) => .ok (false, self1)
      | .ok (true, instance_index, self1) =>
        .ok (true, { self1 with
          current_lexer := some lexer
          current_instance := some instance_index })
    else .ok (false, self)

/-- Function `ts_wasm_store_stop` (wasm.c:865-868). -/
def ts_wasm_store_stop (self : TSWasmStore) : TSWasmStore :=
  { self with current_lexer := none, current_instance := none }

/-! ### The sorted search of `array.h` -/

/-- The `while (size > 1)` loop of the search macro, on the list of the `language_id` fields:
`size` and `index` are the variables of those names, one unit of `fuel` is one iteration. -/
def array_search_sorted_loop (ids : List Nat) (needle : Nat) : Nat → Nat → Nat → Nat
  | 0, _, index => index
  | fuel + 1, size, index =>
    if 1 < size then
      let half_size := size / 2
      let mid_index := index + half_size
      array_search_sorted_loop ids needle fuel (size - half_size)
        (if ids.getD mid_index 0 ≤ needle then mid_index else index)
    else index

/-- Modelled from the spec: the macro `array_search_sorted_by(self, .language_id, needle, index,
exists)` of `array.h`, which is not part of the sources at hand ("the module is found by
`language_id`"): a binary search of the instance list, taken to be sorted by `language_id`. It
gives `*index` and `exists`: `exists` is set when the element at the final `index` has the
wanted id; otherwise `index` is moved one up when that element has a smaller id. -/
def array_search_sorted_by (l : List LanguageWasmInstance) (needle : Nat) : Nat × Bool :=
  let ids := l.map (fun inst => inst.language_id)
  if ids.length = 0 then (0, false)
  else
    let index := array_search_sorted_loop ids needle ids.length ids.length 0
    if ids.getD index 0 = needle then (index, true)
    else if ids.getD index 0 < needle then (index + 1, false)
    else (index, false)

/-- The store states and values of `NEXT_LANGUAGE_ID` that can arise: a new store at any value
of the counter; a load into the store, which draws the new id from the counter (no wrap-around
of the 32-bit counter); `ts_wasm_store_add_language` with a descriptor whose id was drawn from
the counter earlier; and loads into other stores, which only advance the counter. -/
inductive RegistryReachable : TSWasmStore → Nat → Prop
  | new (engine : TSWasmEngine) (stdlib : List Byte) (s : TSWasmStore) (n : Nat) :
      ts_wasm_store_new engine stdlib = .ok s → RegistryReachable s n
  | load (sizes : ParserSizes) (s : TSWasmStore) (n : Nat)
      (language_name wasm : List Byte) (uninit : wasmtime_extern_t)
      (r : Option TSLanguage) (s1 : TSWasmStore) (n1 : Nat) :
      RegistryReachable s n → n + 1 < 2 ^ 32 →
      ts_wasm_store_load_language sizes s n language_name wasm uninit = .ok (r, s1, n1) →
      RegistryReachable s1 n1
  | add (s : TSWasmStore) (n : Nat) (language : TSLanguage) (language_module : LanguageWasmModule)
      (uninit : wasmtime_extern_t) (r : Bool) (index : Nat) (s1 : TSWasmStore) :
      RegistryReachable s n → language.keyword_lex_fn = some language_module →
      language_module.language_id ≤ n →
      ts_wasm_store_add_language array_search_sorted_by s language uninit
        = .ok (r, index, s1) →
      RegistryReachable s1 n
  | elsewhere (s : TSWasmStore) (n n1 : Nat) :
      RegistryReachable s n → n ≤ n1 → RegistryReachable s n1

/-! ### A concrete guest and a bound store used in examples -/

deriving instance DecidableEq for TSLexer

/-- A guest with three functions that do not call back into the host. Function 200 is a lex
function: it adds one to the `lookahead` field of the lexer structure it is given, stores its
`state` argument in the `result_symbol` field and returns 1. Function 201 is a lex function
that changes nothing and returns 0. Function 202 is a scan function: it stores its third
argument in the `lookahead` field and its first argument in the `result_symbol` field of the
lexer structure it is given (second argument) and returns 1. Every other function traps. -/
def example_guest_call : GuestCall := fun func args g lexer =>
  match func with
  | 200 =>
    let lexer_address := args.getD 0 0
    let state := args.getD 1 0
    (.returns [1, state],
      ⟨write_u32 (write_u32 g.memory lexer_address (load_u32 g.memory lexer_address + 1))
        (lexer_address + 4) state, g.table⟩, lexer)
  | 201 => (.returns [0, args.getD 1 0], g, lexer)
  | 202 =>
    let lexer_address := args.getD 1 0
    (.returns [1, lexer_address, args.getD 2 0],
      ⟨write_u32 (write_u32 g.memory lexer_address (args.getD 2 0))
        (lexer_address + 4) (args.getD 0 0), g.table⟩, lexer)
  | _ => (.trap, g, lexer)

/-- An instance record of language 1 whose lex functions are in the table slots 10 and 11 and
whose scan function is in slot 12, with the array of valid-token rows at guest address 2000. -/
def example_language_instance : LanguageWasmInstance where
  language_id := 1
  instance_ := example_instance
  external_states_address := 2000
  lex_main_fn_index := 10
  lex_keyword_fn_index := 11
  scanner_create_fn_index := 0
  scanner_destroy_fn_index := 0
  scanner_serialize_fn_index := 0
  scanner_deserialize_fn_index := 0
  scanner_scan_fn_index := 12

/-- A store bound to a lexer with lookahead 97 (the letter `a`): one instance, whose three
functions 200, 201 and 202 follow the ten callbacks in the table. -/
def example_bound_store : TSWasmStore where
  engine := example_engine
  function_table :=
    (List.range definitions_len).map some ++ [some 200, some 201, some 202]
      ++ List.replicate 7 none
  memory := initial_memory
  current_lexer := some ⟨97, 0⟩
  current_instance := some 0
  language_instances := [example_language_instance]
  current_memory_offset := LEXER_END_ADDRESS
  current_function_table_offset := definitions_len

/-- The guest state that function 200 of `example_guest_call` leaves when `example_bound_store`
calls it with the state 5. -/
def example_guest_after_lex : Guest :=
  (example_guest_call 200 [32, 5]
    ⟨write_u32 initial_memory LEXER_ADDRESS 97, example_bound_store.function_table⟩
    (some ⟨97, 0⟩)).2.1

/-- The guest state that function 202 of `example_guest_call` leaves when `example_bound_store`
calls it with the arguments `(3000, 32, 1000)`. -/
def example_guest_after_scan : Guest :=
  (example_guest_call 202 [3000, 32, 1000]
    ⟨write_u32 initial_memory LEXER_ADDRESS 97, example_bound_store.function_table⟩
    (some ⟨97, 0⟩)).2.1

/-- The module record of the language `x` compiled from `example_wasm`, with the id 1. -/
def example_language_module : LanguageWasmModule where
  module := example_module
  language_id := 1
  name := cstr "x"
  symbol_name_buffer := []
  field_name_buffer := []

/-- A descriptor of the language of `example_language_module`, with every count zero and
every table left out. `ts_wasm_store_start` and `ts_wasm_store_add_language` read only the
members `lex_fn` and `keyword_lex_fn` of a descriptor. -/
def example_language : TSLanguage where
  version := 0
  symbol_count := 0
  alias_count := 0
  token_count := 0
  external_token_count := 0
  state_count := 0
  large_state_count := 0
  production_id_count := 0
  field_count := 0
  max_alias_sequence_length := 0
  keyword_capture_token := 0
  parse_table := []
  parse_actions := []
  symbol_names := []
  symbol_metadata := []
  public_symbol_map := []
  lex_modes := []
  field_map_slices := []
  field_map_entries := []
  field_names := []
  alias_map := []
  alias_sequences := []
  small_parse_table_map := []
  small_parse_table := []
  external_scanner_symbol_map := []
  external_scanner_states := 0
  lex_fn_is_sentinel := true
  keyword_lex_fn := some example_language_module

/-- The language block at the guest address 1024 of `initial_memory`: all zero. -/
def example_language_block : LanguageInWasmMemory :=
  ⟨0, 0, 0, 0, 0, 0, 0, 0, 0, 0, 0, 0, 0, 0, 0, 0, 0, 0, 0, 0, 0, 0, 0, 0, 0, 0, 0, 0, 0, 0,
    0, 0, 0, 0⟩

/-- The store `example_store` after `ts_wasm_store_start` has bound it to a lexer with
lookahead 97 and to `example_language`. -/
def example_started_store : TSWasmStore where
  engine := example_engine
  function_table := initial_function_table
  memory := initial_memory
  current_lexer := some ⟨97, 0⟩
  current_instance := some 0
  language_instances := [new_language_instance 1 example_instance example_language_block]
  current_memory_offset := LEXER_END_ADDRESS
  current_function_table_offset := definitions_len

/-! ### Alias maps as the generated parsers lay them out, used in examples -/

/-- Spec-side notion (no function of this name exists in `wasm.c`): the 16-bit words of an
alias map made of the given entries, each entry a symbol, the number of its aliases and the
aliases, with the zero symbol as terminator. -/
def alias_map_words : List (Nat × List Nat) → List Nat
  | [] => [0]
  | (symbol, aliases) :: rest => symbol :: aliases.length :: aliases ++ alias_map_words rest

/-- Spec-side notion: the number of bytes of an alias map, all entries and the two bytes of the
terminator. -/
def alias_map_span (entries : List (Nat × List Nat)) : Nat :=
  sizeof_TSSymbol * (alias_map_words entries).length

/-- A guest memory of `size` bytes that is zero except for the given 16-bit words, stored
little-endian from `address` on. -/
def memory_of_words (size address : Nat) (words : List Nat) : Memory where
  size := size
  data := fun i =>
    if address ≤ i then
      ⟨words.getD ((i - address) / 2) 0 / 256 ^ ((i - address) % 2) % 256,
        Nat.mod_lt _ (by decide)⟩
    else 0

/-- A language block with `alias_count = 2`, `production_id_count = 1` and the alias map at the
guest address 8; every other field is zero. -/
def alias_map_example_block : LanguageInWasmMemory :=
  { example_language_block with alias_count := 2, production_id_count := 1, alias_map := 8 }

/-! ### A guest whose language block holds function indices, used in examples -/

/-- The seven function indices of an instance record are the fields of the language block `w`
as they were read, with nothing added. -/
def records_block_indices (x : LanguageWasmInstance) (w : LanguageInWasmMemory) : Prop :=
  x.lex_main_fn_index = w.lex_fn ∧
  x.lex_keyword_fn_index = w.keyword_lex_fn ∧
  x.scanner_create_fn_index = w.external_scanner_create ∧
  x.scanner_destroy_fn_index = w.external_scanner_destroy ∧
  x.scanner_scan_fn_index = w.external_scanner_scan ∧
  x.scanner_serialize_fn_index = w.external_scanner_serialize ∧
  x.scanner_deserialize_fn_index = w.external_scanner_deserialize

/-- The memory `m` with the seven function members of a language block at `address` set to the
indices 1 to 7: `lex_fn`, `keyword_lex_fn` and the external scanner's `create`, `destroy`,
`scan`, `serialize` and `deserialize`. -/
def write_language_indices (m : Memory) (address : Nat) : Memory :=
  write_u32 (write_u32 (write_u32 (write_u32 (write_u32 (write_u32 (write_u32 m
    (address + 92) 1) (address + 96) 2) (address + 112) 3) (address + 116) 4)
    (address + 120) 5) (address + 124) 6) (address + 128) 7

/-- An instance like `example_instance`, but its language function (function 101) fills in the
function members of the language block at 1024 before it returns that address. -/
def example_instance_with_block : wasmtime_instance_t where
  exports := [.func (some 100), .func (some 101)]
  call := fun e g =>
    match e with
    | .func (some 100) => (.returns 0, g)
    | .func (some 101) => (.returns 1024, ⟨write_language_indices g.memory 1024, g.table⟩)
    | _ => (.trap, g)

/-- The module `example_module` with `example_instance_with_block` as its instance. -/
def example_module_with_block : wasmtime_module_t where
  imports := example_module.imports
  exports := example_module.exports
  instance_new := fun _ g => (.created example_instance_with_block, g)

/-- An engine that compiles `example_wasm` to `example_module_with_block`. -/
def example_engine_with_block : TSWasmEngine where
  module_new := fun bytes =>
    if bytes = example_wasm then some example_module_with_block else none

/-- The fresh store of `example_engine_with_block`. -/
def example_store_with_block : TSWasmStore :=
  { example_store with engine := example_engine_with_block }

/-- A descriptor of the language of `example_module_with_block`, with the id 1. -/
def example_language_with_block : TSLanguage :=
  { example_language with
    keyword_lex_fn := some { example_language_module with module := example_module_with_block } }

/-- The language block that `example_instance_with_block` leaves at 1024. -/
def example_language_block_with_indices : LanguageInWasmMemory :=
  { example_language_block with
    lex_fn := 1, keyword_lex_fn := 2, external_scanner_create := 3,
    external_scanner_destroy := 4, external_scanner_scan := 5,
    external_scanner_serialize := 6, external_scanner_deserialize := 7 }

/-- The store `example_store_with_block` after `ts_wasm_store_add_language` has instantiated
`example_language_with_block` in it. -/
def example_store_with_block_added : TSWasmStore :=
  { example_store_with_block with
    memory := write_language_indices initial_memory 1024
    language_instances :=
      [new_language_instance 1 example_instance_with_block
        example_language_block_with_indices] }

/-! ### Two languages in one store, used in examples -/

/-- The module record of a second language compiled from `example_wasm`, with the id 2. -/
def example_language_module_two : LanguageWasmModule :=
  { example_language_module with language_id := 2 }

/-- A descriptor of the language of `example_language_module_two`. -/
def example_language_two : TSLanguage :=
  { example_language with keyword_lex_fn := some example_language_module_two }

/-- The store `example_store` after `ts_wasm_store_add_language` has instantiated
`example_language_two` (id 2) in it. -/
def example_store_with_two : TSWasmStore :=
  { example_store with
    language_instances := [new_language_instance 2 example_instance example_language_block] }

/-- The store `example_store_with_two` after `ts_wasm_store_add_language` has instantiated
`example_language` (id 1) in it as well: the new record is put in front of the one with the
id 2. -/
def example_registry_store : TSWasmStore :=
  { example_store with
    language_instances :=
      [new_language_instance 1 example_instance example_language_block,
       new_language_instance 2 example_instance example_language_block] }

/-! ### The loop of `read_uleb128` with its shift counts written down -/

/-- The loop of `read_uleb128` (wasm.c:144-148) once more, as `read_uleb128_loop`, but it also
lists, for every execution of the statement `value += (uint64_t)(**p & 0x7f) << shift`, the
pair of `value` before the statement and the shift count `shift` that the statement uses. -/
def read_uleb128_loop_traced (bytes : List Byte) (end_ : Nat) :
    Nat → Nat → Nat → Nat → Except Stuck (Nat × Nat) × List (Nat × Nat)
  | 0, _, _, _ => (.error .outOfFuel, [])
  | fuel + 1, p, value, shift =>
    if p = end_ then (.ok (UINT64_MAX, p), [])
    else
      match bytes[p]? with
      | none => (.error .outOfBounds, [])
      | some b =>
        let value1 := (value + shl64 (b.val % 128) shift) % 2 ^ 64
        let shift1 := (shift + 7) % 2 ^ 32
        if 128 ≤ b.val then
          let r := read_uleb128_loop_traced bytes end_ fuel (p + 1) value1 shift1
          (r.1, (value, shift) :: r.2)
        else (.ok (value1, p + 1), [(value, shift)])

/-- The pairs of `value` and shift count of all shifts that one call of `read_uleb128`
executes, in order. -/
def read_uleb128_shifts (bytes : List Byte) (p end_ : Nat) : List (Nat × Nat) :=
  (read_uleb128_loop_traced bytes end_ (bytes.length + 1 - p) p 0 0).2

/-! ### What the guest holds, stated on the bytes of its memory -/

/-- Spec-side notion (no function of this name exists in `wasm.c`): the 32-bit address that the
guest has stored in entry `i` of the array at `array_address`, from its four bytes, least
significant byte first. -/
def guest_array_entry (m : Memory) (array_address i : Nat) : Nat :=
  (m.data (array_address + 4 * i)).val
    + 256 * (m.data (array_address + 4 * i + 1)).val
    + 256 * 256 * (m.data (array_address + 4 * i + 2)).val
    + 256 * 256 * 256 * (m.data (array_address + 4 * i + 3)).val

/-- Spec-side notion: the guest memory holds at `address` a string of `len` non-zero bytes
followed by its terminating zero byte, all of it inside the memory. -/
def IsGuestString (m : Memory) (address len : Nat) : Prop :=
  address + len < m.size ∧ (∀ j, j < len → m.data (address + j) ≠ 0) ∧
    m.data (address + len) = 0

instance (m : Memory) (address len : Nat) : Decidable (IsGuestString m address len) := by
  unfold IsGuestString
  infer_instance

/-- A guest memory of `2 ^ 31 + 4` bytes: the array at 8 has the single entry `00 00 00 80`,
the guest address `2 ^ 31`, and the string `"abc"` with its terminator is stored there. -/
def copy_strings_high_memory : Memory where
  size := 2 ^ 31 + 4
  data := fun i =>
    if i = 11 then 0x80
    else if i = 2 ^ 31 then 0x61
    else if i = 2 ^ 31 + 1 then 0x62
    else if i = 2 ^ 31 + 2 then 0x63
    else 0

/-! ## Theorems -/

/-! ### Reading at a position described by `List.drop` -/

theorem getElem?_of_drop_eq_cons {bytes : List Byte} {p : Nat} {b : Byte} {rest : List Byte}
    (h : bytes.drop p = b :: rest) : bytes[p]? = some b := by
  have h1 : (bytes.drop p)[0]? = some b := by rw [h]; simp
  rw [List.getElem?_drop] at h1
  simpa using h1

theorem drop_add_of_drop_eq_append {bytes : List Byte} {p : Nat} {x rest : List Byte}
    (h : bytes.drop p = x ++ rest) : bytes.drop (p + x.length) = rest := by
  have h1 : (bytes.drop p).drop x.length = rest := by rw [h]; simp
  rw [List.drop_drop] at h1
  rw [← h1]

theorem drop_succ_of_drop_eq_cons {bytes : List Byte} {p : Nat} {b : Byte} {rest : List Byte}
    (h : bytes.drop p = b :: rest) : bytes.drop (p + 1) = rest := by
  have := drop_add_of_drop_eq_append (x := [b]) (by simpa using h)
  simpa using this

theorem length_of_drop_eq {bytes : List Byte} {p : Nat} {x : List Byte}
    (h : bytes.drop p = x) : x.length = bytes.length - p := by
  rw [← h, List.length_drop]

theorem read_u8_of_drop {bytes : List Byte} {p : Nat} {b : Byte} {rest : List Byte}
    (h : bytes.drop p = b :: rest) : read_u8 bytes p = .ok (b.val, p + 1) := by
  simp [read_u8, getElem?_of_drop_eq_cons h]

theorem read_uleb128_loop_of_drop (bytes : List Byte) (end_ : Nat) :
    ∀ (enc : List Byte) (fuel p value shift : Nat) (rest : List Byte),
      uleb_complete enc = true → bytes.drop p = enc ++ rest → p + enc.length ≤ end_ →
      enc.length ≤ fuel →
      read_uleb128_loop bytes end_ fuel p value shift
        = .ok (uleb_acc enc value shift, p + enc.length) := by
  intro enc
  induction enc with
  | nil => intro fuel p value shift rest hc; simp [uleb_complete] at hc
  | cons b enc ih =>
    intro fuel p value shift rest hc hd hle hf
    cases fuel with
    | zero => simp at hf
    | succ fuel =>
      have hb : bytes[p]? = some b := getElem?_of_drop_eq_cons hd
      have hne : p ≠ end_ := by simp at hle; omega
      simp only [read_uleb128_loop, hne, if_false, hb]
      by_cases hlt : b.val < 128
      · simp only [uleb_complete, hlt, if_true, List.isEmpty_iff] at hc
        subst hc
        have : ¬ 128 ≤ b.val := by omega
        simp [this, uleb_acc]
      · simp only [uleb_complete, hlt, if_false] at hc
        have hge : 128 ≤ b.val := by omega
        have hd2 : bytes.drop (p + 1) = enc ++ rest := 
          drop_succ_of_drop_eq_cons hd
        have := ih fuel (p + 1) ((value + shl64 (b.val % 128) shift) % 2 ^ 64)
          ((shift + 7) % 2 ^ 32) rest hc hd2 (by simp at hle; omega) (by simp at hf; omega)
        simp only [hge, if_true, this, uleb_acc]
        simp; omega

theorem read_uleb128_of_drop {bytes : List Byte} {p end_ : Nat} {enc rest : List Byte}
    (hc : uleb_complete enc = true) (hd : bytes.drop p = enc ++ rest)
    (hle : p + enc.length ≤ end_) :
    read_uleb128 bytes p end_ = .ok (uleb_acc enc 0 0, p + enc.length) := by
  have hl := length_of_drop_eq hd
  simp at hl
  exact read_uleb128_loop_of_drop bytes end_ enc _ p 0 0 rest hc hd hle (by omega)

/-! ### The accumulated value is the encoded number when that number fits 64 bits -/

theorem shl64_zero (shift : Nat) : shl64 0 shift = 0 := by simp [shl64]

theorem shl64_of_lt {x shift : Nat} (hx : 0 < x) (h : x * 2 ^ shift < 2 ^ 64) :
    shl64 x shift = x * 2 ^ shift := by
  have hs : shift < 64 := by
    by_contra hge
    have h1 : 2 ^ 64 ≤ 2 ^ shift := Nat.pow_le_pow_right (by norm_num) (by omega)
    have h2 : 2 ^ shift ≤ x * 2 ^ shift := Nat.le_mul_of_pos_left _ hx
    omega
  unfold shl64
  rw [Nat.mod_eq_of_lt hs, Nat.mod_eq_of_lt h]

theorem uleb_acc_of_value_zero :
    ∀ (enc : List Byte) (value shift : Nat), uleb_value enc = 0 → value < 2 ^ 64 →
      uleb_acc enc value shift = value := by
  intro enc
  induction enc with
  | nil => intro value shift _ _; rfl
  | cons b enc ih =>
    intro value shift h0 hv
    simp only [uleb_value] at h0
    have hb : b.val % 128 = 0 := by omega
    have hu : uleb_value enc = 0 := by omega
    simp only [uleb_acc, hb, shl64_zero, Nat.add_zero, Nat.mod_eq_of_lt hv]
    exact ih value _ hu hv

theorem uleb_acc_eq :
    ∀ (enc : List Byte) (value shift : Nat),
      value + uleb_value enc * 2 ^ shift < 2 ^ 64 →
      uleb_acc enc value shift = value + uleb_value enc * 2 ^ shift := by
  intro enc
  induction enc with
  | nil => intro value shift _; simp [uleb_acc, uleb_value]
  | cons b enc ih =>
    intro value shift h
    simp only [uleb_value] at h
    simp only [uleb_acc, uleb_value]
    have hpos : 0 < 2 ^ shift := Nat.pow_pos (by norm_num)
    have hsplit : (b.val % 128 + 128 * uleb_value enc) * 2 ^ shift
        = b.val % 128 * 2 ^ shift + uleb_value enc * (128 * 2 ^ shift) := by ring
    rw [hsplit] at h ⊢
    have hx : shl64 (b.val % 128) shift = b.val % 128 * 2 ^ shift := by
      rcases Nat.eq_zero_or_pos (b.val % 128) with h0 | hp
      · rw [h0, shl64_zero]; simp
      · exact shl64_of_lt hp (by omega)
    have hv : value + b.val % 128 * 2 ^ shift < 2 ^ 64 := by omega
    rw [hx, Nat.mod_eq_of_lt hv]
    rcases Nat.eq_zero_or_pos (uleb_value enc) with h0 | hp
    · rw [uleb_acc_of_value_zero enc _ _ h0 hv, h0]; simp
    · have h128 : 128 * 2 ^ shift ≤ uleb_value enc * (128 * 2 ^ shift) :=
        Nat.le_mul_of_pos_left _ hp
      have hs : shift + 7 < 64 := by
        by_contra hge
        have h1 : 2 ^ 64 ≤ 2 ^ (shift + 7) := Nat.pow_le_pow_right (by norm_num) (by omega)
        have h2 : 2 ^ (shift + 7) = 128 * 2 ^ shift := by rw [pow_add]; ring
        omega
      have hs2 : (shift + 7) % 2 ^ 32 = shift + 7 := Nat.mod_eq_of_lt (by omega)
      have h2 : 2 ^ (shift + 7) = 128 * 2 ^ shift := by rw [pow_add]; ring
      rw [hs2, ih _ _ (by rw [h2]; omega), h2]
      omega

theorem uleb_acc_eq_value {enc : List Byte} (h : uleb_value enc < 2 ^ 64) :
    uleb_acc enc 0 0 = uleb_value enc := by
  have := uleb_acc_eq enc 0 0 (by simpa using h)
  simpa using this

/-- Decoding of a complete ULEB128 value below `2 ^ 64` that lies inside the bound. -/
theorem read_uleb128_value {bytes : List Byte} {p : Nat} (end_ : Nat) {enc rest : List Byte}
    (hc : uleb_complete enc = true) (hd : bytes.drop p = enc ++ rest)
    (hle : p + enc.length ≤ end_) (hv : uleb_value enc < 2 ^ 64) :
    read_uleb128 bytes p end_ = .ok (uleb_value enc, p + enc.length) := by
  rw [read_uleb128_of_drop hc hd hle, uleb_acc_eq_value hv]

/-! ### Skipping well-formed sections -/

theorem drop_total_length {bytes : List Byte} {p : Nat} {x : List Byte}
    (h : bytes.drop p = x) (hx : 0 < x.length) : p + x.length = bytes.length := by
  have := length_of_drop_eq h
  omega

theorem memcmp_eq_of_drop (pat : List Byte) {bytes : List Byte} {p : Nat} {x rest : List Byte}
    (h : bytes.drop p = x ++ rest) (hlen : x.length = pat.length) (hpos : 0 < x.length) :
    memcmp_eq bytes p pat = .ok (x == pat) := by
  have hl := drop_total_length h (by simp; omega)
  simp at hl
  have hle : p + pat.length ≤ bytes.length := by omega
  have hle2 : p + x.length ≤ bytes.length := by omega
  simp only [memcmp_eq, hle, if_true, h, ← hlen]
  simp [hle2]

theorem parse_custom_section_skip (section_end : Nat) {bytes : List Byte} {p : Nat}
    {name_enc name rest tail : List Byte}
    (hd : bytes.drop p = name_enc ++ (name ++ (rest ++ tail)))
    (hend : section_end = p + (name_enc ++ (name ++ rest)).length)
    (hlt : (name_enc ++ (name ++ rest)).length < 2 ^ 32)
    (hc : uleb_complete name_enc = true) (hv : uleb_value name_enc = name.length)
    (hne : name ≠ DYLINK_NAME) :
    parse_custom_section bytes section_end p = .ok none := by
  simp only [List.length_append] at hend hlt
  have h1 := read_uleb128_value section_end hc hd (by omega) (by omega)
  have hd2 := drop_add_of_drop_eq_append hd
  have hm : name.length % 2 ^ 32 = name.length := Nat.mod_eq_of_lt (by omega)
  simp only [parse_custom_section, h1, hv, hm]
  have hle : ¬ (p + name_enc.length + name.length > section_end) := by omega
  simp only [hle, if_false]
  by_cases h8 : name.length = 8
  · have hm := memcmp_eq_of_drop DYLINK_NAME hd2 (by simp [DYLINK_NAME, h8]) (by omega)
    have hb : (name == DYLINK_NAME) = false := by simpa using hne
    simp [h8, hm, hb]
  · simp [h8]

theorem parse_sections_skip {bytes : List Byte} {p fuel : Nat} {s tail : List Byte}
    (hs : SkippedSection s) (hd : bytes.drop p = s ++ tail) :
    parse_sections bytes (fuel + 1) p = parse_sections bytes fuel (p + s.length) := by
  cases hs with
  | non_custom id len_enc payload hid hc hv hlt =>
    have hd1 : bytes.drop p = id :: (len_enc ++ (payload ++ tail)) := by simpa using hd
    have hl := drop_total_length hd1 (by simp)
    simp at hl
    have hd2 : bytes.drop (p + 1) = len_enc ++ (payload ++ tail) := 
          drop_succ_of_drop_eq_cons hd1
    have h1 := read_uleb128_value bytes.length hc hd2 (by omega) (by omega)
    have hm : payload.length % 2 ^ 32 = payload.length := Nat.mod_eq_of_lt hlt
    have hp : p < bytes.length := by omega
    have hle : ¬ (p + 1 + len_enc.length + payload.length > bytes.length) := by omega
    simp only [parse_sections, hp, if_true, read_u8_of_drop hd1, h1, hv, hm, hle, if_false,
      WASM_CUSTOM_SECTION, hid]
    congr 1
    simp; omega
  | custom len_enc name_enc name rest hc hv hlt hnc hnv hne =>
    have hd1 : bytes.drop p = (0 : Byte) :: (len_enc ++ (name_enc ++ (name ++ (rest ++ tail)))) := by
      simpa using hd
    have hl := drop_total_length hd1 (by simp)
    simp at hl
    have hd2 : bytes.drop (p + 1) = len_enc ++ (name_enc ++ (name ++ (rest ++ tail))) := 
          drop_succ_of_drop_eq_cons hd1
    have h1 := read_uleb128_value bytes.length hc hd2 (by omega) (by omega)
    have hd3 := drop_add_of_drop_eq_append hd2
    have hm : (name_enc ++ (name ++ rest)).length % 2 ^ 32 = (name_enc ++ (name ++ rest)).length :=
      Nat.mod_eq_of_lt hlt
    have hcs := parse_custom_section_skip
      (p + 1 + len_enc.length + (name_enc ++ (name ++ rest)).length)
      hd3 rfl hlt hnc hnv hne
    have hp : p < bytes.length := by omega
    have hle : ¬ (p + 1 + len_enc.length + (name_enc ++ (name ++ rest)).length > bytes.length) := by
      simp; omega
    simp only [parse_sections, hp, if_true, read_u8_of_drop hd1, h1, hv, hm, hle, if_false,
      WASM_CUSTOM_SECTION, hcs]
    simp only [Fin.val_zero, if_true]
    congr 1
    simp; omega

theorem parse_sections_skip_all (bytes : List Byte) {ss : List Byte} (hss : SkippedSections ss) :
    ∃ k, k ≤ ss.length ∧ ∀ (p fuel : Nat) (tail : List Byte), bytes.drop p = ss ++ tail →
        parse_sections bytes (fuel + k) p = parse_sections bytes fuel (p + ss.length) := by
  induction hss with
  | nil => exact ⟨0, by simp⟩
  | cons s rest hs _ ih =>
    obtain ⟨k, hk, hrun⟩ := ih
    have hpos : 0 < s.length := by cases hs <;> simp
    refine ⟨k + 1, by simp; omega, ?_⟩
    intro p fuel tail hd
    have hd1 : bytes.drop p = s ++ (rest ++ tail) := by simpa using hd
    rw [← Nat.add_assoc, parse_sections_skip hs hd1,
      hrun (p + s.length) fuel tail (drop_add_of_drop_eq_append hd1)]
    congr 1
    simp; omega

/-! ### Skipping subsections and reading the memory-info subsection -/

theorem parse_subsections_skip {bytes : List Byte} {q section_end fuel : Nat}
    {s tail : List Byte} (hs : SkippedSubsection s) (hd : bytes.drop q = s ++ tail)
    (hend : q + s.length ≤ section_end) :
    parse_subsections bytes section_end (fuel + 1) q
      = parse_subsections bytes section_end fuel (q + s.length) := by
  cases hs with
  | mk ty size_enc payload hty hc hv hlt =>
    have hd1 : bytes.drop q = ty :: (size_enc ++ (payload ++ tail)) := by simpa using hd
    simp at hend
    have hd2 : bytes.drop (q + 1) = size_enc ++ (payload ++ tail) := 
          drop_succ_of_drop_eq_cons hd1
    have h1 := read_uleb128_value section_end hc hd2 (by omega) (by omega)
    have hm : payload.length % 2 ^ 32 = payload.length := Nat.mod_eq_of_lt hlt
    have hp : q < section_end := by omega
    have hle : ¬ (q + 1 + size_enc.length + payload.length > section_end) := by omega
    simp only [parse_subsections, hp, if_true, read_u8_of_drop hd1, h1, hv, hm, hle, if_false,
      WASM_DYLINK_MEM_INFO, hty]
    congr 1
    simp; omega

theorem parse_subsections_skip_all (bytes : List Byte) (section_end : Nat) {ss : List Byte}
    (hss : SkippedSubsections ss) :
    ∃ k, k ≤ ss.length ∧ ∀ (q fuel : Nat) (tail : List Byte), bytes.drop q = ss ++ tail →
      q + ss.length ≤ section_end →
        parse_subsections bytes section_end (fuel + k) q
          = parse_subsections bytes section_end fuel (q + ss.length) := by
  induction hss with
  | nil => exact ⟨0, by simp⟩
  | cons s rest hs _ ih =>
    obtain ⟨k, hk, hrun⟩ := ih
    have hpos : 0 < s.length := by cases hs; simp
    refine ⟨k + 1, by simp; omega, ?_⟩
    intro q fuel tail hd hend
    have hd1 : bytes.drop q = s ++ (rest ++ tail) := by simpa using hd
    simp at hend
    rw [← Nat.add_assoc, parse_subsections_skip hs hd1 (by omega),
      hrun (q + s.length) fuel tail (drop_add_of_drop_eq_append hd1) (by omega)]
    congr 1
    simp; omega

theorem read_memory_info_of_drop (subsection_end : Nat) {bytes : List Byte} {p : Nat}
    {ea eb ec ed tail : List Byte}
    (hd : bytes.drop p = ea ++ (eb ++ (ec ++ (ed ++ tail))))
    (hend : p + (ea.length + (eb.length + (ec.length + ed.length))) ≤ subsection_end)
    (ha : uleb_complete ea = true) (hb : uleb_complete eb = true)
    (hc : uleb_complete ec = true) (hdc : uleb_complete ed = true)
    (hva : uleb_value ea < 2 ^ 32) (hvb : uleb_value eb < 2 ^ 32)
    (hvc : uleb_value ec < 2 ^ 32) (hvd : uleb_value ed < 2 ^ 32) :
    read_memory_info bytes p subsection_end
      = .ok ⟨uleb_value ea, uleb_value eb, uleb_value ec, uleb_value ed⟩ := by
  have h1 := read_uleb128_value subsection_end ha hd (by omega) (by omega)
  have hd2 := drop_add_of_drop_eq_append hd
  have h2 := read_uleb128_value subsection_end hb hd2 (by omega) (by omega)
  have hd3 := drop_add_of_drop_eq_append hd2
  have h3 := read_uleb128_value subsection_end hc hd3 (by omega) (by omega)
  have hd4 := drop_add_of_drop_eq_append hd3
  have h4 := read_uleb128_value subsection_end hdc hd4 (by omega) (by omega)
  simp only [read_memory_info, h1, h2, h3, h4, Nat.mod_eq_of_lt hva, Nat.mod_eq_of_lt hvb,
    Nat.mod_eq_of_lt hvc, Nat.mod_eq_of_lt hvd]

theorem parse_subsections_memory_info (section_end fuel : Nat) {bytes : List Byte} {q : Nat}
    {size_enc ea eb ec ed pad tail : List Byte}
    (hd : bytes.drop q
      = (1 : Byte) :: (size_enc ++ (ea ++ (eb ++ (ec ++ (ed ++ (pad ++ tail)))))))
    (hend : q + 1 + size_enc.length + (ea ++ (eb ++ (ec ++ (ed ++ pad)))).length ≤ section_end)
    (hs : uleb_complete size_enc = true)
    (hsv : uleb_value size_enc = (ea ++ (eb ++ (ec ++ (ed ++ pad)))).length)
    (hlt : (ea ++ (eb ++ (ec ++ (ed ++ pad)))).length < 2 ^ 32)
    (ha : uleb_complete ea = true) (hb : uleb_complete eb = true)
    (hc : uleb_complete ec = true) (hdc : uleb_complete ed = true)
    (hva : uleb_value ea < 2 ^ 32) (hvb : uleb_value eb < 2 ^ 32)
    (hvc : uleb_value ec < 2 ^ 32) (hvd : uleb_value ed < 2 ^ 32) :
    parse_subsections bytes section_end (fuel + 1) q
      = .ok (some (some ⟨uleb_value ea, uleb_value eb, uleb_value ec, uleb_value ed⟩)) := by
  have hd2 : bytes.drop (q + 1) = size_enc ++ (ea ++ (eb ++ (ec ++ (ed ++ (pad ++ tail))))) := 
          drop_succ_of_drop_eq_cons hd
  have h1 := read_uleb128_value section_end hs hd2 (by omega) (by omega)
  have hd3 := drop_add_of_drop_eq_append hd2
  have hm := Nat.mod_eq_of_lt hlt
  simp only [List.length_append] at hend hm hsv
  have hmi := read_memory_info_of_drop
    (q + 1 + size_enc.length
      + (ea.length + (eb.length + (ec.length + (ed.length + pad.length)))))
    hd3 (by omega) ha hb hc hdc hva hvb hvc hvd
  have hp : q < section_end := by omega
  have hle : ¬ (q + 1 + size_enc.length
      + (ea.length + (eb.length + (ec.length + (ed.length + pad.length)))) > section_end) := by
    omega
  simp only [parse_subsections, hp, if_true, read_u8_of_drop hd, h1, hsv, hm, hle, if_false,
    WASM_DYLINK_MEM_INFO, hmi]
  simp

/-! ### The `dylink.0` section and the whole module -/

theorem parse_custom_section_dylink (section_end : Nat) {bytes : List Byte} {p : Nat}
    {name_enc subs size_enc ea eb ec ed pad rest tail : List Byte}
    (hd : bytes.drop p = name_enc ++ (DYLINK_NAME ++ (subs ++ ((1 : Byte) :: (size_enc ++
      (ea ++ (eb ++ (ec ++ (ed ++ (pad ++ (rest ++ tail)))))))))))
    (hend : section_end = p + (name_enc ++ (DYLINK_NAME ++ (subs ++ ((1 : Byte) :: (size_enc ++
      (ea ++ (eb ++ (ec ++ (ed ++ (pad ++ rest)))))))))).length)
    (hlt : (name_enc ++ (DYLINK_NAME ++ (subs ++ ((1 : Byte) :: (size_enc ++
      (ea ++ (eb ++ (ec ++ (ed ++ (pad ++ rest)))))))))).length < 2 ^ 32)
    (hn : uleb_complete name_enc = true) (hnv : uleb_value name_enc = 8)
    (hsubs : SkippedSubsections subs)
    (hs : uleb_complete size_enc = true)
    (hsv : uleb_value size_enc = (ea ++ (eb ++ (ec ++ (ed ++ pad)))).length)
    (ha : uleb_complete ea = true) (hb : uleb_complete eb = true)
    (hc : uleb_complete ec = true) (hdc : uleb_complete ed = true)
    (hva : uleb_value ea < 2 ^ 32) (hvb : uleb_value eb < 2 ^ 32)
    (hvc : uleb_value ec < 2 ^ 32) (hvd : uleb_value ed < 2 ^ 32) :
    parse_custom_section bytes section_end p
      = .ok (some (some ⟨uleb_value ea, uleb_value eb, uleb_value ec, uleb_value ed⟩)) := by
  have hdl : DYLINK_NAME.length = 8 := rfl
  simp only [List.length_append, List.length_cons, hdl] at hend hlt
  have h1 := read_uleb128_value section_end hn hd (by omega) (by omega)
  have hd2 := drop_add_of_drop_eq_append hd
  have hm := memcmp_eq_of_drop DYLINK_NAME hd2 rfl (by simp [DYLINK_NAME])
  have hd3 := drop_add_of_drop_eq_append hd2
  rw [hdl] at hd3
  have hbl : (ea ++ (eb ++ (ec ++ (ed ++ pad)))).length < 2 ^ 32 := by
    simp only [List.length_append]; omega
  obtain ⟨k, hk, hrun⟩ := parse_subsections_skip_all bytes section_end hsubs
  have hl := drop_total_length hd (by simp)
  simp only [List.length_append, List.length_cons, hdl] at hl
  have hrun2 := hrun (p + name_enc.length + 8) (bytes.length - k + 1) _ hd3 (by omega)
  have hfuel : bytes.length - k + 1 + k = bytes.length + 1 := by omega
  rw [hfuel] at hrun2
  have hmi := parse_subsections_memory_info section_end (bytes.length - k)
    (drop_add_of_drop_eq_append hd3)
    (by simp only [List.length_append]; omega) hs hsv hbl ha hb hc hdc hva hvb hvc hvd
  have hm8 : (8 : Nat) % 2 ^ 32 = 8 := by norm_num
  have hle : ¬ (p + name_enc.length + 8 > section_end) := by omega
  simp only [parse_custom_section, h1, hnv, hm8, hle, if_false, if_true, hm]
  simp only [beq_self_eq_true]
  rw [hrun2, hmi]

/-- C1. For every byte sequence made of the 8-byte header, any number of well-formed skipped
sections, then a custom section named `dylink.0` (name length 8) whose subsections before the
first one of type 1 are well-formed, and whose type-1 subsection lies within the section and
begins with four complete ULEB128 values `a`, `b`, `c`, `d` below `2 ^ 32` (followed by
anything), `parse_wasm_dylink_memory_info` returns `true` with `memory_size = a`,
`memory_align = b`, `table_size = c`, `table_align = d`. -/
theorem parse_wasm_dylink_memory_info_reads_fields
    (skipped len_enc name_enc subs size_enc ea eb ec ed pad rest tail : List Byte)
    (a b c d : Nat)
    (hskipped : SkippedSections skipped)
    (hlen : uleb_complete len_enc = true)
    (hlenv : uleb_value len_enc = (name_enc ++ (DYLINK_NAME ++ (subs ++ ((1 : Byte) ::
      (size_enc ++ ((ea ++ (eb ++ (ec ++ (ed ++ pad)))) ++ rest)))))).length)
    (hlt : uleb_value len_enc < 2 ^ 32)
    (hname : uleb_complete name_enc = true) (hnamev : uleb_value name_enc = 8)
    (hsubs : SkippedSubsections subs)
    (hsize : uleb_complete size_enc = true)
    (hsizev : uleb_value size_enc = (ea ++ (eb ++ (ec ++ (ed ++ pad)))).length)
    (hea : uleb_complete ea = true) (heb : uleb_complete eb = true)
    (hec : uleb_complete ec = true) (hed : uleb_complete ed = true)
    (ha : uleb_value ea = a) (hb : uleb_value eb = b)
    (hc : uleb_value ec = c) (hd : uleb_value ed = d)
    (ha32 : a < 2 ^ 32) (hb32 : b < 2 ^ 32) (hc32 : c < 2 ^ 32) (hd32 : d < 2 ^ 32) :
    parse_wasm_dylink_memory_info
      (WASM_MAGIC_NUMBER ++ (WASM_VERSION ++ (skipped ++ ((0 : Byte) :: (len_enc ++
        ((name_enc ++ (DYLINK_NAME ++ (subs ++ ((1 : Byte) :: (size_enc ++
          ((ea ++ (eb ++ (ec ++ (ed ++ pad)))) ++ rest)))))) ++ tail))))))
      = .ok (some ⟨a, b, c, d⟩) := by
  subst ha hb hc hd
  generalize hB : (WASM_MAGIC_NUMBER ++ (WASM_VERSION ++ (skipped ++ ((0 : Byte) :: (len_enc ++
        ((name_enc ++ (DYLINK_NAME ++ (subs ++ ((1 : Byte) :: (size_enc ++
          ((ea ++ (eb ++ (ec ++ (ed ++ pad)))) ++ rest)))))) ++ tail)))))) = bytes
  have hB2 := hB.symm
  simp only [List.append_assoc, List.cons_append] at hB2
  have hd0 : bytes.drop 0 = _ := hB2
  have hlen0 := drop_total_length hd0 (by simp [WASM_MAGIC_NUMBER])
  have hm1 := memcmp_eq_of_drop WASM_MAGIC_NUMBER hd0 rfl (by simp [WASM_MAGIC_NUMBER])
  have hd4 := drop_add_of_drop_eq_append hd0
  have hm2 := memcmp_eq_of_drop WASM_VERSION hd4 rfl (by simp [WASM_VERSION])
  have hd8 := drop_add_of_drop_eq_append hd4
  have hml : WASM_MAGIC_NUMBER.length = 4 := rfl
  have hvl : WASM_VERSION.length = 4 := rfl
  have hdl : DYLINK_NAME.length = 8 := rfl
  simp only [hml, hvl, Nat.zero_add] at hd4 hd8 hm2
  simp only [List.length_append, List.length_cons, hml, hvl, hdl, Nat.zero_add] at hlen0 hlenv
  obtain ⟨k, hk, hrun⟩ := parse_sections_skip_all bytes hskipped
  have hrun1 := hrun (4 + 4) (bytes.length - k + 1) _ hd8
  have hfuel : bytes.length - k + 1 + k = bytes.length + 1 := by omega
  rw [hfuel] at hrun1
  have hds := drop_add_of_drop_eq_append hd8
  have hds1 := drop_succ_of_drop_eq_cons hds
  have h1 := read_uleb128_value bytes.length hlen hds1 (by omega) (by omega)
  have hds2 := drop_add_of_drop_eq_append hds1
  have hcs := parse_custom_section_dylink
    (4 + 4 + skipped.length + 1 + len_enc.length + uleb_value len_enc)
    hds2 (by simp only [List.length_append, List.length_cons, hdl]; omega)
    (by simp only [List.length_append, List.length_cons, hdl]; omega)
    hname hnamev hsubs hsize hsizev hea heb hec hed ha32 hb32 hc32 hd32
  have hl8 : ¬ bytes.length < 8 := by omega
  have hp : 4 + 4 + skipped.length < bytes.length := by omega
  have hle : ¬ (4 + 4 + skipped.length + 1 + len_enc.length + uleb_value len_enc
      > bytes.length) := by omega
  have hm32 : uleb_value len_enc % 2 ^ 32 = uleb_value len_enc := Nat.mod_eq_of_lt hlt
  simp only [parse_wasm_dylink_memory_info, hl8, if_false, hm1, hm2, beq_self_eq_true]
  rw [show (8 : Nat) = 4 + 4 from rfl, hrun1]
  simp only [parse_sections, hp, if_true, read_u8_of_drop hds, h1, hm32, hle, if_false,
    WASM_CUSTOM_SECTION, Fin.val_zero, hcs]

/-- Witness for C1: a module with one skipped ordinary section, one skipped custom section named
`x`, and a `dylink.0` section holding one skipped subsection and the memory-info subsection
`{1024, 4, 8, 0}`. -/
theorem parse_wasm_dylink_memory_info_reads_fields_witness :
    parse_wasm_dylink_memory_info
      (WASM_MAGIC_NUMBER ++ (WASM_VERSION ++ (([1, 2, 0xAA, 0xBB] ++ ([0, 3, 1, 0x78, 0] ++ []))
        ++ ((0 : Byte) :: ([21] ++
        (([8] ++ (DYLINK_NAME ++ (([2, 1, 0] ++ []) ++ ((1 : Byte) :: ([6] ++
          (([0x80, 0x08] ++ ([4] ++ ([8] ++ ([0] ++ [7])))) ++ [9])))))) ++ [5, 0]))))))
      = .ok (some ⟨1024, 4, 8, 0⟩) :=
  parse_wasm_dylink_memory_info_reads_fields
    ([1, 2, 0xAA, 0xBB] ++ ([0, 3, 1, 0x78, 0] ++ [])) [21] [8] ([2, 1, 0] ++ []) [6]
    [0x80, 0x08] [4] [8] [0] [7] [9] [5, 0] 1024 4 8 0
    (SkippedSections.cons _ _
      (SkippedSection.non_custom 1 [2] [0xAA, 0xBB] (by decide) (by decide) (by decide)
        (by decide))
      (SkippedSections.cons _ _
        (SkippedSection.custom [3] [1] [0x78] [0] (by decide) (by decide) (by decide)
          (by decide) (by decide) (by decide))
        SkippedSections.nil))
    (by decide) (by decide) (by decide) (by decide) (by decide)
    (SkippedSubsections.cons _ _
      (SkippedSubsection.mk 2 [1] [0] (by decide) (by decide) (by decide) (by decide))
      SkippedSubsections.nil)
    (by decide) (by decide) (by decide) (by decide) (by decide) (by decide)
    (by decide) (by decide) (by decide) (by decide)
    (by decide) (by decide) (by decide) (by decide)

/-! ### What a successful parse says about the module -/

/-- C3 (failing input). The module is cut off inside `memory_size`: the memory-info subsection
has size 1 and holds the single byte `80`, whose continuation bit announces a byte that is not
there. All four reads reach `subsection_end`, `read_uleb128` returns `UINT64_MAX` each time, and
the parser returns `true` with all four fields `0xFFFFFFFF` instead of failing. For comparison,
a module cut off inside a section length, a name length or a subsection size is rejected. -/
theorem parse_wasm_dylink_memory_info_truncated_fields :
    parse_wasm_dylink_memory_info
      (WASM_MAGIC_NUMBER ++ WASM_VERSION ++ [0, 12, 8] ++ DYLINK_NAME ++ [1, 1, 0x80])
      = .ok (some ⟨0xFFFFFFFF, 0xFFFFFFFF, 0xFFFFFFFF, 0xFFFFFFFF⟩) ∧
    parse_wasm_dylink_memory_info (WASM_MAGIC_NUMBER ++ WASM_VERSION ++ [0, 0x80])
      = .ok none ∧
    parse_wasm_dylink_memory_info (WASM_MAGIC_NUMBER ++ WASM_VERSION ++ [0, 1, 0x80])
      = .ok none ∧
    parse_wasm_dylink_memory_info
      (WASM_MAGIC_NUMBER ++ WASM_VERSION ++ [0, 11, 8] ++ DYLINK_NAME ++ [1, 0x80])
      = .ok none := by
  decide

theorem read_uleb128_loop_traced_fst (bytes : List Byte) (end_ : Nat) :
    ∀ (fuel p value shift : Nat),
      (read_uleb128_loop_traced bytes end_ fuel p value shift).1
        = read_uleb128_loop bytes end_ fuel p value shift := by
  intro fuel
  induction fuel with
  | zero => intro p value shift; rfl
  | succ fuel ih =>
    intro p value shift
    unfold read_uleb128_loop_traced read_uleb128_loop
    split
    next => rfl
    next =>
      split
      next => rfl
      next b _ =>
        simp only []
        split
        next => exact ih _ _ _
        next => rfl

/-- C4 (failing input). The value of `memory_size` is written in 11 bytes, `85`, nine times
`80` and `00` (ten bytes with the continuation bit set, then the last byte), inside a
well-formed memory-info subsection that ends 3 bytes after the value. `read_uleb128` has no
count of the bytes it has read and no test of `shift`: its loop runs once for each of the 11
bytes, `p` never equals `end`, and the shift statement is executed with the counts 0, 7, 14,
..., 63 and then, for the eleventh byte, with the count 70 on a 64-bit operand, where `value`
is still 5. No statement before that shift returns or reports a failure. -/
theorem read_uleb128_oversized_shift :
    uleb_complete [0x85, 0x80, 0x80, 0x80, 0x80, 0x80, 0x80, 0x80, 0x80, 0x80, 0x00] = true ∧
    ((WASM_MAGIC_NUMBER ++ WASM_VERSION ++ [0, 25, 8] ++ DYLINK_NAME ++
        [1, 14, 0x85, 0x80, 0x80, 0x80, 0x80, 0x80, 0x80, 0x80, 0x80, 0x80, 0x00, 4, 8, 0]).drop
      21).take 11 = [0x85, 0x80, 0x80, 0x80, 0x80, 0x80, 0x80, 0x80, 0x80, 0x80, 0x00] ∧
    read_uleb128_shifts
      (WASM_MAGIC_NUMBER ++ WASM_VERSION ++ [0, 25, 8] ++ DYLINK_NAME ++
        [1, 14, 0x85, 0x80, 0x80, 0x80, 0x80, 0x80, 0x80, 0x80, 0x80, 0x80, 0x00, 4, 8, 0])
      21 35
      = [(0, 0), (5, 7), (5, 14), (5, 21), (5, 28), (5, 35), (5, 42), (5, 49), (5, 56),
          (5, 63), (5, 70)] := by
  decide

/-- The embedding's reading of the same input. C leaves the shift by 70 undefined; `shl64`
takes the count modulo 64, as the shift instructions of x86-64 and AArch64 do. Under that
reading `read_uleb128` returns 5 with `p` just past the 11 bytes, and the parser returns
`true`. -/
theorem parse_wasm_dylink_memory_info_oversized_uleb128 :
    read_uleb128
      (WASM_MAGIC_NUMBER ++ WASM_VERSION ++ [0, 25, 8] ++ DYLINK_NAME ++
        [1, 14, 0x85, 0x80, 0x80, 0x80, 0x80, 0x80, 0x80, 0x80, 0x80, 0x80, 0x00, 4, 8, 0])
      21 35 = .ok (5, 32) ∧
    parse_wasm_dylink_memory_info
      (WASM_MAGIC_NUMBER ++ WASM_VERSION ++ [0, 25, 8] ++ DYLINK_NAME ++
        [1, 14, 0x85, 0x80, 0x80, 0x80, 0x80, 0x80, 0x80, 0x80, 0x80, 0x80, 0x00, 4, 8, 0])
      = .ok (some ⟨5, 4, 8, 0⟩) := by
  decide

/-! ### `copy_strings` -/

theorem strlen_loop_ok {m : Memory} {addr : Nat} :
    ∀ (fuel i l : Nat), strlen_loop m addr fuel i = .ok l →
      i ≤ l ∧ addr + l < m.size ∧ m.data (addr + l) = 0 ∧
        ∀ j, i ≤ j → j < l → m.data (addr + j) ≠ 0 := by
  intro fuel
  induction fuel with
  | zero => intro i l h; simp [strlen_loop] at h
  | succ fuel ih =>
    intro i l h
    unfold strlen_loop at h
    split at h
    next hlt =>
      split at h
      next hz =>
        simp only [Except.ok.injEq] at h
        subst h
        exact ⟨le_refl _, hlt, hz, fun j h1 h2 => absurd h2 (by omega)⟩
      next hz =>
        obtain ⟨h1, h2, h3, h4⟩ := ih (i + 1) l h
        refine ⟨by omega, h2, h3, ?_⟩
        intro j hj1 hj2
        by_cases hji : j = i
        · subst hji; exact hz
        · exact h4 j (by omega) hj2
    next => simp at h

theorem strlen_ok {m : Memory} {addr l : Nat} (h : strlen m addr = .ok l) :
    addr + l < m.size ∧ m.data (addr + l) = 0 ∧ ∀ j, j < l → m.data (addr + j) ≠ 0 := by
  obtain ⟨_, h2, h3, h4⟩ := strlen_loop_ok _ _ _ h
  exact ⟨h2, h3, fun j hj => h4 j (Nat.zero_le _) hj⟩

theorem int32_index_of_lt {a : Nat} (h : a < 2 ^ 31) : int32_index a = .ok a := by
  unfold int32_index
  rw [if_pos h]

theorem memory_bytes_length (m : Memory) (addr n : Nat) : (memory_bytes m addr n).length = n := by
  simp [memory_bytes]

theorem copy_strings_offsets_spec (m : Memory) (array_address : Nat)
    (hsize : m.size ≤ 2 ^ 32) (hbase : array_address < 2 ^ 31) :
    ∀ (n i : Nat) (sd : List Byte), array_address + 4 * (i + n) ≤ m.size →
      (∀ k, k < n → ∀ a, read_u32 m (array_address + (i + k) * 4) = .ok a → a ≠ 0 →
        a < 2 ^ 31 ∧ ∃ l, strlen m a = .ok l) →
      sd.length + n * (2 ^ 32 - 1) < 2 ^ 64 - 1 →
      ∃ es sd1, copy_strings_offsets m array_address n i sd = .ok (es, sd1) ∧
        es.length = n ∧ (∃ t, sd1 = sd ++ t) ∧
        ∀ k, k < n → ∃ a, read_u32 m (array_address + (i + k) * 4) = .ok a ∧
          (a = 0 → es[k]? = some UINTPTR_MAX) ∧
          (a ≠ 0 → ∃ off l, es[k]? = some off ∧ off < UINTPTR_MAX ∧ strlen m a = .ok l ∧
            (sd1.drop off).take (l + 1) = memory_bytes m a (l + 1)) := by
  intro n
  induction n with
  | zero =>
    intro i sd _ _ _
    exact ⟨[], sd, rfl, rfl, ⟨[], by simp⟩, fun k hk => absurd hk (by omega)⟩
  | succ n ih =>
    intro i sd harr hstr hfit
    have hidx0 : int32_index array_address = .ok array_address := int32_index_of_lt hbase
    have hin : array_address + i * 4 + 4 ≤ m.size := by omega
    obtain ⟨a, ha⟩ : ∃ a, read_u32 m (array_address + i * 4) = .ok a := by
      simp [read_u32, hin]
    have hmul : (n + 1) * (2 ^ 32 - 1) = n * (2 ^ 32 - 1) + (2 ^ 32 - 1) := by ring
    by_cases ha0 : a = 0
    · obtain ⟨es, sd1, hrun, hlen, hpre, hent⟩ := ih (i + 1) sd (by omega)
        (fun k hk a1 h1 h2 => hstr (k + 1) (by omega) a1
          (by rw [show i + (k + 1) = i + 1 + k by omega]; exact h1) h2)
        (by omega)
      refine ⟨UINTPTR_MAX :: es, sd1, ?_, by simp [hlen], hpre, ?_⟩
      · simp only [copy_strings_offsets, hidx0, ha, ha0, if_true, hrun]
      · intro k hk
        cases k with
        | zero => exact ⟨a, by simpa using ha, fun _ => by simp, fun h => absurd ha0 h⟩
        | succ k =>
          obtain ⟨a1, h1, h2, h3⟩ := hent k (by omega)
          refine ⟨a1, by rw [show i + (k + 1) = i + 1 + k by omega]; exact h1, ?_, ?_⟩
          · intro h; simpa using h2 h
          · intro h; simpa using h3 h
    · obtain ⟨ha31, l, hl⟩ := hstr 0 (by omega) a (by simpa using ha) ha0
      obtain ⟨hl1, hl2, hl3⟩ := strlen_ok hl
      have hidx : int32_index a = .ok a := int32_index_of_lt ha31
      have hlm : l % 2 ^ 32 = l := Nat.mod_eq_of_lt (by omega)
      have hcm : (l + 1) % 2 ^ 32 = l + 1 := Nat.mod_eq_of_lt (by omega)
      obtain ⟨es, sd1, hrun, hlen, ⟨t, hpre⟩, hent⟩ := ih (i + 1)
        (array_extend sd (memory_bytes m a (l + 1))) (by omega)
        (fun k hk a1 h1 h2 => hstr (k + 1) (by omega) a1
          (by rw [show i + (k + 1) = i + 1 + k by omega]; exact h1) h2)
        (by simp only [array_extend, List.length_append, memory_bytes_length]; omega)
      refine ⟨sd.length :: es, sd1, ?_, by simp [hlen],
        ⟨memory_bytes m a (l + 1) ++ t, by simp [hpre, array_extend]⟩, ?_⟩
      · simp only [copy_strings_offsets, hidx0, ha, ha0, if_false, hidx, hl, hlm, hcm, hrun]
      · intro k hk
        cases k with
        | zero =>
          refine ⟨a, by simpa using ha, fun h => absurd h ha0, fun _ => ?_⟩
          refine ⟨sd.length, l, by simp, by simp only [UINTPTR_MAX]; omega, hl, ?_⟩
          rw [hpre, array_extend, List.append_assoc, List.drop_left]
          rw [List.take_left' (memory_bytes_length m a (l + 1))]
        | succ k =>
          obtain ⟨a1, h1, h2, h3⟩ := hent k (by omega)
          refine ⟨a1, by rw [show i + (k + 1) = i + 1 + k by omega]; exact h1, ?_, ?_⟩
          · intro h; simpa using h2 h
          · intro h; simpa using h3 h

/-- The run of `copy_strings` in terms of the reads it makes: it returns, keeps the old
content of the backing buffer as a prefix, and handles every entry according to the address
read for it. -/
theorem copy_strings_run (m : Memory) (array_address count : Nat)
    (string_data : List Byte) (hcount : count < 2 ^ 32) (hsize : m.size ≤ 2 ^ 32)
    (hsd : string_data.length < 2 ^ 32) (hbase : array_address < 2 ^ 31)
    (harr : array_address + 4 * count ≤ m.size)
    (hstr : ∀ i, i < count → ∀ a, read_u32 m (array_address + i * 4) = .ok a → a ≠ 0 →
      a < 2 ^ 31 ∧ ∃ l, strlen m a = .ok l) :
    ∃ result sd1, copy_strings m array_address count string_data = .ok (result, sd1) ∧
      result.length = count ∧ string_data <+: sd1 ∧
      ∀ i, i < count → ∃ a, read_u32 m (array_address + i * 4) = .ok a ∧
        (result[i]? = some none ↔ a = 0) ∧
        (a ≠ 0 → ∃ off l, result[i]? = some (some off) ∧ strlen m a = .ok l ∧
          m.data (a + l) = 0 ∧ (∀ j, j < l → m.data (a + j) ≠ 0) ∧
          (sd1.drop off).take (l + 1) = memory_bytes m a (l + 1)) := by
  have hfit : string_data.length + count * (2 ^ 32 - 1) < 2 ^ 64 - 1 := by
    have h1 : count * (2 ^ 32 - 1) ≤ (2 ^ 32 - 1) * (2 ^ 32 - 1) :=
      Nat.mul_le_mul (by omega) (le_refl _)
    norm_num at h1
    omega
  obtain ⟨es, sd1, hrun, hlen, ⟨t, hpre⟩, hent⟩ :=
    copy_strings_offsets_spec m array_address hsize hbase count 0 string_data (by omega)
      (fun k hk a h1 h2 => hstr k hk a (by simpa using h1) h2) hfit
  have hc : ¬ 2 ^ 32 ≤ count := by omega
  refine ⟨es.map copy_strings_pointer, sd1, ?_, by simp [hlen], ⟨t, hpre.symm⟩, ?_⟩
  · unfold copy_strings
    rw [if_neg hc, hrun]
  · intro i hi
    obtain ⟨a, ha, hz, hnz⟩ := hent i hi
    refine ⟨a, by simpa using ha, ?_, ?_⟩
    · constructor
      · intro hnull
        by_contra hne
        obtain ⟨off, l, hoff, hlt, _, _⟩ := hnz hne
        have hoffne : off ≠ UINTPTR_MAX := by omega
        simp [hoff, copy_strings_pointer, hoffne] at hnull
      · intro h0
        simp [hz h0, copy_strings_pointer]
    · intro hne
      obtain ⟨off, l, hoff, hlt, hl, hbytes⟩ := hnz hne
      obtain ⟨_, hl2, hl3⟩ := strlen_ok hl
      have hoffne : off ≠ UINTPTR_MAX := by omega
      exact ⟨off, l, by simp [hoff, copy_strings_pointer, hoffne], hl, hl2, hl3, hbytes⟩

theorem strlen_loop_of_string {m : Memory} {address len : Nat}
    (h : IsGuestString m address len) :
    ∀ (fuel i : Nat), i ≤ len → len - i < fuel →
      strlen_loop m address fuel i = .ok len := by
  intro fuel
  induction fuel with
  | zero => intro i _ hf; omega
  | succ fuel ih =>
    intro i hi hf
    have hin : address + i < m.size := by have := h.1; omega
    by_cases he : i = len
    · subst he
      simp only [strlen_loop, hin, if_true, h.2.2]
    · have hnz : m.data (address + i) ≠ 0 := h.2.1 i (by omega)
      simp only [strlen_loop, hin, if_true, hnz, if_false]
      exact ih (i + 1) (by omega) (by omega)

theorem strlen_of_string {m : Memory} {address len : Nat}
    (h : IsGuestString m address len) : strlen m address = .ok len :=
  strlen_loop_of_string h _ 0 (Nat.zero_le _) (by have := h.1; omega)

theorem read_u32_entry (m : Memory) (array_address i : Nat)
    (h : array_address + 4 * i + 4 ≤ m.size) :
    read_u32 m (array_address + i * 4) = .ok (guest_array_entry m array_address i) := by
  have he : array_address + i * 4 = array_address + 4 * i := by omega
  rw [he]
  unfold read_u32
  rw [if_pos h]
  rfl

theorem bytes_of_take_drop {sd : List Byte} {m : Memory} {off address l : Nat}
    (h : (sd.drop off).take (l + 1) = memory_bytes m address (l + 1)) :
    ∀ j : Nat, j ≤ l → sd[off + j]? = some (m.data (address + j)) := by
  intro j hj
  have h1 := congrArg (fun x : List Byte => x[j]?) h
  simp only [memory_bytes] at h1
  rw [List.getElem?_take_of_lt (by omega), List.getElem?_drop, List.getElem?_map,
    List.getElem?_range (by omega)] at h1
  exact h1

/-- C10 (counterexample). A guest memory of `2 ^ 31 + 4` bytes holds the string `"abc"` at the
guest address `2 ^ 31`, and the array at 8 has that address as its only entry. The code reads
the entry into an `int32_t`, where it is `-2 ^ 31`, and takes `&data[address]`, which lies
`2 ^ 31` bytes before the guest memory and not at the string: in the embedding the read is
outside the memory and nothing is copied. -/
theorem copy_strings_high_address :
    guest_array_entry copy_strings_high_memory 8 0 = 2 ^ 31 ∧
    2 ^ 31 + 3 < copy_strings_high_memory.size ∧
    (List.range 4).map (fun j => copy_strings_high_memory.data (2 ^ 31 + j))
      = [0x61, 0x62, 0x63, 0x00] ∧
    IsGuestString copy_strings_high_memory (2 ^ 31) 3 ∧
    copy_strings copy_strings_high_memory 8 1 [] = .error .outOfBounds := by
  decide

/-- C10 (amended). `copy_strings` on a guest memory `m` of at most 4 GiB, for an array of
`count < 2 ^ 32` entries at an address below `2 ^ 31` that lies inside the memory and whose
non-zero entries are addresses below `2 ^ 31` of strings that end inside the memory, with any
backing buffer whose size fits 32 bits, empty or not: the function returns, the backing buffer
keeps its old content as a prefix, and for every `i < count` the output entry `i` is `NULL`
exactly when the four bytes of entry `i` in guest memory are zero, and otherwise points into
the backing buffer at an offset `off` where byte `off + j` is the byte `address + j` of the
guest memory for every `j` up to and including the position of the terminating zero of the
guest string. The entries are offsets until the second loop, taken relative to the final
buffer, so growth of the buffer while strings are appended does not matter. -/
theorem copy_strings_faithful (m : Memory) (array_address count : Nat)
    (string_data : List Byte) (hcount : count < 2 ^ 32) (hsize : m.size ≤ 2 ^ 32)
    (hsd : string_data.length < 2 ^ 32) (hbase : array_address < 2 ^ 31)
    (harr : array_address + 4 * count ≤ m.size)
    (hstr : ∀ i, i < count → guest_array_entry m array_address i ≠ 0 →
      guest_array_entry m array_address i < 2 ^ 31 ∧
      ∃ len, IsGuestString m (guest_array_entry m array_address i) len) :
    ∃ result sd1, copy_strings m array_address count string_data = .ok (result, sd1) ∧
      result.length = count ∧ string_data <+: sd1 ∧
      ∀ i, i < count →
        (result[i]? = some none ↔ guest_array_entry m array_address i = 0) ∧
        (guest_array_entry m array_address i ≠ 0 →
          ∃ off len, result[i]? = some (some off) ∧
            IsGuestString m (guest_array_entry m array_address i) len ∧
            ∀ j, j ≤ len →
              sd1[off + j]? = some (m.data (guest_array_entry m array_address i + j))) := by
  have hread : ∀ i, i < count →
      read_u32 m (array_address + i * 4) = .ok (guest_array_entry m array_address i) :=
    fun i hi => read_u32_entry m array_address i (by omega)
  obtain ⟨result, sd1, hrun, hlen, hpre, hent⟩ :=
    copy_strings_run m array_address count string_data hcount hsize hsd hbase harr
      (fun i hi a ha hne => by
        rw [hread i hi] at ha
        simp only [Except.ok.injEq] at ha
        rw [← ha] at hne ⊢
        obtain ⟨hlt, len, hs⟩ := hstr i hi hne
        exact ⟨hlt, len, strlen_of_string hs⟩)
  refine ⟨result, sd1, hrun, hlen, hpre, fun i hi => ?_⟩
  obtain ⟨a, ha, hnull, hcopy⟩ := hent i hi
  rw [hread i hi] at ha
  simp only [Except.ok.injEq] at ha
  rw [← ha] at hnull hcopy
  refine ⟨hnull, fun hne => ?_⟩
  obtain ⟨off, l, hoff, hl, h0, hnz, hbytes⟩ := hcopy hne
  exact ⟨off, l, hoff, ⟨(strlen_ok hl).1, hnz, h0⟩, bytes_of_take_drop hbytes⟩

/-- Witness for C10 (amended): five entries `44, 0, 48, 0, 50` (entry 3 zero, entry 4 the
string `"abc"`), copied behind a backing buffer that already holds one byte. Entry 3 of the
output is `NULL` and entry 4 points at the offset 6 of the buffer, where the bytes
`61 62 63 00` are. -/
theorem copy_strings_faithful_witness :
    (guest_array_entry copy_strings_example_memory 8 3 = 0 ∧
      guest_array_entry copy_strings_example_memory 8 4 = 50 ∧
      copy_strings copy_strings_example_memory 8 5 [0xEE]
        = .ok ([some 1, none, some 4, none, some 6],
            [0xEE, 0x68, 0x69, 0, 0x78, 0, 0x61, 0x62, 0x63, 0])) ∧
    ∃ result sd1, copy_strings copy_strings_example_memory 8 5 [0xEE] = .ok (result, sd1) ∧
      result.length = 5 ∧ [0xEE] <+: sd1 ∧
      ∀ i, i < 5 →
        (result[i]? = some none ↔ guest_array_entry copy_strings_example_memory 8 i = 0) ∧
        (guest_array_entry copy_strings_example_memory 8 i ≠ 0 →
          ∃ off len, result[i]? = some (some off) ∧
            IsGuestString copy_strings_example_memory
              (guest_array_entry copy_strings_example_memory 8 i) len ∧
            ∀ j, j ≤ len →
              sd1[off + j]? = some (copy_strings_example_memory.data
                (guest_array_entry copy_strings_example_memory 8 i + j))) :=
  ⟨by decide,
    copy_strings_faithful copy_strings_example_memory 8 5 [0xEE] (by decide) (by decide)
      (by decide) (by decide) (by decide) (by
        intro i hi hne
        interval_cases i
        · exact ⟨by decide, 2, by decide⟩
        · exact absurd (by decide) hne
        · exact ⟨by decide, 1, by decide⟩
        · exact absurd (by decide) hne
        · exact ⟨by decide, 3, by decide⟩)⟩

/-! ### Import resolution and the base globals -/

theorem resolve_import_memory_base (self : TSWasmStore) :
    resolve_import self (cstr "__memory_base") = .ok (some (memory_base_global self)) := rfl

theorem resolve_import_table_base (self : TSWasmStore) :
    resolve_import self (cstr "__table_base") = .ok (some (table_base_global self)) := rfl

theorem build_imports_cons {self : TSWasmStore} {name : List Byte} {rest : List (List Byte)}
    {externs : List wasmtime_extern_t}
    (h : build_imports self (name :: rest) = .ok (some externs)) :
    ∃ e es, resolve_import self name = .ok (some e) ∧
      build_imports self rest = .ok (some es) ∧ externs = e :: es := by
  unfold build_imports at h
  split at h
  next => simp at h
  next => simp at h
  next e he =>
    split at h
    next => simp at h
    next => simp at h
    next es hes =>
      simp only [Except.ok.injEq, Option.some.injEq] at h
      exact ⟨e, es, he, hes, h.symm⟩

/-- C5 (amended). The values given to a module as `__memory_base` and `__table_base` are the
store's `current_memory_offset` and `current_function_table_offset` as they are: whenever
the import loop succeeds, every import named `__memory_base` is bound to a global holding
`current_memory_offset` and every import named `__table_base` to a global holding
`current_function_table_offset`. No rounding to an alignment takes place and the dylink info of
the module is not consulted. -/
theorem instantiate_bases_are_cursors (self : TSWasmStore) (names : List (List Byte))
    (externs : List wasmtime_extern_t)
    (h : build_imports self names = .ok (some externs)) (i : Nat) :
    (names[i]? = some (cstr "__memory_base") →
      externs[i]? = some (wasmtime_extern_t.global self.current_memory_offset)) ∧
    (names[i]? = some (cstr "__table_base") →
      externs[i]? = some (wasmtime_extern_t.global self.current_function_table_offset)) := by
  induction names generalizing externs i with
  | nil => simp
  | cons name rest ih =>
    obtain ⟨e, es, he, hes, hx⟩ := build_imports_cons h
    subst hx
    cases i with
    | zero =>
      constructor
      · intro hn
        simp only [List.getElem?_cons_zero, Option.some.injEq] at hn
        rw [hn, resolve_import_memory_base] at he
        simp only [Except.ok.injEq, Option.some.injEq] at he
        simp [← he, memory_base_global]
      · intro hn
        simp only [List.getElem?_cons_zero, Option.some.injEq] at hn
        rw [hn, resolve_import_table_base] at he
        simp only [Except.ok.injEq, Option.some.injEq] at he
        simp [← he, table_base_global]
    | succ i => simpa using ih es hes i

/-- Witness for C5 (amended): the imports of `example_module`, of which the first is
`__memory_base` and the second `__table_base`, resolved in the fresh store (cursors 60 and
10). -/
theorem instantiate_bases_are_cursors_witness :
    ([.global 60, .global 10, .memory 0, .table 0, .func (some 8)] :
        List wasmtime_extern_t)[0]?
      = some (wasmtime_extern_t.global example_store.current_memory_offset) ∧
    ([.global 60, .global 10, .memory 0, .table 0, .func (some 8)] :
        List wasmtime_extern_t)[1]?
      = some (wasmtime_extern_t.global example_store.current_function_table_offset) :=
  ⟨(instantiate_bases_are_cursors example_store example_module.imports
      [.global 60, .global 10, .memory 0, .table 0, .func (some 8)] (by decide) 0).1 rfl,
   (instantiate_bases_are_cursors example_store example_module.imports
      [.global 60, .global 10, .memory 0, .table 0, .func (some 8)] (by decide) 1).2 rfl⟩

/-- C5 (counterexample). The module `example_wasm` declares `memory_align = 16`; loaded into the
fresh store, whose `current_memory_offset` is `60`, it is given `__memory_base = 60`, which is
not `align_up 60 16 = 64` and not a multiple of 16. -/
theorem instantiate_base_not_aligned :
    parse_wasm_dylink_memory_info example_wasm = .ok (some ⟨1024, 16, 8, 1⟩) ∧
    (ts_wasm_store_new example_engine example_wasm).map
      (fun s => (s.current_memory_offset, s.current_function_table_offset)) = .ok (60, 10) ∧
    build_imports example_store example_module.imports
      = .ok (some [.global 60, .global 10, .memory 0, .table 0, .func (some 8)]) ∧
    align_up 60 16 = 64 ∧ 60 % 16 = 12 := by
  decide

/-- C8 (failing input). Imports named `mem`, `_`, `i` and `__t` (proper prefixes of `memory`,
`__memory_base`, `iswspace` and `__table_base`) pass import resolution and are bound to the
memory, the memory-base global, the `iswspace` callback and the table-base global. For
comparison, the exact names are bound as listed, and a blank name, a name that continues a
listed one and an unlisted name make the loop return `false`. -/
theorem build_imports_accepts_prefixes :
    build_imports example_store [cstr "mem"] = .ok (some [.memory 0]) ∧
    build_imports example_store [cstr "mem", cstr "_", cstr "i", cstr "__t"]
      = .ok (some [.memory 0, .global 60, .func (some 6), .global 10]) ∧
    build_imports example_store
        [cstr "__memory_base", cstr "__table_base", cstr "__indirect_function_table",
          cstr "memory", cstr "iswspace", cstr "iswdigit", cstr "iswalpha", cstr "iswalnum"]
      = .ok (some [.global 60, .global 10, .table 0, .memory 0, .func (some 6),
          .func (some 7), .func (some 8), .func (some 9)]) ∧
    build_imports example_store [[]] = .ok none ∧
    build_imports example_store [cstr "memoryx"] = .ok none ∧
    build_imports example_store [cstr "env"] = .ok none := by
  decide

/-- C9 (failing input). The module exports the functions `tree_sitter_x` (returning 0) and `t`
(returning 1024), in that order. For the language name `x`, `name_eq` accepts `t` as well, the
later match overwrites the earlier one, and the function invoked is `t`: the language address
returned is 1024. Moreover, when no export matches (language name `zz` with `example_module`),
the outcome is decided by the indeterminate initial content of `language_extern`: a function
there is invoked and the call succeeds, anything else makes it fail. -/
theorem instantiate_invokes_last_prefix_match :
    (ts_wasm_store__instantiate example_store example_module_two_exports (cstr "x")
        (.global 0)).map (fun r => r.1.map (fun p => p.2)) = .ok (some 1024) ∧
    name_eq (cstr "t") (language_function_name (cstr "x")) = true ∧
    (example_instance.call (.func (some 100)) ⟨initial_memory, initial_function_table⟩).1
      = .returns 0 ∧
    (ts_wasm_store__instantiate example_store example_module (cstr "zz")
        (.func (some 101))).map (fun r => r.1.map (fun p => p.2)) = .ok (some 1024) ∧
    (ts_wasm_store__instantiate example_store example_module (cstr "zz")
        (.global 0)).map (fun r => r.1.map (fun p => p.2)) = .ok none := by
  refine ⟨by decide, by decide, rfl, by decide, by decide⟩

/-! ### The bookkeeping fields of the store across a load -/

/-- Writing the guest state back leaves both cursors and the instance list as they are. -/
theorem with_guest_bookkeeping (self : TSWasmStore) (g : Guest) :
    (with_guest self g).current_memory_offset = self.current_memory_offset ∧
    (with_guest self g).current_function_table_offset = self.current_function_table_offset ∧
    (with_guest self g).language_instances = self.language_instances :=
  ⟨rfl, rfl, rfl⟩

theorem instantiate_keeps_bookkeeping {self s1 : TSWasmStore} {module : wasmtime_module_t}
    {language_name : List Byte} {uninit : wasmtime_extern_t}
    {r : Option (wasmtime_instance_t × Nat)}
    (h : ts_wasm_store__instantiate self module language_name uninit = .ok (r, s1)) :
    s1.current_memory_offset = self.current_memory_offset ∧
    s1.current_function_table_offset = self.current_function_table_offset ∧
    s1.language_instances = self.language_instances := by
  unfold ts_wasm_store__instantiate at h
  split at h
  next => simp at h
  next =>
    simp only [Except.ok.injEq, Prod.mk.injEq] at h
    rw [← h.2]; exact ⟨rfl, rfl, rfl⟩
  next imports _ =>
    split at h
    next => simp at h
    next g _ =>
      simp only [Except.ok.injEq, Prod.mk.injEq] at h
      rw [← h.2]; exact with_guest_bookkeeping self g
    next inst g _ =>
      split at h
      next => simp at h
      next language_extern g1 _ =>
        split at h
        next =>
          split at h
          next => simp at h
          next g2 _ =>
            simp only [Except.ok.injEq, Prod.mk.injEq] at h
            rw [← h.2]; exact with_guest_bookkeeping self g2
          next language_address g2 _ =>
            simp only [Except.ok.injEq, Prod.mk.injEq] at h
            rw [← h.2]; exact with_guest_bookkeeping self g2
        next =>
          simp only [Except.ok.injEq, Prod.mk.injEq] at h
          rw [← h.2]; exact with_guest_bookkeeping self g1

theorem load_language_keeps_cursors {sizes : ParserSizes} {self s1 : TSWasmStore}
    {next_language_id n1 : Nat} {language_name wasm : List Byte} {uninit : wasmtime_extern_t}
    {r : Option TSLanguage}
    (h : ts_wasm_store_load_language sizes self next_language_id language_name wasm uninit
      = .ok (r, s1, n1)) :
    s1.current_memory_offset = self.current_memory_offset ∧
    s1.current_function_table_offset = self.current_function_table_offset ∧
    (r = none → s1.language_instances = self.language_instances) := by
  unfold ts_wasm_store_load_language at h
  split at h
  next =>
    simp only [Except.ok.injEq, Prod.mk.injEq] at h
    rw [← h.2.1]; exact ⟨rfl, rfl, fun _ => rfl⟩
  next module _ =>
    split at h
    next => simp at h
    next self1 hi =>
      obtain ⟨h1, h2, h3⟩ := instantiate_keeps_bookkeeping hi
      simp only [Except.ok.injEq, Prod.mk.injEq] at h
      rw [← h.2.1]; exact ⟨h1, h2, fun _ => h3⟩
    next inst language_address self1 hi =>
      obtain ⟨h1, h2, _⟩ := instantiate_keeps_bookkeeping hi
      split at h
      next => simp at h
      next wasm_language _ =>
        simp only [] at h
        split at h
        next => simp at h
        next language _ =>
          simp only [Except.ok.injEq, Prod.mk.injEq] at h
          rw [← h.2.1]
          refine ⟨h1, h2, fun hr => ?_⟩
          rw [← h.1] at hr
          simp at hr

theorem add_language_keeps_cursors {search : List LanguageWasmInstance → Nat → Nat × Bool}
    {self s1 : TSWasmStore} {language : TSLanguage} {uninit : wasmtime_extern_t}
    {r : Bool} {index : Nat}
    (h : ts_wasm_store_add_language search self language uninit = .ok (r, index, s1)) :
    s1.current_memory_offset = self.current_memory_offset ∧
    s1.current_function_table_offset = self.current_function_table_offset := by
  unfold ts_wasm_store_add_language at h
  split at h
  next => simp at h
  next language_module _ =>
    split at h
    next =>
      simp only [Except.ok.injEq, Prod.mk.injEq] at h
      rw [← h.2.2]; exact ⟨rfl, rfl⟩
    next =>
      split at h
      next => simp at h
      next self1 hi =>
        obtain ⟨h1, h2, _⟩ := instantiate_keeps_bookkeeping hi
        simp only [Except.ok.injEq, Prod.mk.injEq] at h
        rw [← h.2.2]; exact ⟨h1, h2⟩
      next inst language_address self1 hi =>
        obtain ⟨h1, h2, _⟩ := instantiate_keeps_bookkeeping hi
        split at h
        next => simp at h
        next wasm_language _ =>
          split at h
          next => simp at h
          next instances _ =>
            simp only [Except.ok.injEq, Prod.mk.injEq] at h
            rw [← h.2.2]; exact ⟨h1, h2⟩

theorem store_new_cursors {engine : TSWasmEngine} {stdlib : List Byte} {s : TSWasmStore}
    (h : ts_wasm_store_new engine stdlib = .ok s) :
    s.current_memory_offset = LEXER_END_ADDRESS ∧
    s.current_function_table_offset = definitions_len := by
  unfold ts_wasm_store_new at h
  split at h
  next => simp at h
  next => simp at h
  next =>
    split at h
    next => simp at h
    next =>
      split at h
      next => simp at h
      next =>
        split at h
        next => simp at h
        next =>
          simp only [Except.ok.injEq] at h
          rw [← h]; exact ⟨rfl, rfl⟩

/-- No load moves the cursors: in every store that arises from `ts_wasm_store_new` by any
number of calls of `ts_wasm_store_load_language` and `ts_wasm_store_add_language`, successful
or not, `current_memory_offset` is still `LEXER_END_ADDRESS` (60) and
`current_function_table_offset` is still 10, the values that the two base globals are made
from. -/
theorem loads_never_move_cursors (s : TSWasmStore) (h : StoreReachable s) :
    s.current_memory_offset = LEXER_END_ADDRESS ∧
    s.current_function_table_offset = definitions_len ∧
    memory_base_global s = .global 60 ∧ table_base_global s = .global 10 := by
  have key : s.current_memory_offset = LEXER_END_ADDRESS ∧
      s.current_function_table_offset = definitions_len := by
    induction h with
    | new engine stdlib s hs => exact store_new_cursors hs
    | load sizes s nid name wasm uninit r s1 n1 _ hl ih =>
      obtain ⟨h1, h2, _⟩ := load_language_keeps_cursors hl
      exact ⟨h1.trans ih.1, h2.trans ih.2⟩
    | add search s language uninit r index s1 _ ha ih =>
      obtain ⟨h1, h2⟩ := add_language_keeps_cursors ha
      exact ⟨h1.trans ih.1, h2.trans ih.2⟩
  refine ⟨key.1, key.2, ?_, ?_⟩
  · simp [memory_base_global, key.1, LEXER_END_ADDRESS, LEXER_ADDRESS, sizeof_LexerInWasmMemory]
  · simp [table_base_global, key.2, definitions_len]

/-- C6 (failing input). Two loads of `example_wasm` (dylink `memory_size = 1024`,
`table_size = 8`) into the fresh store. Both succeed and the store then has two instances.
After the first load `current_memory_offset` and `current_function_table_offset` are still 60
and 10, not `60 + 1024` and `10 + 8`: no statement advances them. The import list built for
the second instantiation therefore binds `__memory_base` and `__table_base` to 60 and 10
again, the bases the first module was given, so both modules occupy `[60, 1084)` of the memory
and `[10, 18)` of the table. -/
theorem loads_share_their_ranges :
    (parse_wasm_dylink_memory_info example_wasm = .ok (some ⟨1024, 16, 8, 1⟩) ∧
      example_module.imports.take 2 = [cstr "__memory_base", cstr "__table_base"] ∧
      (build_imports example_store example_module.imports).map
          (fun r => r.map (fun externs => externs.take 2))
        = .ok (some [.global 60, .global 10])) ∧
    (ts_wasm_store_load_language example_sizes example_store 0 (cstr "x") example_wasm
        (.global 0)).bind
      (fun r1 =>
        (ts_wasm_store_load_language example_sizes r1.2.1 r1.2.2 (cstr "x") example_wasm
          (.global 0)).map
        (fun r2 =>
          (r1.1.isSome && r2.1.isSome, r1.2.1.current_memory_offset,
            r1.2.1.current_function_table_offset,
            decide (memory_base_global r1.2.1 = .global 60) &&
              decide (table_base_global r1.2.1 = .global 10),
            r2.2.1.language_instances.length)))
      = .ok (true, 60, 10, true, 2) ∧
    (ts_wasm_store_load_language example_sizes example_store 0 (cstr "x") example_wasm
        (.global 0)).bind
      (fun r1 => (build_imports r1.2.1 example_module.imports).map
        (fun r => r.map (fun externs => externs.take 2)))
      = .ok (some [.global 60, .global 10]) := by
  decide

/-- C7. When `ts_wasm_store_load_language` returns `NULL` (compile error, blank or
unknown import name, instantiation trap, language export missing or not a function, trap in the
language function), the store's `current_memory_offset`, `current_function_table_offset` and
`language_instances` are what they were before the call. -/
theorem failed_load_leaves_store (sizes : ParserSizes) (self s1 : TSWasmStore)
    (next_language_id n1 : Nat) (language_name wasm : List Byte) (uninit : wasmtime_extern_t)
    (h : ts_wasm_store_load_language sizes self next_language_id language_name wasm uninit
      = .ok (none, s1, n1)) :
    s1.current_memory_offset = self.current_memory_offset ∧
    s1.current_function_table_offset = self.current_function_table_offset ∧
    s1.language_instances = self.language_instances := by
  obtain ⟨h1, h2, h3⟩ := load_language_keeps_cursors h
  exact ⟨h1, h2, h3 rfl⟩

/-- Witness for C7: loading `example_wasm` under the language name `y` fails, because no export
is named `tree_sitter_y`, after the module has been instantiated. -/
theorem failed_load_leaves_store_witness :
    (with_guest example_store ⟨initial_memory, initial_function_table⟩).current_memory_offset
      = example_store.current_memory_offset ∧
    (with_guest example_store
        ⟨initial_memory, initial_function_table⟩).current_function_table_offset
      = example_store.current_function_table_offset ∧
    (with_guest example_store ⟨initial_memory, initial_function_table⟩).language_instances
      = example_store.language_instances :=
  failed_load_leaves_store example_sizes example_store
    (with_guest example_store ⟨initial_memory, initial_function_table⟩) 0 0 (cstr "y")
    example_wasm (.global 0) rfl

/-! ### The parser always returns and stays inside the buffer -/

theorem read_u8_total (bytes : List Byte) (p : Nat) (h : p < bytes.length) :
    ∃ t, read_u8 bytes p = .ok (t, p + 1) := by
  have hb : bytes[p]? = some bytes[p] := List.getElem?_eq_getElem h
  exact ⟨(bytes[p]).val, by simp [read_u8, hb]⟩

theorem read_uleb128_loop_total (bytes : List Byte) (end_ : Nat) (hend : end_ ≤ bytes.length) :
    ∀ (fuel p value shift : Nat), p ≤ end_ → end_ - p < fuel →
      ∃ v p1, read_uleb128_loop bytes end_ fuel p value shift = .ok (v, p1) ∧
        p ≤ p1 ∧ p1 ≤ end_ := by
  intro fuel
  induction fuel with
  | zero => intro p value shift _ h; omega
  | succ fuel ih =>
    intro p value shift hp hf
    by_cases he : p = end_
    · exact ⟨UINT64_MAX, p, by simp [read_uleb128_loop, he], le_refl _, hp⟩
    · have hlt : p < bytes.length := by omega
      have hb : bytes[p]? = some bytes[p] := List.getElem?_eq_getElem hlt
      by_cases hge : 128 ≤ (bytes[p]).val
      · obtain ⟨v, p1, hrun, h1, h2⟩ :=
          ih (p + 1) ((value + shl64 ((bytes[p]).val % 128) shift) % 2 ^ 64)
            ((shift + 7) % 2 ^ 32) (by omega) (by omega)
        refine ⟨v, p1, ?_, by omega, h2⟩
        simp only [read_uleb128_loop, he, if_false, hb, hge, if_true]
        exact hrun
      · refine ⟨(value + shl64 ((bytes[p]).val % 128) shift) % 2 ^ 64, p + 1, ?_,
          by omega, by omega⟩
        simp only [read_uleb128_loop, he, if_false, hb, hge]

theorem read_uleb128_total (bytes : List Byte) (p end_ : Nat) (hp : p ≤ end_)
    (hend : end_ ≤ bytes.length) :
    ∃ v p1, read_uleb128 bytes p end_ = .ok (v, p1) ∧ p ≤ p1 ∧ p1 ≤ end_ :=
  read_uleb128_loop_total bytes end_ hend _ p 0 0 hp (by omega)

theorem read_memory_info_total (bytes : List Byte) (p subsection_end : Nat)
    (hp : p ≤ subsection_end) (hend : subsection_end ≤ bytes.length) :
    ∃ info, read_memory_info bytes p subsection_end = .ok info := by
  obtain ⟨v1, p1, h1, _, hp1⟩ := read_uleb128_total bytes p subsection_end hp hend
  obtain ⟨v2, p2, h2, _, hp2⟩ := read_uleb128_total bytes p1 subsection_end hp1 hend
  obtain ⟨v3, p3, h3, _, hp3⟩ := read_uleb128_total bytes p2 subsection_end hp2 hend
  obtain ⟨v4, p4, h4, _, _⟩ := read_uleb128_total bytes p3 subsection_end hp3 hend
  simp only [read_memory_info, h1, h2, h3, h4]
  exact ⟨_, rfl⟩

theorem parse_subsections_total (bytes : List Byte) (section_end : Nat)
    (hend : section_end ≤ bytes.length) :
    ∀ (fuel q : Nat), section_end - q < fuel →
      ∃ r, parse_subsections bytes section_end fuel q = .ok r := by
  intro fuel
  induction fuel with
  | zero => intro q h; omega
  | succ fuel ih =>
    intro q hf
    by_cases hlt : q < section_end
    · obtain ⟨t, h8⟩ := read_u8_total bytes q (by omega)
      obtain ⟨v, p2, hu, hq2, hp2⟩ := read_uleb128_total bytes (q + 1) section_end
        (by omega) hend
      by_cases hgt : p2 + v % 2 ^ 32 > section_end
      · exact ⟨some none, by simp only [parse_subsections, hlt, if_true, h8, hu, hgt]⟩
      · by_cases hty : t = WASM_DYLINK_MEM_INFO
        · obtain ⟨info, hmi⟩ := read_memory_info_total bytes p2 (p2 + v % 2 ^ 32)
            (by omega) (by omega)
          exact ⟨some (some info),
            by simp only [parse_subsections, hlt, if_true, h8, hu, hgt, if_false, hty, hmi]⟩
        · obtain ⟨r, hr⟩ := ih (p2 + v % 2 ^ 32) (by omega)
          exact ⟨r,
            by simp only [parse_subsections, hlt, if_true, h8, hu, hgt, if_false, hty, hr]⟩
    · exact ⟨none, by simp only [parse_subsections, hlt, if_false]⟩

theorem memcmp_eq_total (bytes : List Byte) (p : Nat) (pat : List Byte)
    (h : p + pat.length ≤ bytes.length) : ∃ b, memcmp_eq bytes p pat = .ok b :=
  ⟨(bytes.drop p).take pat.length == pat, by simp only [memcmp_eq, h, if_true]⟩

theorem parse_custom_section_total (bytes : List Byte) (section_end p : Nat)
    (hp : p ≤ section_end) (hend : section_end ≤ bytes.length) :
    ∃ r, parse_custom_section bytes section_end p = .ok r := by
  obtain ⟨v, p1, hu, _, hp1⟩ := read_uleb128_total bytes p section_end hp hend
  by_cases hgt : p1 + v % 2 ^ 32 > section_end
  · exact ⟨some none, by simp only [parse_custom_section, hu, hgt, if_true]⟩
  · by_cases h8 : v % 2 ^ 32 = 8
    · rw [h8] at hgt
      obtain ⟨b, hm⟩ := memcmp_eq_total bytes p1 DYLINK_NAME
        (by simp only [DYLINK_NAME, List.length_cons, List.length_nil]; omega)
      cases b with
      | true =>
        obtain ⟨r, hr⟩ := parse_subsections_total bytes section_end hend (bytes.length + 1)
          (p1 + 8) (by omega)
        exact ⟨r, by simp only [parse_custom_section, hu, h8, hgt, if_false, if_true, hm, hr]⟩
      | false =>
        exact ⟨none, by simp only [parse_custom_section, hu, h8, hgt, if_false, if_true, hm]⟩
    · exact ⟨none, by simp only [parse_custom_section, hu, hgt, if_false, h8]⟩

theorem parse_sections_total (bytes : List Byte) :
    ∀ (fuel p : Nat), bytes.length - p < fuel →
      ∃ r, parse_sections bytes fuel p = .ok r := by
  intro fuel
  induction fuel with
  | zero => intro p h; omega
  | succ fuel ih =>
    intro p hf
    by_cases hlt : p < bytes.length
    · obtain ⟨t, h8⟩ := read_u8_total bytes p hlt
      obtain ⟨v, p2, hu, hq2, hp2⟩ := read_uleb128_total bytes (p + 1) bytes.length
        (by omega) (le_refl _)
      by_cases hgt : p2 + v % 2 ^ 32 > bytes.length
      · exact ⟨none, by simp only [parse_sections, hlt, if_true, h8, hu, hgt]⟩
      · obtain ⟨r, hr⟩ := ih (p2 + v % 2 ^ 32) (by omega)
        by_cases hid : t = WASM_CUSTOM_SECTION
        · obtain ⟨rc, hrc⟩ := parse_custom_section_total bytes (p2 + v % 2 ^ 32) p2
            (by omega) (by omega)
          cases rc with
          | none =>
            exact ⟨r, by
              simp only [parse_sections, hlt, if_true, h8, hu, hgt, if_false, hid, hrc, hr]⟩
          | some r1 =>
            exact ⟨r1, by
              simp only [parse_sections, hlt, if_true, h8, hu, hgt, if_false, hid, hrc]⟩
        · exact ⟨r, by
            simp only [parse_sections, hlt, if_true, h8, hu, hgt, if_false, hid, hr]⟩
    · exact ⟨none, by simp only [parse_sections, hlt, if_false]⟩

/-- C18. For every byte sequence (of any length), `parse_wasm_dylink_memory_info` terminates
and never reads a byte at an index that is not below the length: in the embedding a read
outside the buffer and an exhausted loop bound are the errors `outOfBounds` and `outOfFuel`
(`read_u8` has no check of its own and gives `outOfBounds` for any index outside the buffer),
and the parser always gives `Except.ok`, the returned `false` or `true` with the info. -/
theorem parse_wasm_dylink_memory_info_total (bytes : List Byte) :
    ∃ r, parse_wasm_dylink_memory_info bytes = .ok r := by
  by_cases hlen : bytes.length < 8
  · exact ⟨none, by simp only [parse_wasm_dylink_memory_info, hlen, if_true]⟩
  · obtain ⟨b1, hm1⟩ := memcmp_eq_total bytes 0 WASM_MAGIC_NUMBER
      (by simp only [WASM_MAGIC_NUMBER, List.length_cons, List.length_nil]; omega)
    obtain ⟨b2, hm2⟩ := memcmp_eq_total bytes 4 WASM_VERSION
      (by simp only [WASM_VERSION, List.length_cons, List.length_nil]; omega)
    obtain ⟨r, hr⟩ := parse_sections_total bytes (bytes.length + 1) 8 (by omega)
    cases b1 with
    | false =>
      exact ⟨none, by simp only [parse_wasm_dylink_memory_info, hlen, if_false, hm1]⟩
    | true =>
      cases b2 with
      | false =>
        exact ⟨none, by simp only [parse_wasm_dylink_memory_info, hlen, if_false, hm1, hm2]⟩
      | true =>
        exact ⟨r, by simp only [parse_wasm_dylink_memory_info, hlen, if_false, hm1, hm2, hr]⟩

/-! ### The fresh store -/

theorem store_new_state {engine : TSWasmEngine} {stdlib : List Byte} {s : TSWasmStore}
    (h : ts_wasm_store_new engine stdlib = .ok s) :
    s = { engine := engine, function_table := initial_function_table, memory := initial_memory,
          current_lexer := none, current_instance := none, language_instances := [],
          current_memory_offset := LEXER_END_ADDRESS,
          current_function_table_offset := definitions_len } := by
  unfold ts_wasm_store_new at h
  split at h
  next => simp at h
  next => simp at h
  next =>
    split at h
    next => simp at h
    next =>
      split at h
      next => simp at h
      next =>
        split at h
        next => simp at h
        next =>
          simp only [Except.ok.injEq] at h
          exact h.symm

/-- C14. Every store returned by `ts_wasm_store_new` has `current_memory_offset` equal to
`LEXER_ADDRESS + sizeof(LexerInWasmMemory)` (32 + 28, strictly above 32),
`current_function_table_offset` equal to 10 (the number of builtin callbacks), an empty
instance list, no current lexer and no current instance, and a guest memory that holds at
address 32 a lexer structure with `lookahead = 0`, `result_symbol = 0`, `advance = 1`,
`mark_end = 2`, `get_column = 3`, `is_at_included_range_start = 4` and `eof = 5` (fields at
the offsets 0, 4, 8, 12, 16, 20 and 24 of the structure). -/
theorem store_new_initial_state (engine : TSWasmEngine) (stdlib : List Byte) (s : TSWasmStore)
    (h : ts_wasm_store_new engine stdlib = .ok s) :
    (s.current_memory_offset = LEXER_ADDRESS + sizeof_LexerInWasmMemory ∧
      32 < s.current_memory_offset ∧
      s.current_function_table_offset = 10 ∧
      s.language_instances = [] ∧ s.current_lexer = none ∧ s.current_instance = none) ∧
    (LEXER_ADDRESS = 32 ∧ LEXER_ADDRESS + sizeof_LexerInWasmMemory ≤ s.memory.size ∧
      load_u32 s.memory LEXER_ADDRESS = 0 ∧
      load_u16 s.memory (LEXER_ADDRESS + 4) = 0) ∧
    (load_u32 s.memory (LEXER_ADDRESS + 8) = 1 ∧
      load_u32 s.memory (LEXER_ADDRESS + 12) = 2 ∧
      load_u32 s.memory (LEXER_ADDRESS + 16) = 3 ∧
      load_u32 s.memory (LEXER_ADDRESS + 20) = 4 ∧
      load_u32 s.memory (LEXER_ADDRESS + 24) = 5) := by
  have hm : s.memory = initial_memory := by rw [store_new_state h]
  have hc : s.current_memory_offset = LEXER_END_ADDRESS := by rw [store_new_state h]
  have ht : s.current_function_table_offset = definitions_len := by rw [store_new_state h]
  have hl : s.language_instances = [] := by rw [store_new_state h]
  have hx : s.current_lexer = none := by rw [store_new_state h]
  have hi : s.current_instance = none := by rw [store_new_state h]
  rw [hm, hc, ht]
  exact ⟨⟨rfl, by decide, rfl, hl, hx, hi⟩, ⟨rfl, by decide, by decide, by decide⟩,
    ⟨by decide, by decide, by decide, by decide, by decide⟩⟩

/-- Witness for C14: the store made by `example_engine` from `example_wasm`. -/
theorem store_new_initial_state_witness :
    ts_wasm_store_new example_engine example_wasm = .ok example_store ∧
    example_store.current_memory_offset = 60 ∧
    example_store.current_function_table_offset = 10 ∧
    load_u32 example_store.memory 48 = 3 :=
  have h := store_new_initial_state example_engine example_wasm example_store rfl
  ⟨rfl, h.1.1, h.1.2.2.1, h.2.2.2.2.1⟩

/-! ### The call shims -/

theorem load_u32_write_u32 (m : Memory) (a v : Nat) :
    load_u32 (write_u32 m a v) a = v % 2 ^ 32 := by
  have h0 : a ≤ a ∧ a < a + 4 := by omega
  have h1 : a ≤ a + 1 ∧ a + 1 < a + 4 := by omega
  have h2 : a ≤ a + 2 ∧ a + 2 < a + 4 := by omega
  have h3 : a ≤ a + 3 ∧ a + 3 < a + 4 := by omega
  have e0 : a - a = 0 := by omega
  have e1 : a + 1 - a = 1 := by omega
  have e2 : a + 2 - a = 2 := by omega
  have e3 : a + 3 - a = 3 := by omega
  unfold load_u32 write_u32
  simp only [h0, h1, h2, h3, and_self, if_true, e0, e1, e2, e3]
  norm_num
  omega

theorem call_lex_function_run (guest_call : GuestCall) (self : TSWasmStore) (lexer : TSLexer)
    (function_index state func : Nat) (results : List Nat) (g : Guest) (lexer1 : TSLexer)
    (hlexer : self.current_lexer = some lexer)
    (hmem : LEXER_ADDRESS + 4 ≤ self.memory.size)
    (hfunc : self.function_table[function_index]? = some (some func))
    (hcall : guest_call func [LEXER_ADDRESS, state]
      ⟨write_u32 self.memory LEXER_ADDRESS lexer.lookahead, self.function_table⟩ (some lexer)
      = (.returns results, g, some lexer1))
    (hmem1 : LEXER_ADDRESS + 6 ≤ g.memory.size) :
    ts_wasm_store__call_lex_function guest_call self function_index state
      = .ok (raw_i32_to_bool results,
          { self with
            memory := g.memory
            function_table := g.table
            current_lexer := some
              { lookahead := load_u32 g.memory LEXER_ADDRESS
                result_symbol := load_u16 g.memory (LEXER_ADDRESS + 4) } }) := by
  simp only [ts_wasm_store__call_lex_function, write_lookahead, hlexer, hmem, if_true,
    ts_wasm_store__call, hfunc, hcall, read_back_lexer, with_guest, hmem1]

/-- C11. For a store bound to `lexer` (a 32-bit `lookahead`) and to the instance `inst`, and
every `state`: `ts_wasm_store_call_lex_main` (`keyword = false`) and
`ts_wasm_store_call_lex_keyword` (`keyword = true`) call the function in the table slot
`inst.lex_main_fn_index`, respectively `inst.lex_keyword_fn_index`, with the arguments
`(32, state)` on a guest memory whose lexer structure at address 32 has the `lookahead` field
equal to `lexer.lookahead`. When that call returns `results` and leaves the guest state `g`
(with the lexer structure still inside the memory), the shim returns, the host lexer's
`lookahead` and `result_symbol` are the fields at the addresses 32 and 36 of `g.memory`, and
the returned boolean is `true` exactly when the `i32` in `results[0]` is not zero. -/
theorem call_lex_shim_contract (guest_call : GuestCall) (self : TSWasmStore) (lexer : TSLexer)
    (index : Nat) (inst : LanguageWasmInstance) ( keyword : Bool) (state func : Nat)
    (results : List Nat) (g : Guest) (lexer1 : TSLexer)
    (hlexer : self.current_lexer = some lexer) (hlookahead : lexer.lookahead < 2 ^ 32)
    (hcurrent : self.current_instance = some index)
    (hinst : self.language_instances[index]? = some inst)
    (hmem : LEXER_ADDRESS + 4 ≤ self.memory.size)
    (hfunc : self.function_table[
      if keyword then inst.lex_keyword_fn_index else inst.lex_main_fn_index]?
      = some (some func))
    (hcall : guest_call func [32, state]
      ⟨write_u32 self.memory LEXER_ADDRESS lexer.lookahead, self.function_table⟩ (some lexer)
      = (.returns results, g, some lexer1))
    (hmem1 : LEXER_ADDRESS + 6 ≤ g.memory.size) :
    LEXER_ADDRESS = 32 ∧
    load_u32 (write_u32 self.memory LEXER_ADDRESS lexer.lookahead) LEXER_ADDRESS
      = lexer.lookahead ∧
    ∃ result self1,
      (if keyword then ts_wasm_store_call_lex_keyword guest_call self state
        else ts_wasm_store_call_lex_main guest_call self state) = .ok (result, self1) ∧
      (result = true ↔ results.getD 0 0 % 2 ^ 32 ≠ 0) ∧
      self1.current_lexer = some
        { lookahead := load_u32 g.memory LEXER_ADDRESS
          result_symbol := load_u16 g.memory (LEXER_ADDRESS + 4) } ∧
      self1.memory = g.memory := by
  refine ⟨rfl, ?_, ?_⟩
  · rw [load_u32_write_u32]; exact Nat.mod_eq_of_lt hlookahead
  · have hv : current_instance_value self = .ok inst := by
      simp only [current_instance_value, hcurrent, hinst]
    refine ⟨raw_i32_to_bool results,
      { self with
        memory := g.memory
        function_table := g.table
        current_lexer := some
          { lookahead := load_u32 g.memory LEXER_ADDRESS
            result_symbol := load_u16 g.memory (LEXER_ADDRESS + 4) } }, ?_, ?_, rfl, rfl⟩
    · cases keyword with
      | true =>
        simp only [if_true] at hfunc ⊢
        simp only [ts_wasm_store_call_lex_keyword, hv]
        exact call_lex_function_run guest_call self lexer _ state func results g lexer1
          hlexer hmem hfunc hcall hmem1
      | false =>
        simp only [Bool.false_eq_true, if_false] at hfunc ⊢
        simp only [ts_wasm_store_call_lex_main, hv]
        exact call_lex_function_run guest_call self lexer _ state func results g lexer1
          hlexer hmem hfunc hcall hmem1
    · unfold raw_i32_to_bool
      exact decide_eq_true_iff

/-- Witness for C11: `example_bound_store` (lookahead 97) calls its main lex function with the
state 5. The guest function sees the lookahead 97, leaves 98 and the symbol 5 in the lexer
structure and returns 1; the shim returns `true` with the host lexer at lookahead 98 and
result symbol 5. -/
theorem call_lex_shim_contract_witness :
    (ts_wasm_store_call_lex_main example_guest_call example_bound_store 5).map
        (fun r => (r.1, r.2.current_lexer)) = .ok (true, some ⟨98, 5⟩) ∧
    (LEXER_ADDRESS = 32 ∧
      load_u32 (write_u32 example_bound_store.memory LEXER_ADDRESS 97) LEXER_ADDRESS = 97 ∧
      ∃ result self1,
        ts_wasm_store_call_lex_main example_guest_call example_bound_store 5
          = .ok (result, self1) ∧
        (result = true ↔ [1, 5].getD 0 0 % 2 ^ 32 ≠ 0) ∧
        self1.current_lexer = some
          { lookahead := load_u32 example_guest_after_lex.memory LEXER_ADDRESS
            result_symbol := load_u16 example_guest_after_lex.memory (LEXER_ADDRESS + 4) } ∧
        self1.memory = example_guest_after_lex.memory) :=
  ⟨by decide,
    call_lex_shim_contract example_guest_call example_bound_store ⟨97, 0⟩ 0
      example_language_instance false 5 200 [1, 5] example_guest_after_lex ⟨97, 0⟩
      rfl (by decide) rfl rfl (by decide) rfl rfl (by decide)⟩

/-- C12. For a store bound to `lexer` and to the instance `inst`, and every `scanner_address`
and `valid_tokens_ix`: `ts_wasm_store_call_scanner_scan` calls the function in the table slot
`inst.scanner_scan_fn_index` with exactly the three arguments `scanner_address`, 32 and
`inst.external_states_address + valid_tokens_ix * 1` reduced modulo `2 ^ 32`. Whatever that
call with these arguments returns decides the result of the shim: when it returns `results`
and the guest state `g`, the shim returns, with the boolean of `results[0]` and the host lexer
read back from `g.memory`. -/
theorem call_scanner_scan_arguments (guest_call : GuestCall) (self : TSWasmStore)
    (lexer : TSLexer) (index : Nat) (inst : LanguageWasmInstance)
    (scanner_address valid_tokens_ix func : Nat) (results : List Nat) (g : Guest)
    (lexer1 : TSLexer)
    (hlexer : self.current_lexer = some lexer)
    (hcurrent : self.current_instance = some index)
    (hinst : self.language_instances[index]? = some inst)
    (hmem : LEXER_ADDRESS + 4 ≤ self.memory.size)
    (hfunc : self.function_table[inst.scanner_scan_fn_index]? = some (some func))
    (hcall : guest_call func
      [scanner_address, 32, (inst.external_states_address + valid_tokens_ix * 1) % 2 ^ 32]
      ⟨write_u32 self.memory LEXER_ADDRESS lexer.lookahead, self.function_table⟩ (some lexer)
      = (.returns results, g, some lexer1))
    (hmem1 : LEXER_ADDRESS + 6 ≤ g.memory.size) :
    ∃ result self1,
      ts_wasm_store_call_scanner_scan guest_call self scanner_address valid_tokens_ix
        = .ok (result, self1) ∧
      (result = true ↔ results.getD 0 0 % 2 ^ 32 ≠ 0) ∧
      self1.current_lexer = some
        { lookahead := load_u32 g.memory LEXER_ADDRESS
          result_symbol := load_u16 g.memory (LEXER_ADDRESS + 4) } ∧
      self1.memory = g.memory := by
  have hcall1 : guest_call func
      [scanner_address, LEXER_ADDRESS,
        (inst.external_states_address + valid_tokens_ix * 1) % 2 ^ 32]
      ⟨write_u32 self.memory LEXER_ADDRESS lexer.lookahead, self.function_table⟩ (some lexer)
      = (.returns results, g, some lexer1) := hcall
  refine ⟨raw_i32_to_bool results,
    { self with
      memory := g.memory
      function_table := g.table
      current_lexer := some
        { lookahead := load_u32 g.memory LEXER_ADDRESS
          result_symbol := load_u16 g.memory (LEXER_ADDRESS + 4) } }, ?_, ?_, rfl, rfl⟩
  · unfold ts_wasm_store_call_scanner_scan
    simp only [write_lookahead, hlexer, hmem, if_true, current_instance_value, hcurrent, hinst,
      ts_wasm_store__call, hfunc]
    rw [hcall1]
    simp only [read_back_lexer, with_guest, hmem1, if_true]
  · unfold raw_i32_to_bool
    exact decide_eq_true_iff

/-- Witness for C12: `example_bound_store` (valid-token rows at 2000) scans with the scanner at
3000 and the row index `2 ^ 32 - 1000`. The address wraps to 1000, the guest function is given
`(3000, 32, 1000)` and stores the third and first argument in the lexer structure; the shim
returns `true` with the host lexer at lookahead 1000 and result symbol 3000. -/
theorem call_scanner_scan_arguments_witness :
    (ts_wasm_store_call_scanner_scan example_guest_call example_bound_store 3000
        4294966296).map (fun r => (r.1, r.2.current_lexer)) = .ok (true, some ⟨1000, 3000⟩) ∧
    ∃ result self1,
      ts_wasm_store_call_scanner_scan example_guest_call example_bound_store 3000 4294966296
        = .ok (result, self1) ∧
      (result = true ↔ [1, 32, 1000].getD 0 0 % 2 ^ 32 ≠ 0) ∧
      self1.current_lexer = some
        { lookahead := load_u32 example_guest_after_scan.memory LEXER_ADDRESS
          result_symbol := load_u16 example_guest_after_scan.memory (LEXER_ADDRESS + 4) } ∧
      self1.memory = example_guest_after_scan.memory :=
  ⟨by decide,
    call_scanner_scan_arguments example_guest_call example_bound_store ⟨97, 0⟩ 0
      example_language_instance 3000 4294966296 202 [1, 32, 1000] example_guest_after_scan
      ⟨97, 0⟩ rfl rfl rfl (by decide) rfl rfl (by decide)⟩

/-! ### The sorted search and what a successful `ts_wasm_store_add_language` does -/

theorem array_search_sorted_loop_lt (ids : List Nat) (needle : Nat) :
    ∀ (fuel size index : Nat), 1 ≤ size → index + size ≤ ids.length →
      array_search_sorted_loop ids needle fuel size index < ids.length := by
  intro fuel
  induction fuel with
  | zero => intro size index h1 h2; simp only [array_search_sorted_loop]; omega
  | succ fuel ih =>
    intro size index h1 h2
    simp only [array_search_sorted_loop]
    split
    next hs =>
      split
      next => exact ih _ _ (by omega) (by omega)
      next => exact ih _ _ (by omega) (by omega)
    next => omega

theorem array_search_sorted_by_exists {l : List LanguageWasmInstance} {needle index : Nat}
    (h : array_search_sorted_by l needle = (index, true)) :
    ∃ inst, l[index]? = some inst ∧ inst.language_id = needle := by
  unfold array_search_sorted_by at h
  simp only [] at h
  split at h
  next => simp at h
  next hlen =>
    have hlt := array_search_sorted_loop_lt (l.map (fun inst => inst.language_id)) needle
      (l.map (fun inst => inst.language_id)).length
      (l.map (fun inst => inst.language_id)).length 0 (by omega) (by omega)
    split at h
    next heq =>
      simp only [Prod.mk.injEq, and_true] at h
      rw [h] at hlt heq
      rw [List.length_map] at hlt
      refine ⟨l[index], List.getElem?_eq_getElem hlt, ?_⟩
      rw [List.getD_eq_getElem?_getD, List.getElem?_map, List.getElem?_eq_getElem hlt] at heq
      exact heq
    next =>
      split at h <;> simp at h

theorem array_search_sorted_by_le (l : List LanguageWasmInstance) (needle : Nat) :
    (array_search_sorted_by l needle).1 ≤ l.length := by
  unfold array_search_sorted_by
  simp only []
  split
  next => exact Nat.zero_le _
  next hlen =>
    have hlt := Nat.lt_of_lt_of_eq
      (array_search_sorted_loop_lt (l.map (fun inst => inst.language_id)) needle
        (l.map (fun inst => inst.language_id)).length
        (l.map (fun inst => inst.language_id)).length 0 (by omega) (by omega))
      (List.length_map l (fun inst => inst.language_id))
    split
    next => exact Nat.le_of_lt hlt
    next =>
      split
      next => exact hlt
      next => exact Nat.le_of_lt hlt

theorem add_language_success {search : List LanguageWasmInstance → Nat → Nat × Bool}
    {self s1 : TSWasmStore} {language : TSLanguage} {uninit : wasmtime_extern_t} {index : Nat}
    (h : ts_wasm_store_add_language search self language uninit = .ok (true, index, s1)) :
    ∃ language_module, language.keyword_lex_fn = some language_module ∧
      ((search self.language_instances language_module.language_id = (index, true) ∧
          s1 = self) ∨
        (search self.language_instances language_module.language_id = (index, false) ∧
          ∃ inst language_address self1 w,
            ts_wasm_store__instantiate self language_module.module language_module.name uninit
              = .ok (some (inst, language_address), self1) ∧
            read_language self1.memory language_address = .ok w ∧
            index ≤ self1.language_instances.length ∧
            s1 = { self1 with
              language_instances := self1.language_instances.take index ++
                new_language_instance language_module.language_id inst w ::
                  self1.language_instances.drop index })) := by
  unfold ts_wasm_store_add_language at h
  split at h
  next => simp at h
  next language_module hmod =>
    refine ⟨language_module, hmod, ?_⟩
    split at h
    next idx hs =>
      simp only [Except.ok.injEq, Prod.mk.injEq, true_and] at h
      left
      rw [← h.1, ← h.2]
      exact ⟨hs, rfl⟩
    next idx hs =>
      right
      split at h
      next => simp at h
      next => simp at h
      next inst language_address self1 hi =>
        split at h
        next => simp at h
        next w hw =>
          split at h
          next => simp at h
          next instances hins =>
            unfold array_insert at hins
            split at hins
            next hle =>
              simp only [Except.ok.injEq, Prod.mk.injEq, true_and] at h
              simp only [Except.ok.injEq] at hins
              rw [← h.1, ← h.2, ← hins]
              exact ⟨hs, inst, language_address, self1, w, hi, hw, hle, rfl⟩
            next => simp at hins

/-- C13. For every store, lexer and descriptor: `ts_wasm_store_start` on the null descriptor
and on a descriptor whose `lex_fn` is not the sentinel returns `false` and leaves the store as
it was; when `ts_wasm_store_start` returns `true`, the store's `current_lexer` is the given
lexer and `current_instance` is an element of the store's `language_instances` whose
`language_id` is the id of the descriptor's module (`keyword_lex_fn`); and
`ts_wasm_store_stop`, on that or any other store, leaves `current_lexer` and
`current_instance` both null. -/
theorem start_stop_contract (self : TSWasmStore) (lexer : TSLexer) (uninit : wasmtime_extern_t) :
    ts_wasm_store_start array_search_sorted_by self lexer none uninit = .ok (false, self) ∧
    (∀ language : TSLanguage, ts_language_is_wasm language = false →
      ts_wasm_store_start array_search_sorted_by self lexer (some language) uninit
        = .ok (false, self)) ∧
    (∀ (language : TSLanguage) (self1 : TSWasmStore),
      ts_wasm_store_start array_search_sorted_by self lexer (some language) uninit
        = .ok (true, self1) →
      self1.current_lexer = some lexer ∧
      (∃ language_module index inst,
        language.keyword_lex_fn = some language_module ∧
        self1.current_instance = some index ∧
        self1.language_instances[index]? = some inst ∧
        inst.language_id = language_module.language_id) ∧
      (ts_wasm_store_stop self1).current_lexer = none ∧
      (ts_wasm_store_stop self1).current_instance = none) ∧
    (∀ s : TSWasmStore,
      (ts_wasm_store_stop s).current_lexer = none ∧
      (ts_wasm_store_stop s).current_instance = none) := by
  refine ⟨rfl, ?_, ?_, fun _ => ⟨rfl, rfl⟩⟩
  · intro language hl
    simp only [ts_wasm_store_start, hl, Bool.false_eq_true, if_false]
  · intro language self1 h
    unfold ts_wasm_store_start at h
    simp only [] at h
    split at h
    next =>
      split at h
      next => simp at h
      next => simp at h
      next index s1 ha =>
        simp only [Except.ok.injEq, Prod.mk.injEq, true_and] at h
        obtain ⟨language_module, hmod, hcase⟩ := add_language_success ha
        refine ⟨by rw [← h], ?_, rfl, rfl⟩
        rcases hcase with ⟨hs, hself⟩ | ⟨_, inst, language_address, s2, w, _, _, hle, hs1⟩
        · obtain ⟨inst, hget, hid⟩ := array_search_sorted_by_exists hs
          refine ⟨language_module, index, inst, hmod, by rw [← h], ?_, hid⟩
          rw [← h, hself]
          exact hget
        · refine ⟨language_module, index,
            new_language_instance language_module.language_id inst w, hmod, by rw [← h], ?_,
            rfl⟩
          rw [← h, hs1]
          have hlen : (s2.language_instances.take index).length = index :=
            List.length_take_of_le hle
          simp only []
          rw [List.getElem?_append_right (by omega), hlen, Nat.sub_self]
          exact List.getElem?_cons_zero
    next => simp at h

/-- Witness for C13: `example_store` is started with a lexer at lookahead 97 and
`example_language` (module id 1). The start returns `true`; the store is then bound to that
lexer and to its instance 0, which has the id 1. -/
theorem start_stop_contract_witness :
    ts_wasm_store_start array_search_sorted_by example_store ⟨97, 0⟩ (some example_language)
      (.global 0) = .ok (true, example_started_store) ∧
    example_started_store.current_lexer = some ⟨97, 0⟩ ∧
    (∃ language_module index inst,
      example_language.keyword_lex_fn = some language_module ∧
      example_started_store.current_instance = some index ∧
      example_started_store.language_instances[index]? = some inst ∧
      inst.language_id = language_module.language_id) ∧
    (ts_wasm_store_stop example_started_store).current_lexer = none ∧
    (ts_wasm_store_stop example_started_store).current_instance = none :=
  ⟨rfl, (start_stop_contract example_store ⟨97, 0⟩ (.global 0)).2.2.1 example_language
    example_started_store rfl⟩

/-- C15 (failing input). The alias map with the two entries `{5, 1, [7]}` and `{9, 1, [11]}`
is the seven words `5 1 7 9 1 11 0`, 14 bytes with the terminator. The scan reads the symbol 5
and the count 1 and moves on by `2 + 1 * 2` bytes, without stepping over the count field: the
next "symbol" it reads is the alias 7 and the next "count" is the symbol 9 of the second entry,
so it moves on by `2 + 9 * 2` bytes, past the end of the map, and stops at a zero found at
offset 24. `alias_map_size` is 26, not 14, and `26 * 2 = 52` bytes are copied. For the map with
the single entry `{5, 1, [7]}` (8 bytes) the scan reads the alias as a symbol and the
terminator as its count and ends with `alias_map_size = 8`, but 16 bytes are copied. -/
theorem alias_map_scan_skips_no_count_field :
    (alias_map_words [(5, [7]), (9, [11])] = [5, 1, 7, 9, 1, 11, 0] ∧
      alias_map_span [(5, [7]), (9, [11])] = 14 ∧
      alias_map_scan (memory_of_words 64 8 (alias_map_words [(5, [7]), (9, [11])])) 8 65 0
        = .ok 26 ∧
      (copy_alias_tables (memory_of_words 64 8 (alias_map_words [(5, [7]), (9, [11])]))
        alias_map_example_block).map (fun r => r.1.length) = .ok 52) ∧
    (alias_map_span [(5, [7])] = 8 ∧
      alias_map_scan (memory_of_words 64 8 (alias_map_words [(5, [7])])) 8 65 0 = .ok 8 ∧
      (copy_alias_tables (memory_of_words 64 8 (alias_map_words [(5, [7])]))
        alias_map_example_block).map (fun r => r.1.length) = .ok 16) := by
  decide

/-! ### The function indices recorded for an instance -/

theorem load_language_success {sizes : ParserSizes} {self s1 : TSWasmStore}
    {next_language_id n1 : Nat} {language_name wasm : List Byte} {uninit : wasmtime_extern_t}
    {language : TSLanguage}
    (h : ts_wasm_store_load_language sizes self next_language_id language_name wasm uninit
      = .ok (some language, s1, n1)) :
    ∃ module inst language_address self1 w,
      self.engine.module_new wasm = some module ∧
      ts_wasm_store__instantiate self module language_name uninit
        = .ok (some (inst, language_address), self1) ∧
      read_language self1.memory language_address = .ok w ∧
      n1 = atomic_inc next_language_id ∧
      s1 = { self1 with
        language_instances := self1.language_instances ++
          [new_language_instance (atomic_inc next_language_id) inst w] } := by
  unfold ts_wasm_store_load_language at h
  split at h
  next => simp at h
  next module hmod =>
    split at h
    next => simp at h
    next => simp at h
    next inst language_address self1 hi =>
      split at h
      next => simp at h
      next w hw =>
        simp only [] at h
        split at h
        next => simp at h
        next language1 _ =>
          simp only [Except.ok.injEq, Prod.mk.injEq] at h
          exact ⟨module, inst, language_address, self1, w, hmod, hi, hw, h.2.2.symm,
            h.2.1.symm⟩

/-- C16 (counterexample). The guest of `example_store_with_block` leaves the indices 1 to 7 in
the function members of its language block, and the module is instantiated at the table base
10. Both `ts_wasm_store_load_language` and `ts_wasm_store_add_language` succeed and record
`lex_main_fn_index = 1`, `lex_keyword_fn_index = 2` and `scanner_scan_fn_index = 5`, the values
as read, not `10 + 1`, `10 + 2` and `10 + 5`. -/
theorem recorded_indices_lack_table_base :
    table_base_global example_store_with_block = .global 10 ∧
    read_language (write_language_indices initial_memory 1024) 1024
      = .ok example_language_block_with_indices ∧
    (ts_wasm_store_load_language example_sizes example_store_with_block 0 (cstr "x")
        example_wasm (.global 0)).map
      (fun r => (r.1.isSome, r.2.2, r.2.1.language_instances.map
        (fun x => [x.lex_main_fn_index, x.lex_keyword_fn_index, x.scanner_scan_fn_index])))
      = .ok (true, 1, [[1, 2, 5]]) ∧
    (ts_wasm_store_add_language array_search_sorted_by example_store_with_block
        example_language_with_block (.global 0)).map
      (fun r => (r.1, r.2.1, r.2.2.language_instances.map
        (fun x => [x.lex_main_fn_index, x.lex_keyword_fn_index, x.scanner_scan_fn_index])))
      = .ok (true, 0, [[1, 2, 5]]) := by
  decide

/-- C16 (amended). Every function index recorded for a new instance is the corresponding field
of the language block as read from guest memory; the table base is not added. When
`ts_wasm_store_load_language` succeeds, the store's instance list is the former list with one
record appended, whose seven function indices are the fields `lex_fn`, `keyword_lex_fn` and
`external_scanner.create/destroy/scan/serialize/deserialize` of the block read at the address
that the language function returned. When `ts_wasm_store_add_language` succeeds, either the
store is unchanged (the instance existed) or the list is the former list with one such record
inserted at the returned index. -/
theorem recorded_indices_are_block_fields (sizes : ParserSizes) (self : TSWasmStore)
    (next_language_id : Nat) (language_name wasm : List Byte) (uninit : wasmtime_extern_t) :
    (∀ (language : TSLanguage) (s1 : TSWasmStore) (n1 : Nat),
      ts_wasm_store_load_language sizes self next_language_id language_name wasm uninit
        = .ok (some language, s1, n1) →
      ∃ module inst language_address self1 w x,
        self.engine.module_new wasm = some module ∧
        ts_wasm_store__instantiate self module language_name uninit
          = .ok (some (inst, language_address), self1) ∧
        read_language self1.memory language_address = .ok w ∧
        s1.language_instances = self.language_instances ++ [x] ∧
        records_block_indices x w) ∧
    (∀ (language : TSLanguage) (index : Nat) (s1 : TSWasmStore),
      ts_wasm_store_add_language array_search_sorted_by self language uninit
        = .ok (true, index, s1) →
      s1 = self ∨
      ∃ language_module inst language_address self1 w x,
        language.keyword_lex_fn = some language_module ∧
        ts_wasm_store__instantiate self language_module.module language_module.name uninit
          = .ok (some (inst, language_address), self1) ∧
        read_language self1.memory language_address = .ok w ∧
        s1.language_instances
          = self.language_instances.take index ++ x :: self.language_instances.drop index ∧
        records_block_indices x w) := by
  constructor
  · intro language s1 n1 h
    obtain ⟨module, inst, language_address, self1, w, hmod, hi, hw, _, hs1⟩ :=
      load_language_success h
    obtain ⟨_, _, hl⟩ := instantiate_keeps_bookkeeping hi
    refine ⟨module, inst, language_address, self1, w,
      new_language_instance (atomic_inc next_language_id) inst w, hmod, hi, hw, ?_,
      ⟨rfl, rfl, rfl, rfl, rfl, rfl, rfl⟩⟩
    rw [hs1, ← hl]
  · intro language index s1 h
    obtain ⟨language_module, hmod, hcase⟩ := add_language_success h
    rcases hcase with ⟨_, hself⟩ | ⟨_, inst, language_address, self1, w, hi, hw, _, hs1⟩
    · exact Or.inl hself
    · right
      obtain ⟨_, _, hl⟩ := instantiate_keeps_bookkeeping hi
      refine ⟨language_module, inst, language_address, self1, w,
        new_language_instance language_module.language_id inst w, hmod, hi, hw, ?_,
        ⟨rfl, rfl, rfl, rfl, rfl, rfl, rfl⟩⟩
      rw [hs1, ← hl]

/-- Witness for C16 (amended): `ts_wasm_store_add_language` instantiates
`example_language_with_block` in the fresh store `example_store_with_block`; the record
inserted at index 0 holds the indices 1 to 7 of the block. -/
theorem recorded_indices_are_block_fields_witness :
    ts_wasm_store_add_language array_search_sorted_by example_store_with_block
      example_language_with_block (.global 0) = .ok (true, 0, example_store_with_block_added) ∧
    (example_store_with_block_added = example_store_with_block ∨
      ∃ language_module inst language_address self1 w x,
        example_language_with_block.keyword_lex_fn = some language_module ∧
        ts_wasm_store__instantiate example_store_with_block language_module.module
          language_module.name (.global 0) = .ok (some (inst, language_address), self1) ∧
        read_language self1.memory language_address = .ok w ∧
        example_store_with_block_added.language_instances
          = example_store_with_block.language_instances.take 0 ++
            x :: example_store_with_block.language_instances.drop 0 ∧
        records_block_indices x w) :=
  ⟨rfl, (recorded_indices_are_block_fields example_sizes example_store_with_block 0 (cstr "x")
    example_wasm (.global 0)).2 example_language_with_block 0 example_store_with_block_added
    rfl⟩

/-! ### The instance list stays sorted -/

theorem array_search_sorted_loop_spec (ids : List Nat) (needle : Nat)
    (hmono : ∀ a b : Nat, a < b → b < ids.length → ids.getD a 0 < ids.getD b 0) :
    ∀ (fuel size index : Nat), 1 ≤ size → index + size ≤ ids.length → size ≤ fuel + 1 →
      (∀ j : Nat, j < index → ids.getD j 0 < needle) →
      (∀ j : Nat, index + size ≤ j → j < ids.length → needle < ids.getD j 0) →
      (∀ j : Nat, j < array_search_sorted_loop ids needle fuel size index →
        ids.getD j 0 < needle) ∧
      (∀ j : Nat, array_search_sorted_loop ids needle fuel size index < j → j < ids.length →
        needle < ids.getD j 0) := by
  intro fuel
  induction fuel with
  | zero =>
    intro size index h1 h2 h3 hA hB
    simp only [array_search_sorted_loop]
    exact ⟨hA, fun j hj hl => hB j (by omega) hl⟩
  | succ fuel ih =>
    intro size index h1 h2 h3 hA hB
    simp only [array_search_sorted_loop]
    split
    next hs =>
      split
      next hle =>
        refine ih _ _ (by omega) (by omega) (by omega) ?_ ?_
        · intro j hj
          exact Nat.lt_of_lt_of_le (hmono j _ hj (by omega)) hle
        · intro j hj hl
          exact hB j (by omega) hl
      next hgt =>
        refine ih _ _ (by omega) (by omega) (by omega) hA ?_
        intro j hj hl
        have hmid : needle < ids.getD (index + size / 2) 0 := by omega
        by_cases he : j = index + size / 2
        · rw [he]; exact hmid
        · exact Nat.lt_trans hmid (hmono _ j (by omega) hl)
    next hs =>
      exact ⟨hA, fun j hj hl => hB j (by omega) hl⟩
theorem pairwise_getD_lt {ids : List Nat} (hs : ids.Pairwise (· < ·)) :
    ∀ a b : Nat, a < b → b < ids.length → ids.getD a 0 < ids.getD b 0 := by
  intro a b hab hb
  have ha : a < ids.length := by omega
  rw [List.getD_eq_getElem _ _ ha, List.getD_eq_getElem _ _ hb]
  exact List.pairwise_iff_getElem.mp hs a b ha hb hab

theorem mem_take_getD {ids : List Nat} {p a : Nat} (h : a ∈ ids.take p) :
    ∃ j : Nat, j < p ∧ j < ids.length ∧ ids.getD j 0 = a := by
  obtain ⟨j, hj, he⟩ := List.mem_iff_getElem.mp h
  rw [List.length_take] at hj
  refine ⟨j, by omega, by omega, ?_⟩
  rw [List.getD_eq_getElem _ _ (by omega)]
  rw [List.getElem_take] at he
  exact he

theorem mem_drop_getD {ids : List Nat} {p b : Nat} (h : b ∈ ids.drop p) :
    ∃ j : Nat, p ≤ j ∧ j < ids.length ∧ ids.getD j 0 = b := by
  obtain ⟨j, hj, he⟩ := List.mem_iff_getElem.mp h
  rw [List.length_drop] at hj
  refine ⟨p + j, by omega, by omega, ?_⟩
  rw [List.getD_eq_getElem _ _ (by omega)]
  rw [List.getElem_drop] at he
  exact he

theorem pairwise_insert_sorted {ids : List Nat} {p needle : Nat}
    (hs : ids.Pairwise (· < ·))
    (hA : ∀ j : Nat, j < p → j < ids.length → ids.getD j 0 < needle)
    (hB : ∀ j : Nat, p ≤ j → j < ids.length → needle < ids.getD j 0) :
    (ids.take p ++ needle :: ids.drop p).Pairwise (· < ·) := by
  rw [List.pairwise_append]
  refine ⟨hs.sublist (List.take_sublist p ids), ?_, ?_⟩
  · rw [List.pairwise_cons]
    refine ⟨?_, hs.sublist (List.drop_sublist p ids)⟩
    intro b hb
    obtain ⟨j, hj, hl, he⟩ := mem_drop_getD hb
    rw [← he]; exact hB j hj hl
  · intro a ha b hb
    obtain ⟨j, hj, hl, he⟩ := mem_take_getD ha
    have h1 : a < needle := by rw [← he]; exact hA j hj hl
    rcases List.mem_cons.mp hb with hb | hb
    · rw [hb]; exact h1
    · obtain ⟨j2, hj2, hl2, he2⟩ := mem_drop_getD hb
      have h2 : needle < b := by rw [← he2]; exact hB j2 hj2 hl2
      exact Nat.lt_trans h1 h2

theorem array_search_sorted_by_index (l : List LanguageWasmInstance) (needle : Nat)
    (hs : (l.map (fun inst => inst.language_id)).Pairwise (· < ·)) (hne : l.length ≠ 0) :
    array_search_sorted_loop (l.map (fun inst => inst.language_id)) needle l.length l.length 0
        < l.length ∧
    (∀ j : Nat,
      j < array_search_sorted_loop (l.map (fun inst => inst.language_id)) needle l.length
        l.length 0 →
      (l.map (fun inst => inst.language_id)).getD j 0 < needle) ∧
    (∀ j : Nat,
      array_search_sorted_loop (l.map (fun inst => inst.language_id)) needle l.length
        l.length 0 < j → j < l.length →
      needle < (l.map (fun inst => inst.language_id)).getD j 0) := by
  have hlen : (l.map (fun inst => inst.language_id)).length = l.length := List.length_map _ _
  have hlt := array_search_sorted_loop_lt (l.map (fun inst => inst.language_id)) needle
    l.length l.length 0 (by omega) (by omega)
  have hspec := array_search_sorted_loop_spec (l.map (fun inst => inst.language_id)) needle
    (pairwise_getD_lt hs) l.length l.length 0 (by omega) (by omega) (by omega)
    (fun j hj => absurd hj (Nat.not_lt_zero j)) (fun j hj hl => by omega)
  rw [hlen] at hlt
  refine ⟨hlt, hspec.1, fun j hj hl => hspec.2 j hj (by omega)⟩

theorem array_search_sorted_by_found (l : List LanguageWasmInstance) (needle k : Nat)
    (hs : (l.map (fun inst => inst.language_id)).Pairwise (· < ·))
    (hk : k < l.length) (hid : (l.map (fun inst => inst.language_id)).getD k 0 = needle) :
    array_search_sorted_by l needle = (k, true) := by
  have hne : l.length ≠ 0 := by omega
  obtain ⟨hlt, hA, hB⟩ := array_search_sorted_by_index l needle hs hne
  have hlen : (l.map (fun inst => inst.language_id)).length = l.length := List.length_map _ _
  have hik : array_search_sorted_loop (l.map (fun inst => inst.language_id)) needle l.length
      l.length 0 = k := by
    rcases Nat.lt_trichotomy k (array_search_sorted_loop (l.map (fun inst => inst.language_id))
      needle l.length l.length 0) with h | h | h
    · have := hA k h
      omega
    · exact h.symm
    · have := hB k h hk
      omega
  unfold array_search_sorted_by
  simp only [hlen, hne, if_false, hik, hid, if_true]

theorem array_search_sorted_by_absent (l : List LanguageWasmInstance) (needle p : Nat)
    (hs : (l.map (fun inst => inst.language_id)).Pairwise (· < ·))
    (h : array_search_sorted_by l needle = (p, false)) :
    (∀ j : Nat, j < p → j < l.length →
      (l.map (fun inst => inst.language_id)).getD j 0 < needle) ∧
    (∀ j : Nat, p ≤ j → j < l.length →
      needle < (l.map (fun inst => inst.language_id)).getD j 0) := by
  have hlen : (l.map (fun inst => inst.language_id)).length = l.length := List.length_map _ _
  unfold array_search_sorted_by at h
  simp only [hlen] at h
  split at h
  next h0 =>
    exact ⟨fun j _ hl => by omega, fun j _ hl => by omega⟩
  next hne =>
    obtain ⟨hlt, hA, hB⟩ := array_search_sorted_by_index l needle hs hne
    split at h
    next => simp at h
    next hneq =>
      split at h
      next hless =>
        simp only [Prod.mk.injEq, and_true] at h
        rw [← h]
        refine ⟨fun j hj _ => ?_, fun j hj hl => hB j (by omega) hl⟩
        by_cases he : j = array_search_sorted_loop (l.map (fun inst => inst.language_id))
          needle l.length l.length 0
        · rw [he]; exact hless
        · exact hA j (by omega)
      next hnl =>
        simp only [Prod.mk.injEq, and_true] at h
        rw [← h]
        refine ⟨fun j hj _ => hA j hj, fun j hj hl => ?_⟩
        by_cases he : j = array_search_sorted_loop (l.map (fun inst => inst.language_id))
          needle l.length l.length 0
        · rw [he]; omega
        · exact hB j (by omega) hl

theorem load_language_instances {sizes : ParserSizes} {self s1 : TSWasmStore}
    {next_language_id n1 : Nat} {language_name wasm : List Byte} {uninit : wasmtime_extern_t}
    {r : Option TSLanguage}
    (h : ts_wasm_store_load_language sizes self next_language_id language_name wasm uninit
      = .ok (r, s1, n1)) :
    (s1.language_instances = self.language_instances ∧ n1 = next_language_id) ∨
    (∃ x : LanguageWasmInstance, x.language_id = atomic_inc next_language_id ∧
      n1 = atomic_inc next_language_id ∧
      s1.language_instances = self.language_instances ++ [x]) := by
  cases r with
  | some language =>
    right
    obtain ⟨module, inst, language_address, self1, w, _, hi, _, hn, hs1⟩ :=
      load_language_success h
    obtain ⟨_, _, hl⟩ := instantiate_keeps_bookkeeping hi
    refine ⟨new_language_instance (atomic_inc next_language_id) inst w, rfl, hn, ?_⟩
    rw [hs1, ← hl]
  | none =>
    left
    refine ⟨(load_language_keeps_cursors h).2.2 rfl, ?_⟩
    unfold ts_wasm_store_load_language at h
    split at h
    next =>
      simp only [Except.ok.injEq, Prod.mk.injEq] at h
      exact h.2.2.symm
    next =>
      split at h
      next => simp at h
      next =>
        simp only [Except.ok.injEq, Prod.mk.injEq] at h
        exact h.2.2.symm
      next =>
        split at h
        next => simp at h
        next =>
          simp only [] at h
          split at h
          next => simp at h
          next => simp at h

theorem add_language_instances {search : List LanguageWasmInstance → Nat → Nat × Bool}
    {self s1 : TSWasmStore} {language : TSLanguage} {uninit : wasmtime_extern_t}
    {r : Bool} {index : Nat}
    (h : ts_wasm_store_add_language search self language uninit = .ok (r, index, s1)) :
    s1.language_instances = self.language_instances ∨
    (∃ (language_module : LanguageWasmModule) (x : LanguageWasmInstance),
      language.keyword_lex_fn = some language_module ∧
      search self.language_instances language_module.language_id = (index, false) ∧
      x.language_id = language_module.language_id ∧
      s1.language_instances
        = self.language_instances.take index ++ x :: self.language_instances.drop index) := by
  cases r with
  | true =>
    obtain ⟨language_module, hmod, hcase⟩ := add_language_success h
    rcases hcase with ⟨_, hself⟩ | ⟨hs, inst, language_address, self1, w, hi, _, _, hs1⟩
    · left; rw [hself]
    · right
      obtain ⟨_, _, hl⟩ := instantiate_keeps_bookkeeping hi
      refine ⟨language_module, new_language_instance language_module.language_id inst w,
        hmod, hs, rfl, ?_⟩
      rw [hs1, ← hl]
  | false =>
    left
    unfold ts_wasm_store_add_language at h
    split at h
    next => simp at h
    next =>
      split at h
      next => simp at h
      next =>
        split at h
        next => simp at h
        next self1 hi =>
          simp only [Except.ok.injEq, Prod.mk.injEq] at h
          rw [← h.2.2]
          exact (instantiate_keeps_bookkeeping hi).2.2
        next =>
          split at h
          next => simp at h
          next =>
            split at h
            next => simp at h
            next => simp at h

theorem registry_sorted_and_bounded {s : TSWasmStore} {n : Nat} (h : RegistryReachable s n) :
    (s.language_instances.map (fun inst => inst.language_id)).Pairwise (· < ·) ∧
    ∀ id : Nat, id ∈ s.language_instances.map (fun inst => inst.language_id) → id ≤ n := by
  induction h with
  | new engine stdlib s n hs =>
    have hl : s.language_instances = [] := by rw [store_new_state hs]
    rw [hl]
    exact ⟨List.Pairwise.nil, fun id hid => by simp at hid⟩
  | load sizes s n language_name wasm uninit r s1 n1 _ hn hl ih =>
    rcases load_language_instances hl with ⟨hsame, hn1⟩ | ⟨x, hx, hn1, happ⟩
    · rw [hsame, hn1]; exact ih
    · have hinc : atomic_inc n = n + 1 := by
        unfold atomic_inc
        exact Nat.mod_eq_of_lt hn
      rw [happ, hn1, hinc, List.map_append, List.map_cons, List.map_nil, hx, hinc]
      constructor
      · rw [List.pairwise_append]
        refine ⟨ih.1, List.pairwise_singleton _ _, ?_⟩
        intro a ha b hb
        rw [List.mem_singleton] at hb
        have := ih.2 a ha
        omega
      · intro id hid
        rcases List.mem_append.mp hid with hid | hid
        · have := ih.2 id hid
          omega
        · rw [List.mem_singleton] at hid
          omega
  | add s n language language_module uninit r index s1 _ hmod hle ha ih =>
    rcases add_language_instances ha with hsame | ⟨language_module1, x, hmod1, hs, hx, hins⟩
    · rw [hsame]; exact ih
    · have hm : language_module1 = language_module := by
        rw [hmod] at hmod1
        exact (Option.some.inj hmod1).symm
      rw [hm] at hs hx
      obtain ⟨hA, hB⟩ := array_search_sorted_by_absent s.language_instances
        language_module.language_id index ih.1 hs
      have hlen : (s.language_instances.map (fun inst => inst.language_id)).length
          = s.language_instances.length := List.length_map _ _
      rw [hins, List.map_append, List.map_cons, List.map_take, List.map_drop, hx]
      constructor
      · exact pairwise_insert_sorted ih.1 (fun j hj hl => hA j hj (by omega))
          (fun j hj hl => hB j hj (by omega))
      · intro id hid
        rcases List.mem_append.mp hid with hid | hid
        · exact ih.2 id (List.mem_of_mem_take hid)
        · rcases List.mem_cons.mp hid with hid | hid
          · rw [hid]; exact hle
          · exact ih.2 id (List.mem_of_mem_drop hid)
  | elsewhere s n n1 _ hle ih =>
    exact ⟨ih.1, fun id hid => Nat.le_trans (ih.2 id hid) hle⟩

/-- C17. In every store state that arises from a new store by calls of
`ts_wasm_store_load_language` and `ts_wasm_store_add_language`, the language ids being drawn
from the shared counter `NEXT_LANGUAGE_ID` without wrap-around (also by loads into other
stores), the `language_id` fields of `language_instances` are strictly increasing. Hence, for
a descriptor whose module has an instance in the list, at position `k`, the sorted search
returns `k` with `exists` set, and `ts_wasm_store_add_language` returns `true` with the index
`k` and leaves the store, its instance list included, as it was. -/
theorem registry_strictly_increasing (s : TSWasmStore) (n : Nat) (h : RegistryReachable s n) :
    (s.language_instances.map (fun inst => inst.language_id)).Pairwise (· < ·) ∧
    ∀ (language : TSLanguage) (language_module : LanguageWasmModule)
      (uninit : wasmtime_extern_t) (k : Nat) (inst : LanguageWasmInstance),
      language.keyword_lex_fn = some language_module →
      s.language_instances[k]? = some inst →
      inst.language_id = language_module.language_id →
      array_search_sorted_by s.language_instances language_module.language_id = (k, true) ∧
      ts_wasm_store_add_language array_search_sorted_by s language uninit
        = .ok (true, k, s) := by
  have hsorted := (registry_sorted_and_bounded h).1
  refine ⟨hsorted, ?_⟩
  intro language language_module uninit k inst hmod hk hid
  have hfound : array_search_sorted_by s.language_instances language_module.language_id
      = (k, true) := by
    obtain ⟨hlt, hget⟩ := List.getElem?_eq_some_iff.mp hk
    refine array_search_sorted_by_found s.language_instances _ k hsorted hlt ?_
    rw [List.getD_eq_getElem?_getD, List.getElem?_map, hk]
    exact hid
  refine ⟨hfound, ?_⟩
  simp only [ts_wasm_store_add_language, hmod, hfound]

/-- Witness for C17: the counter stands at 2 (two languages were loaded in other stores); the
new store `example_store` is given the language 2 and then the language 1 by
`ts_wasm_store_add_language`. The ids of its instance list are `[1, 2]`; the search for the id
2 returns the index 1, and adding the language 2 again returns that index and changes
nothing. -/
theorem registry_strictly_increasing_witness :
    example_registry_store.language_instances.map (fun inst => inst.language_id) = [1, 2] ∧
    (example_registry_store.language_instances.map
      (fun inst => inst.language_id)).Pairwise (· < ·) ∧
    array_search_sorted_by example_registry_store.language_instances 2 = (1, true) ∧
    ts_wasm_store_add_language array_search_sorted_by example_registry_store
      example_language_two (.global 0) = .ok (true, 1, example_registry_store) :=
  have h := registry_strictly_increasing example_registry_store 2
    (RegistryReachable.add example_store_with_two 2 example_language example_language_module
      (.global 0) true 0 example_registry_store
      (RegistryReachable.add example_store 2 example_language_two example_language_module_two
        (.global 0) true 0 example_store_with_two
        (RegistryReachable.new example_engine example_wasm example_store 2 rfl)
        rfl (by decide) rfl)
      rfl (by decide) rfl)
  ⟨rfl, h.1, h.2 example_language_two example_language_module_two (.global 0) 1
    (new_language_instance 2 example_instance example_language_block) rfl rfl rfl⟩

end TreeSitterWasm
